import Mathlib

/-!
# CS260 Assignment 4 — lock-step game client

A shallow embedding of the lock-step game mode of `CS260_Assignment4_Client`
(`LockstepGame.cpp`, `Player.cpp`, `LocalPlayerController.cpp`, `Board.cpp`,
`BoardPosition.h`), of the game states that lead to it
(`LockstepConfiguringState.cpp`, `LockstepConnectingState.cpp`,
`LockstepHostingState.cpp`, with `PlayGame`, `PlayGameState_Init` and
`PlayGameState_Exit` of `PlayGameState.cpp`) and of two peers playing over a lossy
network, together with theorems about them.

Conventions of the embedding.

* A C++ `int` is a Lean `Int`.  The target is WinSock (x86/x64 Windows): `int`
  is 32 bits wide, two's complement, little-endian.  `++` and `--` are modelled
  by `incInt32` and `decInt32`, which wrap at `INT_MAX` / `INT_MIN` as the
  machine does (the C++ standard leaves that case undefined).
* The object `LockstepGame` becomes a structure, each member function a pure
  function on it.  What a function does to the outside world (socket calls,
  `PlayDefaultGame`) is returned as a list of `Event`s.
* The results of the calls into the platform (`CP_Input_KeyTriggered`, `send`,
  `recvfrom`, `WSAGetLastError`) are inputs of a tick, gathered in `TickInput`.
* `assert` follows `<cassert>`: with `NDEBUG` defined (`ndebug = true`) it does
  nothing, otherwise a false condition aborts the process; an aborted tick has
  no resulting game state.
* The game states work on global variables, gathered in `Globals`; what their
  functions call in WinSock and in the engine is returned as a list of `Effect`s.
* Console logging (`std::cout`, `std::cerr`) and drawing are left out, except for
  the assertion of `Board::GetCenterOfTile` that `LockstepGame::Draw` reaches.
-/

namespace Lockstep

/-! ## Machine integers and bytes -/

/-- Largest value of a 32-bit `int`. -/
def INT_MAX : Int := 2147483647

/-- Smallest value of a 32-bit `int`. -/
def INT_MIN : Int := -2147483648

/-- The values a 32-bit `int` can hold. -/
def IsInt32 (i : Int) : Prop := INT_MIN ≤ i ∧ i ≤ INT_MAX

instance (i : Int) : Decidable (IsInt32 i) := by
  unfold IsInt32; exact inferInstance

/-- The operator `++` on an `int`, wrapping at `INT_MAX`. -/
def incInt32 (i : Int) : Int := if i = INT_MAX then INT_MIN else i + 1

/-- The operator `--` on an `int`, wrapping at `INT_MIN`. -/
def decInt32 (i : Int) : Int := if i = INT_MIN then INT_MAX else i - 1

/-- One `char` of a network buffer. -/
abbrev Byte := Fin 256

/-- The low eight bits of a natural number. -/
def byteOfNat (n : Nat) : Byte := ⟨n % 256, Nat.mod_lt n (by decide)⟩

/-- The four bytes an `int` occupies in memory, lowest byte first. -/
def int32ToBytes (i : Int) : List Byte :=
  let u : Nat := (i % 4294967296).toNat
  [byteOfNat u, byteOfNat (u / 256), byteOfNat (u / 65536), byteOfNat (u / 16777216)]

/-- The `int` whose memory image is the four given bytes, lowest byte first. -/
def int32FromBytes (b0 b1 b2 b3 : Byte) : Int :=
  let u : Nat := b0.val + 256 * b1.val + 65536 * b2.val + 16777216 * b3.val
  if u < 2147483648 then (u : Int) else (u : Int) - 4294967296

/-- The contents of a `char` array, by index.  Only the indices below the
allocated size are meaningful. -/
abbrev Buffer := Nat → Byte

/-- Store `data` into the buffer from offset `off` on. -/
def Buffer.write (buf : Buffer) (off : Nat) (data : List Byte) : Buffer :=
  fun i => if off ≤ i ∧ i < off + data.length then data.getD (i - off) 0 else buf i

/-- The first `n` bytes of the buffer. -/
def Buffer.take (buf : Buffer) (n : Nat) : List Byte := (List.range n).map buf

/-- Load an `int` stored at offset `off`. -/
def Buffer.readInt32 (buf : Buffer) (off : Nat) : Int :=
  int32FromBytes (buf off) (buf (off + 1)) (buf (off + 2)) (buf (off + 3))

/-! ## BoardPosition.h -/

/-- Data for the positions on a board (`struct BoardPosition`). -/
structure BoardPosition where
  x : Int
  y : Int
deriving DecidableEq, Repr

/-- The comparison `BoardPosition::operator==`. -/
def BoardPosition.beq (a other : BoardPosition) : Bool :=
  (a.x == other.x) && (a.y == other.y)

/-! ## Board.h, Board.cpp -/

/-- The tile counts of `class Board`; its other members only serve drawing. -/
structure Board where
  tile_count_x_ : Int := 23
  tile_count_y_ : Int := 17
deriving DecidableEq, Repr

/-- The accessor `Board::GetTileCountX`. -/
def Board.GetTileCountX (b : Board) : Int := b.tile_count_x_

/-- The accessor `Board::GetTileCountY`. -/
def Board.GetTileCountY (b : Board) : Int := b.tile_count_y_

/-- The predicate `Board::IsValidTile`. -/
def Board.IsValidTile (b : Board) (position : BoardPosition) : Bool :=
  decide (position.x ≥ 0) && decide (position.x < b.tile_count_x_) &&
  decide (position.y ≥ 0) && decide (position.y < b.tile_count_y_)

/-- The assertion at the start of `Board::GetCenterOfTile`: the result is `none`
when `assert(IsValidTile(position))` fails.  The coordinates that the method
computes after it only serve drawing and are left out. -/
def Board.GetCenterOfTile (b : Board) (ndebug : Bool) (position : BoardPosition) :
    Option Unit :=
  if !ndebug && !b.IsValidTile position then none else some ()

/-! ## Player.h, Player.cpp -/

/-- The move state of `struct Player`; `size` and `color` only serve drawing. -/
structure Player where
  current_position : BoardPosition := ⟨0, 0⟩
  uncommitted_position : BoardPosition := ⟨0, 0⟩
  has_uncommitted_move : Bool := false
deriving DecidableEq, Repr

/-- The method `Player::CommitMove`: apply the pending, uncommitted move. -/
def Player.CommitMove (p : Player) : Player :=
  if p.has_uncommitted_move then
    { p with current_position := p.uncommitted_position, has_uncommitted_move := false }
  else p

/-! ## LocalPlayerController.cpp -/

/-- The answers of `CP_Input_KeyTriggered` during one frame. -/
structure KeyInput where
  KEY_SPACE : Bool := false
  KEY_UP : Bool := false
  KEY_DOWN : Bool := false
  KEY_LEFT : Bool := false
  KEY_RIGHT : Bool := false
deriving DecidableEq, Repr

/-- The position the arrow keys point at, as `ApplyInput` computes it. -/
def LocalPlayerController.new_position (current : BoardPosition) (keys : KeyInput) :
    BoardPosition :=
  let y := if keys.KEY_UP then decInt32 current.y
           else if keys.KEY_DOWN then incInt32 current.y else current.y
  let x := if keys.KEY_LEFT then decInt32 current.x
           else if keys.KEY_RIGHT then incInt32 current.x else current.x
  ⟨x, y⟩

/-- The function `LocalPlayerController::ApplyInput`. -/
def LocalPlayerController.ApplyInput (player : Player) (board : Board) (keys : KeyInput) :
    Player :=
  if player.has_uncommitted_move then player
  else if keys.KEY_SPACE then
    { player with uncommitted_position := player.current_position,
                  has_uncommitted_move := true }
  else
    let new_position := LocalPlayerController.new_position player.current_position keys
    if !(new_position.beq player.current_position) && board.IsValidTile new_position then
      { player with uncommitted_position := new_position, has_uncommitted_move := true }
    else player

/-! ## The platform: WinSock calls -/

/-- The size of the network buffer (`kNetworkBufferSize`). -/
def kNetworkBufferSize : Nat := 1500

/-- The WinSock return value `SOCKET_ERROR`. -/
def SOCKET_ERROR : Int := -1

/-- The WinSock error code `WSAEWOULDBLOCK`. -/
def WSAEWOULDBLOCK : Int := 10035

/-- What a call of `send` does: it hands the datagram over, or it returns
`SOCKET_ERROR` and `WSAGetLastError` gives `wsa_error`. -/
inductive SendOutcome where
  | ok
  | error (wsa_error : Int)
deriving DecidableEq, Repr

/-- What a call of `recvfrom` finds: a queued datagram, or nothing but an error
code for `WSAGetLastError` (`WSAEWOULDBLOCK` when no datagram is queued). -/
inductive RecvOutcome where
  | datagram (payload : List Byte)
  | error (wsa_error : Int)
deriving DecidableEq, Repr

/-- The call `recvfrom(socket_, network_buffer_, kNetworkBufferSize, ...)`: the
new buffer contents and the return value.  A datagram that fits is stored at the
start of the buffer and its length returned; a longer one is cut to the buffer
size and reported as `SOCKET_ERROR`; an error leaves the buffer as it is. -/
def recvfrom (buf : Buffer) (o : RecvOutcome) : Buffer × Int :=
  match o with
  | .datagram payload =>
    if payload.length ≤ kNetworkBufferSize then (buf.write 0 payload, (payload.length : Int))
    else (buf.write 0 (payload.take kNetworkBufferSize), SOCKET_ERROR)
  | .error _ => (buf, SOCKET_ERROR)

/-- What a tick does to the outside world. -/
inductive Event where
  | send (payload : List Byte) (outcome : SendOutcome)
  | recvfrom (outcome : RecvOutcome)
  | PlayDefaultGame
deriving DecidableEq, Repr

/-- The inputs of one frame: the keys triggered, what `send` does if it is
called and what `recvfrom` does if it is called. -/
structure TickInput where
  keys : KeyInput := {}
  send_outcome : SendOutcome := .ok
  recv_outcome : RecvOutcome := .error WSAEWOULDBLOCK
deriving DecidableEq, Repr

/-! ## LockstepGame.h, LockstepGame.cpp -/

/-- The data members of `class LockstepGame` (with `board_` of `BoardGame`). -/
structure LockstepGame where
  board_ : Board := {}
  socket_ : Nat
  is_host_ : Bool
  is_local_update_sent_ : Bool
  turn_number_ : Int
  network_buffer_ : Buffer
  local_player_ : Player
  remote_player_ : Player

/-- The function `LockstepGame_HandleSocketError`, given the value of
`WSAGetLastError`: whether the error is fatal, and what it did. -/
def LockstepGame_HandleSocketError (wsa_error : Int) : Bool × List Event :=
  if wsa_error = WSAEWOULDBLOCK then (false, [])
  else (true, [Event.PlayDefaultGame])

/-- The constructor `LockstepGame::LockstepGame`.  The buffer comes from
`new char[kNetworkBufferSize]`, so its first contents are arbitrary. -/
def LockstepGame.construct (socket : Nat) (is_host : Bool) (fresh_buffer : Buffer) :
    LockstepGame :=
  let board : Board := {}
  let midpoint_x := Int.tdiv board.GetTileCountX 2
  let midpoint_y := Int.tdiv board.GetTileCountY 2
  let host_position : BoardPosition := ⟨midpoint_x - 1, midpoint_y - 1⟩
  let other_position : BoardPosition := ⟨midpoint_x + 1, midpoint_y + 1⟩
  let local_player : Player := { current_position := ⟨0, 0⟩ }
  let remote_player : Player := { current_position := ⟨1, 0⟩ }
  { board_ := board
    socket_ := socket
    is_host_ := is_host
    is_local_update_sent_ := false
    turn_number_ := 0
    network_buffer_ := fresh_buffer
    local_player_ :=
      if is_host then { local_player with current_position := host_position }
      else { local_player with current_position := other_position }
    remote_player_ :=
      if is_host then { remote_player with current_position := other_position }
      else { remote_player with current_position := host_position } }

/-- The size of `struct SerializedData`: an `int` and a `BoardPosition`. -/
def sizeof_SerializedData : Nat := 12

/-- The record `struct SerializedData` that a turn message carries. -/
structure SerializedData where
  turn_number : Int
  local_position : BoardPosition
deriving DecidableEq, Repr

/-- The memory image of a `SerializedData`: `turn_number` at offset 0,
`local_position.x` at offset 4, `local_position.y` at offset 8. -/
def SerializedData.bytes (d : SerializedData) : List Byte :=
  int32ToBytes d.turn_number ++ int32ToBytes d.local_position.x ++
    int32ToBytes d.local_position.y

/-- The method `LockstepGame::SerializeLocalState`: the buffer after the two
stores through the `SerializedData*`, and the number of bytes serialized.
`turn_number` lies at offset 0, `local_position.x` at 4, `local_position.y` at 8. -/
def LockstepGame.SerializeLocalState (g : LockstepGame) : Buffer × Nat :=
  let buf1 := g.network_buffer_.write 4
    (int32ToBytes g.local_player_.uncommitted_position.x ++
     int32ToBytes g.local_player_.uncommitted_position.y)
  let buf2 := buf1.write 0 (int32ToBytes g.turn_number_)
  (buf2, sizeof_SerializedData)

/-- The method `LockstepGame::DeserializeRemoteState`.  The result is `none`
when the assertion on `bytes_received` fails. -/
def LockstepGame.DeserializeRemoteState (ndebug : Bool) (g : LockstepGame)
    (bytes_received : Nat) : Option LockstepGame :=
  if !ndebug && !decide (bytes_received ≥ 4 + 8) then none
  else
    let remote_turn_number := g.network_buffer_.readInt32 0
    if remote_turn_number ≠ g.turn_number_ then some g
    else
      let local_position : BoardPosition :=
        ⟨g.network_buffer_.readInt32 4, g.network_buffer_.readInt32 8⟩
      some { g with remote_player_ :=
        { g.remote_player_ with uncommitted_position := local_position,
                                has_uncommitted_move := true } }

/-- The method `LockstepGame::HandleCollision`. -/
def LockstepGame.HandleCollision (g : LockstepGame)
    (old_local_position old_remote_position : BoardPosition) : LockstepGame :=
  if g.is_host_ then
    let g1 := { g with remote_player_ :=
      { g.remote_player_ with current_position := old_remote_position } }
    if g1.local_player_.current_position.beq g1.remote_player_.current_position then
      { g1 with local_player_ :=
        { g1.local_player_ with current_position := old_local_position } }
    else g1
  else
    let g1 := { g with local_player_ :=
      { g.local_player_ with current_position := old_local_position } }
    if g1.local_player_.current_position.beq g1.remote_player_.current_position then
      { g1 with remote_player_ :=
        { g1.remote_player_ with current_position := old_remote_position } }
    else g1

/-- How far a call of `LockstepGame::Update` gets before its commit check. -/
inductive TickProgress where
  | returned (g : LockstepGame)
  | aborted
  | at_commit_check (g : LockstepGame)

/-- Lines 97-119 of `LockstepGame::Update`: apply the input and, if the local
player has an unsent move, send it.  The flag tells whether `Update` returned
here, which it does after any error of `send`. -/
def LockstepGame.Update_send (g : LockstepGame) (keys : KeyInput) (so : SendOutcome) :
    List Event × LockstepGame × Bool :=
  let g1 := { g with
    local_player_ := LocalPlayerController.ApplyInput g.local_player_ g.board_ keys }
  if !g1.is_local_update_sent_ && g1.local_player_.has_uncommitted_move then
    let g2 := { g1 with network_buffer_ := g1.SerializeLocalState.1 }
    let send_size := g1.SerializeLocalState.2
    let ev := Event.send (g2.network_buffer_.take send_size) so
    match so with
    | .error wsa_error => (ev :: (LockstepGame_HandleSocketError wsa_error).2, g2, true)
    | .ok => ([ev], { g2 with is_local_update_sent_ := true }, false)
  else ([], g1, false)

/-- Lines 121-130 of `LockstepGame::Update`: one `recvfrom`, and the packet, if
any, is deserialized.  There is no game state left when the assertion fails. -/
def LockstepGame.Update_receive (ndebug : Bool) (g : LockstepGame) (ro : RecvOutcome) :
    List Event × Option LockstepGame :=
  let g1 := { g with network_buffer_ := (recvfrom g.network_buffer_ ro).1 }
  let res := (recvfrom g.network_buffer_ ro).2
  if res > 0 then ([Event.recvfrom ro], g1.DeserializeRemoteState ndebug res.toNat)
  else ([Event.recvfrom ro], some g1)

/-- Lines 132-153 of `LockstepGame::Update`: if both players have moved this
turn, commit both moves, start a new turn and handle a collision. -/
def LockstepGame.Update_commit (g : LockstepGame) : LockstepGame :=
  if g.local_player_.has_uncommitted_move && g.remote_player_.has_uncommitted_move then
    let old_local_position := g.local_player_.current_position
    let old_remote_position := g.remote_player_.current_position
    let g1 := { g with
      local_player_ := g.local_player_.CommitMove
      remote_player_ := g.remote_player_.CommitMove
      turn_number_ := incInt32 g.turn_number_
      is_local_update_sent_ := false }
    if g1.local_player_.current_position.beq g1.remote_player_.current_position then
      g1.HandleCollision old_local_position old_remote_position
    else g1
  else g

/-- The part of `LockstepGame::Update` before the commit check (lines 97-130):
what it did and how far it got. -/
def LockstepGame.Update_beforeCommit (ndebug : Bool) (g : LockstepGame) (inp : TickInput) :
    List Event × TickProgress :=
  let s := g.Update_send inp.keys inp.send_outcome
  if s.2.2 then (s.1, .returned s.2.1)
  else
    let r := s.2.1.Update_receive ndebug inp.recv_outcome
    match r.2 with
    | none => (s.1 ++ r.1, .aborted)
    | some g2 => (s.1 ++ r.1, .at_commit_check g2)

/-- What one call of `LockstepGame::Update` leaves behind: what it did, and the
game state, which is `none` when an assertion aborted the process. -/
structure TickResult where
  events : List Event
  game : Option LockstepGame

/-- The method `LockstepGame::Update`: the per-frame update of the game logic. -/
def LockstepGame.Update (ndebug : Bool) (g : LockstepGame) (inp : TickInput) : TickResult :=
  match (g.Update_beforeCommit ndebug inp).2 with
  | .returned g1 => ⟨(g.Update_beforeCommit ndebug inp).1, some g1⟩
  | .aborted => ⟨(g.Update_beforeCommit ndebug inp).1, none⟩
  | .at_commit_check g1 => ⟨(g.Update_beforeCommit ndebug inp).1, some g1.Update_commit⟩

/-- The game state when the commit check of `Update` runs, if the tick gets there. -/
def LockstepGame.atCommitCheck (ndebug : Bool) (g : LockstepGame) (inp : TickInput) :
    Option LockstepGame :=
  match (g.Update_beforeCommit ndebug inp).2 with
  | .at_commit_check g1 => some g1
  | _ => none

/-- The method `LockstepGame::Draw`, as far as its two calls of
`GetCenterOfTile` go: `none` when an assertion fails. -/
def LockstepGame.Draw (ndebug : Bool) (g : LockstepGame) : Option Unit :=
  (g.board_.GetCenterOfTile ndebug g.local_player_.current_position).bind fun _ =>
    g.board_.GetCenterOfTile ndebug g.remote_player_.current_position

/-- Successive frames of one `LockstepGame`, as `PlayGameState_Update` drives
them: `Update` is called once per frame with that frame's inputs.  The calls end
when an assertion aborts the process, and after a call of `PlayDefaultGame`,
which has the engine destroy this game before the next frame. -/
def LockstepGame.run (ndebug : Bool) : LockstepGame → List TickInput →
    List Event × Option LockstepGame
  | g, [] => ([], some g)
  | g, inp :: rest =>
    match (g.Update ndebug inp).game with
    | none => ((g.Update ndebug inp).events, none)
    | some g1 =>
      if Event.PlayDefaultGame ∈ (g.Update ndebug inp).events then
        ((g.Update ndebug inp).events, some g1)
      else
        ((g.Update ndebug inp).events ++ (LockstepGame.run ndebug g1 rest).1,
         (LockstepGame.run ndebug g1 rest).2)

/-- The turn number a successfully sent datagram carries in its first four
bytes; `none` for every other event. -/
def Event.sentTurn : Event → Option Int
  | .send payload .ok =>
    some (int32FromBytes (payload.getD 0 0) (payload.getD 1 0) (payload.getD 2 0)
      (payload.getD 3 0))
  | _ => none

/-- The turn numbers of the datagrams sent successfully, in the order of sending. -/
def sentTurns (events : List Event) : List Int := events.filterMap Event.sentTurn

/-- Whether `recvfrom` delivers a datagram shorter than a turn message
(between 1 and 11 bytes). -/
def RecvOutcome.isShort : RecvOutcome → Bool
  | .datagram payload => decide (0 < payload.length) && decide (payload.length < 12)
  | .error _ => false

/-! ## SinglePlayerGame.h, SinglePlayerGame.cpp -/

/-- The data members of `class SinglePlayerGame` (with `board_` of `BoardGame`). -/
structure SinglePlayerGame where
  board_ : Board := {}
  player_ : Player := { current_position := ⟨0, 0⟩ }
deriving DecidableEq, Repr

/-- The constructor `SinglePlayerGame::SinglePlayerGame`. -/
def SinglePlayerGame.construct : SinglePlayerGame :=
  let board : Board := {}
  { board_ := board
    player_ :=
      { current_position :=
          ⟨Int.tdiv board.GetTileCountX 2, Int.tdiv board.GetTileCountY 2⟩
        has_uncommitted_move := false } }

/-- The method `SinglePlayerGame::Update`. -/
def SinglePlayerGame.Update (g : SinglePlayerGame) (keys : KeyInput) : SinglePlayerGame :=
  { g with player_ := (LocalPlayerController.ApplyInput g.player_ g.board_ keys).CommitMove }

/-! ## The engine, the game states and their globals -/

/-- An object behind a `BoardGame*`: one of the two game modes. -/
inductive BoardGame where
  | single (g : SinglePlayerGame)
  | lockstep (g : LockstepGame)

/-- The game states the program hands to the engine, each a triple of an init,
an update and an exit function. -/
inductive GameState where
  | PlayGameState
  | LockstepConfiguringState
  | LockstepConnectingState
  | LockstepHostingState
deriving DecidableEq, Repr

/-- An address as `recvfrom` reports it and `connect` takes it. -/
structure sockaddr_in where
  sin_addr : Nat
  sin_port : Nat
deriving DecidableEq, Repr

/-- The WinSock error code `WSAECONNRESET`. -/
def WSAECONNRESET : Int := 10054

/-- The WinSock error code `WSAEMSGSIZE`, of a datagram longer than the buffer. -/
def WSAEMSGSIZE : Int := 10040

/-- The calls the game states make into WinSock and into the engine. -/
inductive Effect where
  | closesocket (s : Nat)
  | recvfrom (s : Nat) (outcome : RecvOutcome)
  | connect (s : Nat) (name : sockaddr_in) (outcome : SendOutcome)
  | send (s : Nat) (payload : List Byte) (outcome : SendOutcome)
  | CP_Engine_SetNextGameState (state : GameState)
  | CP_Engine_SetNextGameStateForced (state : GameState)
deriving DecidableEq, Repr

/-- The return value of `recvfrom` into a buffer of `size` bytes. -/
def RecvOutcome.res (o : RecvOutcome) (size : Nat) : Int :=
  match o with
  | .datagram payload => if payload.length ≤ size then (payload.length : Int) else SOCKET_ERROR
  | .error _ => SOCKET_ERROR

/-- The value of `WSAGetLastError` after a `recvfrom` into a buffer of `size`
bytes that returned `SOCKET_ERROR`. -/
def RecvOutcome.wsa_error (o : RecvOutcome) (size : Nat) : Int :=
  match o with
  | .datagram payload => if payload.length ≤ size then 0 else WSAEMSGSIZE
  | .error e => e

/-- The bytes of `s.c_str()`: the characters and the terminating zero. -/
def c_str (s : String) : List Byte := s.toList.map (fun c => byteOfNat c.toNat) ++ [0]

/-- The arithmetic on `float` that the connecting countdown uses.  The
embedding does not fix a model of floating point: every theorem holds for any
carrier `F` with these operations. -/
structure FloatOps (F : Type) where
  sub : F → F → F
  le_zero : F → Bool
  three : F

/-- What the configuring state uses of the class `PortEntryField`, whose source
is not part of the repository: the answers of `IsPortValid` and `GetPort`. -/
structure PortEntryField where
  IsPortValid : Bool
  GetPort : Nat
deriving DecidableEq, Repr

/-- The global variables of `PlayGameState.cpp`, `LockstepConfiguringState.cpp`,
`LockstepConnectingState.cpp` and `LockstepHostingState.cpp`; the description
texts only serve drawing. -/
structure Globals (F : Type) where
  current_game : Option BoardGame
  next_game : Option BoardGame
  port_entry_field : Option PortEntryField
  connecting_port : Nat
  connecting_socket : Nat
  connecting_timeout_secs : F
  hosting_port : Nat
  hosting_socket : Nat

/-- The inputs of one frame of a game state: the keys triggered, the value of
`CP_System_GetDt`, what the socket calls do if they are made, the memory that
`new` hands out for a network buffer, and the port entry field as its own
`Update` leaves it. -/
structure StateInput (F : Type) where
  KEY_ESCAPE : Bool
  KEY_ENTER : Bool
  dt : F
  recv_outcome : RecvOutcome
  remote_address : sockaddr_in
  connect_outcome : SendOutcome
  send_outcome : SendOutcome
  fresh_buffer : Buffer
  field_after_update : PortEntryField

/-- The statement `delete game`: the destructor of a `LockstepGame` closes its
socket, a `SinglePlayerGame` and a null pointer need nothing. -/
def BoardGame.delete : Option BoardGame → List Effect
  | some (.lockstep g) => [Effect.closesocket g.socket_]
  | _ => []

/-- The function `PlayGame`: queue the next game to be played. -/
def PlayGame {F : Type} (w : Globals F) (game : Option BoardGame) : Globals F × List Effect :=
  match game with
  | none => (w, [])
  | some g =>
    ({ w with next_game := some g },
     BoardGame.delete w.next_game ++
       [Effect.CP_Engine_SetNextGameStateForced GameState.PlayGameState])

/-- The function `PlayDefaultGame`: start a new single-player game. -/
def PlayDefaultGame {F : Type} (w : Globals F) : Globals F × List Effect :=
  PlayGame w (some (.single SinglePlayerGame.construct))

/-- The function `PlayGameState_Init`: apply the queued game. -/
def PlayGameState_Init {F : Type} (w : Globals F) : Globals F :=
  { w with current_game := w.next_game, next_game := none }

/-- The function `PlayGameState_Exit`: destroy the current game. -/
def PlayGameState_Exit {F : Type} (w : Globals F) : Globals F × List Effect :=
  ({ w with current_game := none }, BoardGame.delete w.current_game)

/-- The function `ConfigureLockstep`. -/
def ConfigureLockstep {F : Type} (w : Globals F) : Globals F × List Effect :=
  (w, [Effect.CP_Engine_SetNextGameState GameState.LockstepConfiguringState])

/-- The function `ConnectLockstep`. -/
def ConnectLockstep {F : Type} (w : Globals F) (port : Nat) : Globals F × List Effect :=
  ({ w with connecting_port := port },
   [Effect.CP_Engine_SetNextGameStateForced GameState.LockstepConnectingState])

/-- The function `HostLockstep`. -/
def HostLockstep {F : Type} (w : Globals F) (port : Nat) : Globals F × List Effect :=
  ({ w with hosting_port := port },
   [Effect.CP_Engine_SetNextGameStateForced GameState.LockstepHostingState])

/-- The game state the engine has queued after the given calls, while it is in
the state `current`.  Modelled from the documentation of the CProcessing engine,
whose source is not part of the repository: the latest call counts, and an
unforced call that names the state the engine is already in changes nothing. -/
def CP_Engine_queued (current : GameState) (effects : List Effect) : Option GameState :=
  effects.foldl (fun q e =>
    match e with
    | .CP_Engine_SetNextGameState st => if st = current then q else some st
    | .CP_Engine_SetNextGameStateForced st => some st
    | _ => q) none

/-! ## LockstepConfiguringState.cpp -/

/-- The function `LockstepConfiguringState_Update`.  There is no result when
`port_entry_field` is null. -/
def LockstepConfiguringState_Update {F : Type} (w : Globals F) (inp : StateInput F) :
    Option (Globals F × List Effect) :=
  match w.port_entry_field with
  | none => none
  | some _ =>
    let w1 := { w with port_entry_field := some inp.field_after_update }
    let r1 := if inp.KEY_ESCAPE then PlayDefaultGame w1 else (w1, [])
    let r2 :=
      if inp.KEY_ENTER && inp.field_after_update.IsPortValid then
        ConnectLockstep r1.1 inp.field_after_update.GetPort
      else (r1.1, [])
    some (r2.1, r1.2 ++ r2.2)

/-! ## LockstepConnectingState.cpp -/

/-- The function `LockstepConnectingState_HandleSocketError`, given the value
of `WSAGetLastError`: whether the error is fatal, and what it did. -/
def LockstepConnectingState_HandleSocketError {F : Type} (w : Globals F) (wsa_error : Int) :
    Bool × Globals F × List Effect :=
  if wsa_error = WSAEWOULDBLOCK then (false, w, [])
  else if wsa_error = WSAECONNRESET then
    (true, (HostLockstep w w.connecting_port).1,
     (HostLockstep w w.connecting_port).2 ++ [Effect.closesocket w.connecting_socket])
  else
    (true, (PlayDefaultGame w).1,
     (PlayDefaultGame w).2 ++ [Effect.closesocket w.connecting_socket])

/-- The function `LockstepConnectingState_Update` (the drawing left out). -/
def LockstepConnectingState_Update {F : Type} (ops : FloatOps F) (w : Globals F)
    (inp : StateInput F) : Globals F × List Effect :=
  if inp.KEY_ESCAPE then
    ((ConfigureLockstep w).1,
     (ConfigureLockstep w).2 ++ [Effect.closesocket w.connecting_socket])
  else
    let w1 := { w with
      connecting_timeout_secs := ops.sub w.connecting_timeout_secs inp.dt }
    if ops.le_zero w1.connecting_timeout_secs then
      ((HostLockstep w1 w1.connecting_port).1,
       (HostLockstep w1 w1.connecting_port).2 ++ [Effect.closesocket w1.connecting_socket])
    else
      let res := inp.recv_outcome.res 4096
      let ev := Effect.recvfrom w1.connecting_socket inp.recv_outcome
      if res = SOCKET_ERROR then
        let error := inp.recv_outcome.wsa_error 4096
        if error ≠ WSAEWOULDBLOCK then
          ((LockstepConnectingState_HandleSocketError w1 error).2.1,
           ev :: (LockstepConnectingState_HandleSocketError w1 error).2.2)
        else (w1, [ev])
      else if res > 0 then
        let game := BoardGame.lockstep
          (LockstepGame.construct w1.connecting_socket false inp.fresh_buffer)
        ((PlayGame w1 (some game)).1, ev :: (PlayGame w1 (some game)).2)
      else (w1, [ev])

/-! ## LockstepHostingState.cpp -/

/-- The function `LockstepHostingState_HandleSocketError`, given the value of
`WSAGetLastError`: whether the error is fatal, and what it did. -/
def LockstepHostingState_HandleSocketError {F : Type} (w : Globals F) (wsa_error : Int) :
    Bool × Globals F × List Effect :=
  if wsa_error = WSAEWOULDBLOCK then (false, w, [])
  else
    (true, (PlayDefaultGame w).1,
     (PlayDefaultGame w).2 ++ [Effect.closesocket w.hosting_socket])

/-- The function `LockstepHostingState_Update` (the drawing left out). -/
def LockstepHostingState_Update {F : Type} (w : Globals F) (inp : StateInput F) :
    Globals F × List Effect :=
  if inp.KEY_ESCAPE then
    ((ConfigureLockstep w).1,
     Effect.closesocket w.hosting_socket :: (ConfigureLockstep w).2)
  else
    let res := inp.recv_outcome.res 4096
    let ev := Effect.recvfrom w.hosting_socket inp.recv_outcome
    if res > 0 then
      let ev_connect :=
        Effect.connect w.hosting_socket inp.remote_address inp.connect_outcome
      match inp.connect_outcome with
      | .error e =>
        ((LockstepHostingState_HandleSocketError w e).2.1,
         [ev, ev_connect] ++ (LockstepHostingState_HandleSocketError w e).2.2)
      | .ok =>
        let message := "LetUsBegin"
        let ev_send := Effect.send w.hosting_socket
          ((c_str message).take (message.length + 1)) inp.send_outcome
        match inp.send_outcome with
        | .error e =>
          ((LockstepHostingState_HandleSocketError w e).2.1,
           [ev, ev_connect, ev_send] ++ (LockstepHostingState_HandleSocketError w e).2.2)
        | .ok =>
          let game := BoardGame.lockstep
            (LockstepGame.construct w.hosting_socket true inp.fresh_buffer)
          ((PlayGame w (some game)).1, [ev, ev_connect, ev_send] ++ (PlayGame w (some game)).2)
    else (w, [ev])

/-- The socket and the role of a queued lock-step game; `none` when the pointer
is null or points to a single-player game. -/
def BoardGame.lockstepRole : Option BoardGame → Option (Nat × Bool)
  | some (.lockstep g) => some (g.socket_, g.is_host_)
  | _ => none

/-! ## The rendezvous states from frame to frame -/

/-- The function `LockstepConnectingState_Exit`; its body is empty ("do not
close the socket!"). -/
def LockstepConnectingState_Exit {F : Type} (w : Globals F) : Globals F × List Effect :=
  (w, [])

/-- The function `LockstepHostingState_Exit`; its body is empty ("do not close
the socket!"). -/
def LockstepHostingState_Exit {F : Type} (w : Globals F) : Globals F × List Effect :=
  (w, [])

/-- The frames of the connecting state from its first `Update` on, as the engine
drives them: `LockstepConnectingState_Update` once per frame, and once a call
has queued another game state, `LockstepConnectingState_Exit` and no further
frame of this state.  Modelled from the documentation of the CProcessing engine,
whose source is not part of the repository. -/
def LockstepConnectingState_frames {F : Type} (ops : FloatOps F) :
    Globals F → List (StateInput F) → Globals F × List Effect
  | w, [] => (w, [])
  | w, inp :: rest =>
    if (CP_Engine_queued GameState.LockstepConnectingState
        (LockstepConnectingState_Update ops w inp).2).isSome then
      ((LockstepConnectingState_Exit (LockstepConnectingState_Update ops w inp).1).1,
       (LockstepConnectingState_Update ops w inp).2 ++
         (LockstepConnectingState_Exit (LockstepConnectingState_Update ops w inp).1).2)
    else
      ((LockstepConnectingState_frames ops
          (LockstepConnectingState_Update ops w inp).1 rest).1,
       (LockstepConnectingState_Update ops w inp).2 ++
         (LockstepConnectingState_frames ops
           (LockstepConnectingState_Update ops w inp).1 rest).2)

/-- The frames of the hosting state from its first `Update` on, as the engine
drives them: `LockstepHostingState_Update` once per frame, and once a call has
queued another game state, `LockstepHostingState_Exit` and no further frame of
this state.  Modelled from the documentation of the CProcessing engine, whose
source is not part of the repository. -/
def LockstepHostingState_frames {F : Type} :
    Globals F → List (StateInput F) → Globals F × List Effect
  | w, [] => (w, [])
  | w, inp :: rest =>
    if (CP_Engine_queued GameState.LockstepHostingState
        (LockstepHostingState_Update w inp).2).isSome then
      ((LockstepHostingState_Exit (LockstepHostingState_Update w inp).1).1,
       (LockstepHostingState_Update w inp).2 ++
         (LockstepHostingState_Exit (LockstepHostingState_Update w inp).1).2)
    else
      ((LockstepHostingState_frames (LockstepHostingState_Update w inp).1 rest).1,
       (LockstepHostingState_Update w inp).2 ++
         (LockstepHostingState_frames (LockstepHostingState_Update w inp).1 rest).2)

/-- The property "no lock-step game on the socket `s` is queued as the next game". -/
def NotQueuedOn {F : Type} (w : Globals F) (s : Nat) : Prop :=
  ∀ g, w.next_game = some (.lockstep g) → g.socket_ ≠ s

/-! ## Two peers and the network between them -/

/-- The datagrams that the `send` calls among the given events handed to the
network. -/
def sentPayloads (events : List Event) : List (List Byte) :=
  events.filterMap (fun e =>
    match e with
    | .send payload .ok => some payload
    | _ => none)

/-- A host and a non-host playing against each other, with every datagram each
of them has handed to the network so far, and whether each game is still
running (it is not after `PlayDefaultGame`). -/
structure Peers where
  host : LockstepGame
  nonhost : LockstepGame
  to_nonhost : List (List Byte)
  to_host : List (List Byte)
  host_running : Bool
  nonhost_running : Bool

/-- What a `recvfrom` may find when `sent` are the datagrams the other peer has
handed to the network so far: nothing (any error code), or any one of these
datagrams.  So the network may lose, delay, duplicate and reorder datagrams. -/
def deliverable (sent : List (List Byte)) (ro : RecvOutcome) : Prop :=
  match ro with
  | .error _ => True
  | .datagram payload => payload ∈ sent

/-- The two peers right after their constructors, nothing sent yet. -/
def Peers.start (host_socket nonhost_socket : Nat) (host_buffer nonhost_buffer : Buffer) :
    Peers :=
  { host := LockstepGame.construct host_socket true host_buffer
    nonhost := LockstepGame.construct nonhost_socket false nonhost_buffer
    to_nonhost := []
    to_host := []
    host_running := true
    nonhost_running := true }

/-- The state of the two peers after a tick of the host that left the game `g1`
and made the given calls. -/
def Peers.afterHostTick (s : Peers) (g1 : LockstepGame) (events : List Event) : Peers :=
  { s with
    host := g1
    to_nonhost := s.to_nonhost ++ sentPayloads events
    host_running := decide (Event.PlayDefaultGame ∉ events) }

/-- The state of the two peers after a tick of the non-host that left the game
`g1` and made the given calls. -/
def Peers.afterNonHostTick (s : Peers) (g1 : LockstepGame) (events : List Event) : Peers :=
  { s with
    nonhost := g1
    to_host := s.to_host ++ sentPayloads events
    nonhost_running := decide (Event.PlayDefaultGame ∉ events) }

/-- The states the two peers can be in after `k` ticks in all: they start from
their constructors, and each tick is a call of `Update` on a running game of one
of them, with any keys, any outcome of `send` and any deliverable outcome of
`recvfrom`, that returns. -/
inductive ReachableIn (ndebug : Bool) : Nat → Peers → Prop where
  | start (host_socket nonhost_socket : Nat) (host_buffer nonhost_buffer : Buffer) :
      ReachableIn ndebug 0 (Peers.start host_socket nonhost_socket host_buffer nonhost_buffer)
  | host_tick {k : Nat} {s : Peers} (inp : TickInput) (g1 : LockstepGame) :
      ReachableIn ndebug k s → s.host_running = true →
      deliverable s.to_host inp.recv_outcome →
      (s.host.Update ndebug inp).game = some g1 →
      ReachableIn ndebug (k + 1) (s.afterHostTick g1 (s.host.Update ndebug inp).events)
  | nonhost_tick {k : Nat} {s : Peers} (inp : TickInput) (g1 : LockstepGame) :
      ReachableIn ndebug k s → s.nonhost_running = true →
      deliverable s.to_nonhost inp.recv_outcome →
      (s.nonhost.Update ndebug inp).game = some g1 →
      ReachableIn ndebug (k + 1) (s.afterNonHostTick g1 (s.nonhost.Update ndebug inp).events)

/-! ### The invariant of the two peers -/

/-- The turn number in the first four bytes of a datagram. -/
def msgTurn (m : List Byte) : Int :=
  int32FromBytes (m.getD 0 0) (m.getD 1 0) (m.getD 2 0) (m.getD 3 0)

/-- The position in the bytes 4 to 11 of a datagram. -/
def msgPos (m : List Byte) : BoardPosition :=
  ⟨int32FromBytes (m.getD 4 0) (m.getD 5 0) (m.getD 6 0) (m.getD 7 0),
   int32FromBytes (m.getD 8 0) (m.getD 9 0) (m.getD 10 0) (m.getD 11 0)⟩

/-- The local and the remote `current_position` that the commit step of `Update`
leaves, from the positions before the commit and the two committed moves. -/
def resolve (is_host : Bool) (old_local old_remote new_local new_remote : BoardPosition) :
    BoardPosition × BoardPosition :=
  (if new_local = new_remote then
      if is_host = true then
        if new_local = old_remote then old_local else new_local
      else old_local
    else new_local,
   if new_local = new_remote then
      if is_host = true then old_remote
      else if old_local = new_remote then old_remote else new_remote
    else new_remote)

/-- The positions of a player are values of a 32-bit `int`. -/
def PosOK (p : Player) : Prop :=
  IsInt32 p.current_position.x ∧ IsInt32 p.current_position.y ∧
  (p.has_uncommitted_move = true →
    IsInt32 p.uncommitted_position.x ∧ IsInt32 p.uncommitted_position.y)

/-- What holds between a peer `P`, the datagrams `out` it has sent, and the
other peer `Q`: a datagram never carries a later turn than `P` is in, and one for
the current turn of `P` carries its pending move; a remote move that `Q` holds is
the move of `P` for the turn of `Q`; and when `P` is one turn ahead, `Q` has its
move pending and `P` stands where the commit of the moves of that turn puts it. -/
def Half (P Q : LockstepGame) (out : List (List Byte)) : Prop :=
  (∀ m ∈ out, m.length = 12 ∧ msgTurn m ≤ P.turn_number_ ∧
    (msgTurn m = P.turn_number_ →
      P.local_player_.has_uncommitted_move = true ∧
      P.local_player_.uncommitted_position = msgPos m)) ∧
  (Q.remote_player_.has_uncommitted_move = true →
    Q.turn_number_ ≤ P.turn_number_ ∧
    (Q.turn_number_ = P.turn_number_ →
      P.local_player_.has_uncommitted_move = true ∧
      Q.remote_player_.uncommitted_position = P.local_player_.uncommitted_position)) ∧
  (P.turn_number_ = Q.turn_number_ + 1 →
    Q.local_player_.has_uncommitted_move = true ∧
    ∃ mP : BoardPosition,
      (P.local_player_.current_position, P.remote_player_.current_position) =
        resolve P.is_host_ Q.remote_player_.current_position
          Q.local_player_.current_position mP Q.local_player_.uncommitted_position ∧
      (∀ m ∈ out, msgTurn m = Q.turn_number_ → msgPos m = mP) ∧
      (Q.remote_player_.has_uncommitted_move = true →
        Q.remote_player_.uncommitted_position = mP))

/-- The invariant of two peers `P` and `Q` after at most `k` ticks. -/
def Inv (k : Nat) (P Q : LockstepGame) (outP outQ : List (List Byte)) : Prop :=
  P.is_host_ = !Q.is_host_ ∧ Half P Q outP ∧ Half Q P outQ ∧
  P.turn_number_ ≤ Q.turn_number_ + 1 ∧ Q.turn_number_ ≤ P.turn_number_ + 1 ∧
  (P.turn_number_ = Q.turn_number_ →
    P.local_player_.current_position = Q.remote_player_.current_position ∧
    P.remote_player_.current_position = Q.local_player_.current_position) ∧
  0 ≤ P.turn_number_ ∧ P.turn_number_ ≤ k ∧ 0 ≤ Q.turn_number_ ∧ Q.turn_number_ ≤ k ∧
  PosOK P.local_player_ ∧ PosOK Q.local_player_

/-! ## Concrete states and inputs used as examples -/

/-- A network buffer filled with zero bytes. -/
def zeroBuffer : Buffer := fun _ => 0

/-- The host right after construction, on socket 1. -/
def hostStart : LockstepGame := LockstepGame.construct 1 true zeroBuffer

/-- A host in turn 0 in which both players have a pending move and the local
move has not been sent yet. -/
def bothPendingUnsent : LockstepGame :=
  { hostStart with
    local_player_ := { current_position := ⟨10, 7⟩, uncommitted_position := ⟨11, 7⟩,
                       has_uncommitted_move := true }
    remote_player_ := { current_position := ⟨12, 9⟩, uncommitted_position := ⟨12, 8⟩,
                        has_uncommitted_move := true } }

/-- A frame without keys in which `send` would block and nothing is received. -/
def sendWouldBlock : TickInput := { send_outcome := .error WSAEWOULDBLOCK }

/-- A frame in which a datagram of five zero bytes is received. -/
def shortDatagram : TickInput := { recv_outcome := .datagram [0, 0, 0, 0, 0] }

/-- A frame without keys in which the remote move (12,8) for turn 0 arrives. -/
def remoteMoveArrives : TickInput :=
  { recv_outcome := .datagram [0, 0, 0, 0, 12, 0, 0, 0, 8, 0, 0, 0] }

/-- A frame in which the right arrow is triggered and `send` would block. -/
def rightKeySendWouldBlock : TickInput :=
  { keys := { KEY_RIGHT := true }, send_outcome := .error WSAEWOULDBLOCK }

/-- The collision scenario on the host: the host moves (10,8) → (11,8), the
other player (11,10) → (11,8). -/
def collisionOnHost : LockstepGame :=
  { hostStart with
    local_player_ := { current_position := ⟨10, 8⟩, uncommitted_position := ⟨11, 8⟩,
                       has_uncommitted_move := true }
    remote_player_ := { current_position := ⟨11, 10⟩, uncommitted_position := ⟨11, 8⟩,
                        has_uncommitted_move := true } }

/-- The same collision scenario as the non-host sees it. -/
def collisionOnNonHost : LockstepGame :=
  { LockstepGame.construct 2 false zeroBuffer with
    local_player_ := { current_position := ⟨11, 10⟩, uncommitted_position := ⟨11, 8⟩,
                       has_uncommitted_move := true }
    remote_player_ := { current_position := ⟨10, 8⟩, uncommitted_position := ⟨11, 8⟩,
                        has_uncommitted_move := true } }

/-- A collision on the host in which the other player did not move: the host
moves (10,8) → (11,8), the other player passes at (11,8). -/
def collisionWithPassOnHost : LockstepGame :=
  { hostStart with
    local_player_ := { current_position := ⟨10, 8⟩, uncommitted_position := ⟨11, 8⟩,
                       has_uncommitted_move := true }
    remote_player_ := { current_position := ⟨11, 8⟩, uncommitted_position := ⟨11, 8⟩,
                        has_uncommitted_move := true } }

/-- A frame in which the right arrow is triggered, `send` succeeds and a datagram
of five zero bytes is received. -/
def rightKeyShortDatagram : TickInput :=
  { keys := { KEY_RIGHT := true }, recv_outcome := .datagram [0, 0, 0, 0, 0] }

/-- A host in turn 3 whose local move (11,7) is pending. -/
def hostTurnThree : LockstepGame :=
  { hostStart with
    turn_number_ := 3
    local_player_ := { current_position := ⟨10, 7⟩, uncommitted_position := ⟨11, 7⟩,
                       has_uncommitted_move := true } }

/-- A non-host in turn 3 that has not heard from the host yet. -/
def nonHostTurnThree : LockstepGame :=
  { LockstepGame.construct 2 false zeroBuffer with turn_number_ := 3 }

/-- The host right after construction, with a turn message for turn 5 in its
network buffer. -/
def hostWithTurnFiveMessage : LockstepGame :=
  { hostStart with
    network_buffer_ := zeroBuffer.write 0 (SerializedData.bytes ⟨5, ⟨12, 8⟩⟩) }

/-- A host in turn 0 whose remote player already has the pending move (12,8),
with a turn message for turn 0 and position (12,10) in its network buffer. -/
def hostWithSecondMessage : LockstepGame :=
  { hostStart with
    network_buffer_ := zeroBuffer.write 0 (SerializedData.bytes ⟨0, ⟨12, 10⟩⟩)
    remote_player_ := { current_position := ⟨12, 9⟩, uncommitted_position := ⟨12, 8⟩,
                        has_uncommitted_move := true } }

/-- A frame in which the right arrow is triggered, `send` succeeds and nothing
is received. -/
def rightKey : TickInput := { keys := { KEY_RIGHT := true } }

/-- Four frames of the host: the right arrow with a `send` that would block, a
frame in which the move is sent after all, the arrival of the remote move for
turn 0, and the right arrow again. -/
def fourFrames : List TickInput :=
  [rightKeySendWouldBlock, {}, remoteMoveArrives, rightKey]

/-- The scenario without collision on the host, turn 0: the host moves
(9,8) → (10,8), the other player (11,10) → (10,10); the local move has
been sent. -/
def noCollisionOnHost : LockstepGame :=
  { hostStart with
    is_local_update_sent_ := true
    local_player_ := { current_position := ⟨9, 8⟩, uncommitted_position := ⟨10, 8⟩,
                       has_uncommitted_move := true }
    remote_player_ := { current_position := ⟨11, 10⟩, uncommitted_position := ⟨10, 10⟩,
                        has_uncommitted_move := true } }

/-- Whole seconds standing in for `float` in the examples. -/
def secondsOps : FloatOps Int :=
  { sub := fun a b => a - b, le_zero := fun x => decide (x ≤ 0), three := 3 }

/-- The globals while connecting on port 4000 through socket 7, three seconds
left. -/
def connectingOn4000 : Globals Int :=
  { current_game := none, next_game := none, port_entry_field := none,
    connecting_port := 4000, connecting_socket := 7, connecting_timeout_secs := 3,
    hosting_port := 0, hosting_socket := 0 }

/-- The globals while hosting on port 4000 through socket 8. -/
def hostingOn4000 : Globals Int :=
  { current_game := none, next_game := none, port_entry_field := none,
    connecting_port := 4000, connecting_socket := 7, connecting_timeout_secs := 0,
    hosting_port := 4000, hosting_socket := 8 }

/-- The globals while configuring, the port 4000 entered. -/
def configuring4000 : Globals Int :=
  { current_game := none, next_game := none, port_entry_field := some ⟨true, 4000⟩,
    connecting_port := 0, connecting_socket := 0, connecting_timeout_secs := 0,
    hosting_port := 0, hosting_socket := 0 }

/-- A frame of one second without keys in which nothing arrives. -/
def quietFrame : StateInput Int :=
  { KEY_ESCAPE := false, KEY_ENTER := false, dt := 1,
    recv_outcome := .error WSAEWOULDBLOCK, remote_address := ⟨2130706433, 50000⟩,
    connect_outcome := .ok, send_outcome := .ok, fresh_buffer := zeroBuffer,
    field_after_update := ⟨true, 4000⟩ }

/-- A frame in which `recvfrom` reports `WSAECONNRESET`. -/
def resetFrame : StateInput Int := { quietFrame with recv_outcome := .error WSAECONNRESET }

/-- A frame in which the one byte 1 arrives from 127.0.0.1:50000. -/
def oneByteFrame : StateInput Int := { quietFrame with recv_outcome := .datagram [1] }

/-- A frame in which one byte arrives and `send` then fails with the error
10051 (`WSAENETUNREACH`). -/
def oneByteSendFails : StateInput Int :=
  { quietFrame with recv_outcome := .datagram [1], send_outcome := .error 10051 }

/-- A frame in which ESC is triggered. -/
def escapeFrame : StateInput Int := { quietFrame with KEY_ESCAPE := true }

/-- The two peers on sockets 1 and 2 after one tick of the host in which the
right arrow is triggered and the move is sent. -/
def peersAfterHostMove : Peers :=
  (Peers.start 1 2 zeroBuffer zeroBuffer).afterHostTick
    (((Peers.start 1 2 zeroBuffer zeroBuffer).host.Update false rightKey).game.getD hostStart)
    ((Peers.start 1 2 zeroBuffer zeroBuffer).host.Update false rightKey).events

/-- A frame in which the right arrow is triggered and `send` fails with the
error 10054. -/
def rightKeySendFails : TickInput :=
  { keys := { KEY_RIGHT := true }, send_outcome := .error 10054 }

/-- A frame of the host in turn 0 in which the right arrow is triggered, the
move is sent, and a datagram of twelve bytes arrives that names turn 0 and the
position (100, 100). -/
def rightKeyFarMoveArrives : TickInput :=
  { keys := { KEY_RIGHT := true },
    recv_outcome := .datagram [0, 0, 0, 0, 100, 0, 0, 0, 100, 0, 0, 0] }

/-- Three frames of the host: the right arrow with a remote move to (100, 100)
arriving, then up and left together, then the remote move (12, 8) for turn 0. -/
def threeFrames : List TickInput :=
  [rightKeyFarMoveArrives, { keys := { KEY_UP := true, KEY_LEFT := true } }, remoteMoveArrives]

/-- A host in turn 1 right after the commit of two moves to (11, 8), before the
collision is handled. -/
def committedOnHost : LockstepGame :=
  { hostStart with
    turn_number_ := 1
    local_player_ := { current_position := ⟨11, 8⟩, uncommitted_position := ⟨11, 8⟩ }
    remote_player_ := { current_position := ⟨11, 8⟩, uncommitted_position := ⟨11, 8⟩ } }

/-- A host with both players on (11, 8) as well, but in turn 7, on another
socket, with the update sent and with other uncommitted positions and flags. -/
def committedOnHostLater : LockstepGame :=
  { LockstepGame.construct 5 true zeroBuffer with
    turn_number_ := 7
    is_local_update_sent_ := true
    local_player_ := { current_position := ⟨11, 8⟩, uncommitted_position := ⟨3, 4⟩,
                       has_uncommitted_move := true }
    remote_player_ := { current_position := ⟨11, 8⟩, uncommitted_position := ⟨0, 0⟩ } }

/-- The globals while a lock-step game on socket 9 is being played and nothing
is queued. -/
def playingLockstepOn9 : Globals Int :=
  { current_game := some (.lockstep (LockstepGame.construct 9 true zeroBuffer)),
    next_game := none, port_entry_field := none,
    connecting_port := 4000, connecting_socket := 7, connecting_timeout_secs := 0,
    hosting_port := 4000, hosting_socket := 9 }

/-- The globals while a single-player game is being played and a lock-step game
on socket 9 is queued. -/
def lockstepOn9Queued : Globals Int :=
  { current_game := some (.single SinglePlayerGame.construct),
    next_game := some (.lockstep (LockstepGame.construct 9 true zeroBuffer)),
    port_entry_field := none,
    connecting_port := 4000, connecting_socket := 7, connecting_timeout_secs := 0,
    hosting_port := 4000, hosting_socket := 9 }

/-! ## Basic facts -/

theorem BoardPosition.beq_iff (a b : BoardPosition) : a.beq b = true ↔ a = b := by
  cases a; cases b; simp [BoardPosition.beq]

theorem incInt32_of_ne {i : Int} (h : i ≠ INT_MAX) : incInt32 i = i + 1 := by
  simp [incInt32, h]

theorem ApplyInput_of_pending (p : Player) (b : Board) (k : KeyInput)
    (h : p.has_uncommitted_move = true) : LocalPlayerController.ApplyInput p b k = p := by
  simp [LocalPlayerController.ApplyInput, h]

theorem HandleCollision_frame (g : LockstepGame) (ol orr : BoardPosition) :
    (g.HandleCollision ol orr).turn_number_ = g.turn_number_ ∧
    (g.HandleCollision ol orr).is_local_update_sent_ = g.is_local_update_sent_ ∧
    (g.HandleCollision ol orr).is_host_ = g.is_host_ ∧
    (g.HandleCollision ol orr).local_player_.has_uncommitted_move =
      g.local_player_.has_uncommitted_move ∧
    (g.HandleCollision ol orr).remote_player_.has_uncommitted_move =
      g.remote_player_.has_uncommitted_move := by
  unfold LockstepGame.HandleCollision
  split <;> (dsimp only; split) <;> simp

theorem Update_commit_of_both (g : LockstepGame)
    (hl : g.local_player_.has_uncommitted_move = true)
    (hr : g.remote_player_.has_uncommitted_move = true) :
    g.Update_commit.local_player_.has_uncommitted_move = false ∧
    g.Update_commit.remote_player_.has_uncommitted_move = false ∧
    g.Update_commit.turn_number_ = incInt32 g.turn_number_ ∧
    g.Update_commit.is_local_update_sent_ = false := by
  unfold LockstepGame.Update_commit
  simp only [hl, hr, Bool.and_self, if_true]
  split
  · obtain ⟨h1, h2, _, h4, h5⟩ := HandleCollision_frame
      { g with
        local_player_ := g.local_player_.CommitMove
        remote_player_ := g.remote_player_.CommitMove
        turn_number_ := incInt32 g.turn_number_
        is_local_update_sent_ := false } g.local_player_.current_position
        g.remote_player_.current_position
    rw [h1, h2, h4, h5]
    simp [Player.CommitMove, hl, hr]
  · simp [Player.CommitMove, hl, hr]

theorem Update_commit_of_not_both (g : LockstepGame)
    (h : ¬ (g.local_player_.has_uncommitted_move = true ∧
            g.remote_player_.has_uncommitted_move = true)) :
    g.Update_commit = g := by
  unfold LockstepGame.Update_commit
  simp only [Bool.and_eq_true, h, if_false]

theorem DeserializeRemoteState_frame (ndebug : Bool) (g g1 : LockstepGame) (n : Nat)
    (h : g.DeserializeRemoteState ndebug n = some g1) :
    g1.local_player_ = g.local_player_ ∧ g1.turn_number_ = g.turn_number_ ∧
    g1.is_local_update_sent_ = g.is_local_update_sent_ ∧ g1.is_host_ = g.is_host_ ∧
    g1.network_buffer_ = g.network_buffer_ ∧ g1.board_ = g.board_ ∧
    g1.remote_player_.current_position = g.remote_player_.current_position ∧
    (g.remote_player_.has_uncommitted_move = true →
      g1.remote_player_.has_uncommitted_move = true) := by
  unfold LockstepGame.DeserializeRemoteState at h
  split at h
  · exact absurd h (by simp)
  · dsimp only at h
    split at h <;> (simp only [Option.some.injEq] at h; subst h; simp)

theorem DeserializeRemoteState_isSome (ndebug : Bool) (g : LockstepGame) (n : Nat)
    (h : ndebug = true ∨ 12 ≤ n) : ∃ g1, g.DeserializeRemoteState ndebug n = some g1 := by
  unfold LockstepGame.DeserializeRemoteState
  have hc : (!ndebug && !decide (n ≥ 4 + 8)) = false := by
    rcases h with h | h
    · simp [h]
    · simp; intro _; omega
  simp only [hc, Bool.false_eq_true, if_false]
  split
  · exact ⟨_, rfl⟩
  · exact ⟨_, rfl⟩

theorem Update_receive_frame (ndebug : Bool) (g g1 : LockstepGame) (ro : RecvOutcome)
    (h : (g.Update_receive ndebug ro).2 = some g1) :
    g1.local_player_ = g.local_player_ ∧ g1.turn_number_ = g.turn_number_ ∧
    g1.is_local_update_sent_ = g.is_local_update_sent_ ∧ g1.is_host_ = g.is_host_ ∧
    g1.board_ = g.board_ ∧
    g1.remote_player_.current_position = g.remote_player_.current_position ∧
    (g.remote_player_.has_uncommitted_move = true →
      g1.remote_player_.has_uncommitted_move = true) := by
  unfold LockstepGame.Update_receive at h
  dsimp only at h
  split at h
  · obtain ⟨h1, h2, h3, h4, _, h6, h7, h8⟩ := DeserializeRemoteState_frame _ _ _ _ h
    exact ⟨h1, h2, h3, h4, h6, h7, h8⟩
  · simp only [Option.some.injEq] at h
    subst h
    simp

theorem Update_receive_isSome (ndebug : Bool) (g : LockstepGame) (ro : RecvOutcome)
    (h : ndebug = true ∨ ro.isShort = false) :
    ∃ g1, (g.Update_receive ndebug ro).2 = some g1 := by
  unfold LockstepGame.Update_receive
  dsimp only
  split
  · rename_i hres
    apply DeserializeRemoteState_isSome
    rcases h with h | h
    · exact Or.inl h
    · right
      cases ro with
      | error e => simp [recvfrom, SOCKET_ERROR] at hres
      | datagram p =>
        simp only [RecvOutcome.isShort, Bool.and_eq_false_imp, decide_eq_true_eq,
          decide_eq_false_iff_not, not_lt] at h
        unfold recvfrom at hres ⊢
        dsimp only at hres ⊢
        split at hres
        · rename_i hle
          simp only [hle, if_true]
          have : 0 < p.length := by simpa using hres
          have := h this
          simp only [Int.toNat_ofNat]
          exact this
        · simp [SOCKET_ERROR] at hres
  · exact ⟨_, rfl⟩

theorem Update_send_of_pending (g : LockstepGame) (keys : KeyInput) (so : SendOutcome)
    (hl : g.local_player_.has_uncommitted_move = true)
    (hs : g.is_local_update_sent_ = true ∨ so = .ok) :
    ∃ ev g1, g.Update_send keys so = (ev, g1, false) ∧
      g1.local_player_ = g.local_player_ ∧ g1.remote_player_ = g.remote_player_ ∧
      g1.turn_number_ = g.turn_number_ := by
  unfold LockstepGame.Update_send
  simp only [ApplyInput_of_pending _ _ _ hl, hl]
  by_cases hsent : g.is_local_update_sent_ = true
  · simp only [hsent, Bool.not_true, Bool.false_and, Bool.false_eq_true, if_false]
    exact ⟨_, _, rfl, rfl, rfl, rfl⟩
  · rcases hs with hs | hs
    · exact absurd hs hsent
    · subst hs
      simp only [hsent, Bool.not_false, Bool.true_and, if_true]
      exact ⟨_, _, rfl, rfl, rfl, rfl⟩

theorem Update_send_frame (g : LockstepGame) (keys : KeyInput) (so : SendOutcome) :
    (g.Update_send keys so).2.1.local_player_ =
      LocalPlayerController.ApplyInput g.local_player_ g.board_ keys ∧
    (g.Update_send keys so).2.1.remote_player_ = g.remote_player_ ∧
    (g.Update_send keys so).2.1.turn_number_ = g.turn_number_ ∧
    (g.Update_send keys so).2.1.is_host_ = g.is_host_ ∧
    (g.Update_send keys so).2.1.board_ = g.board_ := by
  unfold LockstepGame.Update_send
  dsimp only
  split
  · cases so <;> simp
  · simp

theorem Update_of_returned (ndebug : Bool) (g : LockstepGame) (inp : TickInput)
    (h : (g.Update_send inp.keys inp.send_outcome).2.2 = true) :
    g.Update_beforeCommit ndebug inp =
      ((g.Update_send inp.keys inp.send_outcome).1,
       .returned (g.Update_send inp.keys inp.send_outcome).2.1) ∧
    g.Update ndebug inp =
      ⟨(g.Update_send inp.keys inp.send_outcome).1,
       some (g.Update_send inp.keys inp.send_outcome).2.1⟩ := by
  have hb : g.Update_beforeCommit ndebug inp =
      ((g.Update_send inp.keys inp.send_outcome).1,
       .returned (g.Update_send inp.keys inp.send_outcome).2.1) := by
    unfold LockstepGame.Update_beforeCommit
    simp only [h, if_true]
  refine ⟨hb, ?_⟩
  unfold LockstepGame.Update
  rw [hb]

theorem Update_of_aborted (ndebug : Bool) (g : LockstepGame) (inp : TickInput)
    (h : (g.Update_send inp.keys inp.send_outcome).2.2 = false)
    (hr : ((g.Update_send inp.keys inp.send_outcome).2.1.Update_receive ndebug
            inp.recv_outcome).2 = none) :
    g.Update_beforeCommit ndebug inp =
      ((g.Update_send inp.keys inp.send_outcome).1 ++
        ((g.Update_send inp.keys inp.send_outcome).2.1.Update_receive ndebug
          inp.recv_outcome).1, .aborted) ∧
    g.Update ndebug inp =
      ⟨(g.Update_send inp.keys inp.send_outcome).1 ++
        ((g.Update_send inp.keys inp.send_outcome).2.1.Update_receive ndebug
          inp.recv_outcome).1, none⟩ := by
  have hb : g.Update_beforeCommit ndebug inp =
      ((g.Update_send inp.keys inp.send_outcome).1 ++
        ((g.Update_send inp.keys inp.send_outcome).2.1.Update_receive ndebug
          inp.recv_outcome).1, .aborted) := by
    unfold LockstepGame.Update_beforeCommit
    simp only [h, hr, Bool.false_eq_true, if_false]
  refine ⟨hb, ?_⟩
  unfold LockstepGame.Update
  rw [hb]

theorem Update_of_commit_check (ndebug : Bool) (g g2 : LockstepGame) (inp : TickInput)
    (h : (g.Update_send inp.keys inp.send_outcome).2.2 = false)
    (hr : ((g.Update_send inp.keys inp.send_outcome).2.1.Update_receive ndebug
            inp.recv_outcome).2 = some g2) :
    g.Update_beforeCommit ndebug inp =
      ((g.Update_send inp.keys inp.send_outcome).1 ++
        ((g.Update_send inp.keys inp.send_outcome).2.1.Update_receive ndebug
          inp.recv_outcome).1, .at_commit_check g2) ∧
    g.Update ndebug inp =
      ⟨(g.Update_send inp.keys inp.send_outcome).1 ++
        ((g.Update_send inp.keys inp.send_outcome).2.1.Update_receive ndebug
          inp.recv_outcome).1, some g2.Update_commit⟩ := by
  have hb : g.Update_beforeCommit ndebug inp =
      ((g.Update_send inp.keys inp.send_outcome).1 ++
        ((g.Update_send inp.keys inp.send_outcome).2.1.Update_receive ndebug
          inp.recv_outcome).1, .at_commit_check g2) := by
    unfold LockstepGame.Update_beforeCommit
    simp only [h, hr, Bool.false_eq_true, if_false]
  refine ⟨hb, ?_⟩
  unfold LockstepGame.Update
  rw [hb]

/-- C1, as the code has it.  In a tick that starts with a pending move of both
players, the two `has_uncommitted_move` flags are equal when `Update` returns, so
never exactly one of them is cleared.  If moreover no `send` fails in the tick
(the local update was sent before, or `send` succeeds), no datagram of 1 to 11
bytes trips the size assertion, and `turn_number_` is below `INT_MAX`, then
`Update` returns with both flags false and `turn_number_` one greater.  If the
local update is still unsent and `send` fails, `Update` returns with both moves
still pending and `turn_number_` unchanged. -/
theorem Update_both_pending_commits (ndebug : Bool) (g : LockstepGame) (inp : TickInput)
    (hl : g.local_player_.has_uncommitted_move = true)
    (hr : g.remote_player_.has_uncommitted_move = true) :
    (∀ g1, (g.Update ndebug inp).game = some g1 →
      g1.local_player_.has_uncommitted_move = g1.remote_player_.has_uncommitted_move) ∧
    ((g.is_local_update_sent_ = true ∨ inp.send_outcome = .ok) →
     (ndebug = true ∨ inp.recv_outcome.isShort = false) →
     g.turn_number_ ≠ INT_MAX →
      ∃ g1, (g.Update ndebug inp).game = some g1 ∧
        g1.local_player_.has_uncommitted_move = false ∧
        g1.remote_player_.has_uncommitted_move = false ∧
        g1.turn_number_ = g.turn_number_ + 1) ∧
    (g.is_local_update_sent_ = false → (∃ e, inp.send_outcome = .error e) →
      ∃ g1, (g.Update ndebug inp).game = some g1 ∧
        g1.local_player_.has_uncommitted_move = true ∧
        g1.remote_player_.has_uncommitted_move = true ∧
        g1.turn_number_ = g.turn_number_) := by
  obtain ⟨f1, f2, f3, -, -⟩ := Update_send_frame g inp.keys inp.send_outcome
  rw [ApplyInput_of_pending _ _ _ hl] at f1
  refine ⟨?_, ?_, ?_⟩
  · intro g1 hg1
    cases hb : (g.Update_send inp.keys inp.send_outcome).2.2
    · cases hrc : ((g.Update_send inp.keys inp.send_outcome).2.1.Update_receive ndebug
          inp.recv_outcome).2 with
      | none =>
        rw [(Update_of_aborted ndebug g inp hb hrc).2] at hg1
        simp at hg1
      | some gr =>
        rw [(Update_of_commit_check ndebug g gr inp hb hrc).2] at hg1
        simp only [Option.some.injEq] at hg1
        obtain ⟨r1, -, -, -, -, -, r7⟩ := Update_receive_frame ndebug _ gr inp.recv_outcome hrc
        obtain ⟨c1, c2, -, -⟩ := Update_commit_of_both gr (by rw [r1, f1]; exact hl)
          (r7 (by rw [f2]; exact hr))
        rw [← hg1, c1, c2]
    · rw [(Update_of_returned ndebug g inp hb).2] at hg1
      simp only [Option.some.injEq] at hg1
      rw [← hg1, f1, f2, hl, hr]
  · intro hsend hrecv ht
    obtain ⟨ev1, gs, hs, -, -, -⟩ :=
      Update_send_of_pending g inp.keys inp.send_outcome hl hsend
    have hb : (g.Update_send inp.keys inp.send_outcome).2.2 = false := by rw [hs]
    obtain ⟨gr, hgr⟩ := Update_receive_isSome ndebug
      (g.Update_send inp.keys inp.send_outcome).2.1 inp.recv_outcome hrecv
    obtain ⟨r1, r2, -, -, -, -, r7⟩ := Update_receive_frame ndebug _ gr inp.recv_outcome hgr
    obtain ⟨c1, c2, c3, -⟩ := Update_commit_of_both gr (by rw [r1, f1]; exact hl)
      (r7 (by rw [f2]; exact hr))
    refine ⟨gr.Update_commit, ?_, c1, c2, ?_⟩
    · rw [(Update_of_commit_check ndebug g gr inp hb hgr).2]
    · rw [c3, r2, f3, incInt32_of_ne ht]
  · rintro hsent ⟨e, he⟩
    have hb : (g.Update_send inp.keys inp.send_outcome).2.2 = true := by
      unfold LockstepGame.Update_send
      simp [ApplyInput_of_pending _ _ _ hl, hl, hsent, he]
    exact ⟨_, by rw [(Update_of_returned ndebug g inp hb).2], by rw [f1, hl], by rw [f2, hr], f3⟩

/-- C1, witness: the commit of a tick in which nothing is sent or received. -/
theorem Update_both_pending_commits_witness :
    ∃ g1, (bothPendingUnsent.Update false {}).game = some g1 ∧
      g1.local_player_.has_uncommitted_move = false ∧
      g1.remote_player_.has_uncommitted_move = false ∧
      g1.turn_number_ = bothPendingUnsent.turn_number_ + 1 :=
  (Update_both_pending_commits false bothPendingUnsent {} rfl rfl).2.1
    (Or.inr rfl) (Or.inr rfl) (by decide)

/-- C1, as stated, fails.  Two frames after construction the host has a pending
move of both players at turn 0 (the remote move arrived, then the local move was
made but `send` would block).  A further tick in which `send` would block again
returns with both flags still set and `turn_number_` still 0; and in a build with
assertions a tick that receives five bytes instead is aborted. -/
theorem Update_both_pending_no_commit :
    (hostStart.run false [remoteMoveArrives, rightKeySendWouldBlock]).2.map
      (fun g => (g.local_player_.has_uncommitted_move,
                 g.remote_player_.has_uncommitted_move, g.turn_number_)) =
      some (true, true, 0) ∧
    (hostStart.run false [remoteMoveArrives, rightKeySendWouldBlock, sendWouldBlock]).2.map
      (fun g => (g.local_player_.has_uncommitted_move,
                 g.remote_player_.has_uncommitted_move, g.turn_number_)) =
      some (true, true, 0) ∧
    (hostStart.run false [remoteMoveArrives, rightKeySendWouldBlock, shortDatagram]).2.isNone
      = true := by
  decide

theorem ApplyInput_current (p : Player) (b : Board) (k : KeyInput) :
    (LocalPlayerController.ApplyInput p b k).current_position = p.current_position := by
  unfold LocalPlayerController.ApplyInput
  split
  · rfl
  · split
    · rfl
    · dsimp only
      split <;> rfl

theorem atCommitCheck_eq (ndebug : Bool) (g : LockstepGame) (inp : TickInput) :
    g.atCommitCheck ndebug inp =
      match (g.Update_beforeCommit ndebug inp).2 with
      | .at_commit_check g1 => some g1
      | _ => none := rfl

theorem Update_cases (ndebug : Bool) (g : LockstepGame) (inp : TickInput) :
    (∃ gs, (g.Update ndebug inp).game = some gs ∧ g.atCommitCheck ndebug inp = none ∧
        (g.Update_send inp.keys inp.send_outcome).2.2 = true ∧
        gs = (g.Update_send inp.keys inp.send_outcome).2.1) ∨
    ((g.Update ndebug inp).game = none ∧ g.atCommitCheck ndebug inp = none ∧
        ndebug = false ∧ inp.recv_outcome.isShort = true) ∨
    (∃ gc, (g.Update ndebug inp).game = some gc.Update_commit ∧
        g.atCommitCheck ndebug inp = some gc ∧
        (g.Update_send inp.keys inp.send_outcome).2.2 = false ∧
        ((g.Update_send inp.keys inp.send_outcome).2.1.Update_receive ndebug
            inp.recv_outcome).2 = some gc) := by
  cases hb : (g.Update_send inp.keys inp.send_outcome).2.2
  · cases hrc : ((g.Update_send inp.keys inp.send_outcome).2.1.Update_receive ndebug
        inp.recv_outcome).2 with
    | none =>
      right; left
      obtain ⟨h1, h2⟩ := Update_of_aborted ndebug g inp hb hrc
      refine ⟨by rw [h2], by rw [atCommitCheck_eq, h1], ?_⟩
      by_contra hcon
      have : ndebug = true ∨ inp.recv_outcome.isShort = false := by
        cases ndebug <;> cases hsh : inp.recv_outcome.isShort <;> simp_all
      obtain ⟨g1, hg1⟩ := Update_receive_isSome ndebug
        (g.Update_send inp.keys inp.send_outcome).2.1 inp.recv_outcome this
      rw [hrc] at hg1
      exact absurd hg1 (by simp)
    | some gc =>
      right; right
      obtain ⟨h1, h2⟩ := Update_of_commit_check ndebug g gc inp hb hrc
      exact ⟨gc, by rw [h2], by rw [atCommitCheck_eq, h1], rfl, rfl⟩
  · left
    obtain ⟨h1, h2⟩ := Update_of_returned ndebug g inp hb
    exact ⟨_, by rw [h2], by rw [atCommitCheck_eq, h1], rfl, rfl⟩

theorem atCommitCheck_frame (ndebug : Bool) (g gc : LockstepGame) (inp : TickInput)
    (h : g.atCommitCheck ndebug inp = some gc) :
    gc.turn_number_ = g.turn_number_ ∧ gc.is_host_ = g.is_host_ ∧ gc.board_ = g.board_ ∧
    gc.local_player_ = LocalPlayerController.ApplyInput g.local_player_ g.board_ inp.keys ∧
    gc.remote_player_.current_position = g.remote_player_.current_position ∧
    (g.remote_player_.has_uncommitted_move = true →
      gc.remote_player_.has_uncommitted_move = true) := by
  obtain ⟨f1, f2, f3, f4, f5⟩ := Update_send_frame g inp.keys inp.send_outcome
  rcases Update_cases ndebug g inp with ⟨gs, -, h2, -⟩ | ⟨-, h2, -⟩ | ⟨gc2, -, h2, -, h4⟩
  · rw [h2] at h; exact absurd h (by simp)
  · rw [h2] at h; exact absurd h (by simp)
  · rw [h2] at h
    simp only [Option.some.injEq] at h
    subst h
    obtain ⟨r1, r2, -, r4, r5, r6, r7⟩ := Update_receive_frame ndebug _ gc2 inp.recv_outcome h4
    refine ⟨by rw [r2, f3], by rw [r4, f4], by rw [r5, f5], by rw [r1, f1], by rw [r6, f2], ?_⟩
    intro hr
    exact r7 (by rw [f2]; exact hr)

theorem Update_commit_turn (g : LockstepGame) :
    g.Update_commit.turn_number_ =
      if g.local_player_.has_uncommitted_move = true ∧
         g.remote_player_.has_uncommitted_move = true
      then incInt32 g.turn_number_ else g.turn_number_ := by
  split
  · rename_i h
    exact (Update_commit_of_both g h.1 h.2).2.2.1
  · rename_i h
    rw [Update_commit_of_not_both g h]

/-- C2.  In every tick, `Update` returns unless the size assertion aborts it, and
when it returns (with `turn_number_` below `INT_MAX` before the tick) the turn
number is unchanged or exactly one greater; it is greater only if the commit
check ran with an uncommitted move of both players; and if the commit check did
not find an uncommitted move of both players, `turn_number_` and both
`current_position` values are as before the tick. -/
theorem Update_turn_number_step (ndebug : Bool) (g : LockstepGame) (inp : TickInput)
    (ht : g.turn_number_ ≠ INT_MAX) :
    ((ndebug = true ∨ inp.recv_outcome.isShort = false) →
      ∃ g1, (g.Update ndebug inp).game = some g1) ∧
    ∀ g1, (g.Update ndebug inp).game = some g1 →
      (g1.turn_number_ = g.turn_number_ ∨ g1.turn_number_ = g.turn_number_ + 1) ∧
      (g1.turn_number_ = g.turn_number_ + 1 →
        ∃ gc, g.atCommitCheck ndebug inp = some gc ∧
          gc.local_player_.has_uncommitted_move = true ∧
          gc.remote_player_.has_uncommitted_move = true) ∧
      ((∀ gc, g.atCommitCheck ndebug inp = some gc →
          ¬ (gc.local_player_.has_uncommitted_move = true ∧
             gc.remote_player_.has_uncommitted_move = true)) →
        g1.turn_number_ = g.turn_number_ ∧
        g1.local_player_.current_position = g.local_player_.current_position ∧
        g1.remote_player_.current_position = g.remote_player_.current_position) := by
  obtain ⟨f1, f2, f3, -, -⟩ := Update_send_frame g inp.keys inp.send_outcome
  constructor
  · intro hok
    rcases Update_cases ndebug g inp with ⟨gs, h1, -⟩ | ⟨-, -, h3, h4⟩ | ⟨gc, h1, -⟩
    · exact ⟨_, h1⟩
    · rcases hok with hok | hok
      · rw [h3] at hok; exact absurd hok (by simp)
      · rw [h4] at hok; exact absurd hok (by simp)
    · exact ⟨_, h1⟩
  · intro g1 hg1
    rcases Update_cases ndebug g inp with ⟨gs, h1, h2, -, h4⟩ | ⟨h1, -⟩ | ⟨gc, h1, h2, -, -⟩
    · rw [h1] at hg1
      simp only [Option.some.injEq] at hg1
      subst hg1
      subst h4
      refine ⟨Or.inl f3, ?_, ?_⟩
      · intro h; rw [f3] at h; omega
      · intro _
        exact ⟨f3, by rw [f1, ApplyInput_current], by rw [f2]⟩
    · rw [h1] at hg1; exact absurd hg1 (by simp)
    · rw [h1] at hg1
      simp only [Option.some.injEq] at hg1
      subst hg1
      obtain ⟨a1, -, -, a4, a5, -⟩ := atCommitCheck_frame ndebug g gc inp h2
      have hturn := Update_commit_turn gc
      by_cases hboth : gc.local_player_.has_uncommitted_move = true ∧
          gc.remote_player_.has_uncommitted_move = true
      · rw [if_pos hboth, a1, incInt32_of_ne ht] at hturn
        refine ⟨Or.inr hturn, fun _ => ⟨gc, h2, hboth.1, hboth.2⟩, ?_⟩
        intro hno
        exact absurd hboth (hno gc h2)
      · rw [if_neg hboth, a1] at hturn
        refine ⟨Or.inl hturn, ?_, ?_⟩
        · intro h; rw [hturn] at h; omega
        · intro _
          rw [Update_commit_of_not_both gc hboth]
          exact ⟨a1, by rw [a4, ApplyInput_current], a5⟩

/-- C2, witness: the tick of `bothPendingUnsent` that receives nothing. -/
theorem Update_turn_number_step_witness :
    ∃ g1, (bothPendingUnsent.Update false {}).game = some g1 ∧
      (g1.turn_number_ = bothPendingUnsent.turn_number_ ∨
       g1.turn_number_ = bothPendingUnsent.turn_number_ + 1) := by
  obtain ⟨g1, h⟩ := (Update_turn_number_step false bothPendingUnsent {} (by decide)).1
    (Or.inr rfl)
  exact ⟨g1, h, ((Update_turn_number_step false bothPendingUnsent {} (by decide)).2 g1 h).1⟩

theorem Update_commit_positions (g : LockstepGame)
    (hl : g.local_player_.has_uncommitted_move = true)
    (hr : g.remote_player_.has_uncommitted_move = true) :
    g.Update_commit.local_player_.current_position =
      (if g.local_player_.uncommitted_position = g.remote_player_.uncommitted_position then
        if g.is_host_ = true then
          if g.local_player_.uncommitted_position = g.remote_player_.current_position then
            g.local_player_.current_position
          else g.local_player_.uncommitted_position
        else g.local_player_.current_position
      else g.local_player_.uncommitted_position) ∧
    g.Update_commit.remote_player_.current_position =
      (if g.local_player_.uncommitted_position = g.remote_player_.uncommitted_position then
        if g.is_host_ = true then g.remote_player_.current_position
        else
          if g.local_player_.current_position = g.remote_player_.uncommitted_position then
            g.remote_player_.current_position
          else g.remote_player_.uncommitted_position
      else g.remote_player_.uncommitted_position) := by
  unfold LockstepGame.Update_commit LockstepGame.HandleCollision
  simp only [hl, hr, Bool.and_self, if_true, Player.CommitMove, BoardPosition.beq_iff]
  by_cases hcol : g.local_player_.uncommitted_position = g.remote_player_.uncommitted_position
  · simp only [hcol, if_true]
    cases hh : g.is_host_
    · by_cases h2 : g.local_player_.current_position = g.remote_player_.uncommitted_position
      · simp [h2]
      · simp [h2]
    · by_cases h2 : g.remote_player_.uncommitted_position = g.remote_player_.current_position
      · simp [h2]
      · simp [h2]
  · simp [hcol]

/-- C3.  In a commit whose two committed positions are equal, if the host's new
position differs from the non-host's position before the commit, then after
`HandleCollision` the non-host is back at its position from before the commit
and the host stays at its new position, for either role of the local peer; the
turn number (below `INT_MAX` before) has increased by exactly 1. -/
theorem Update_commit_collision_host_wins (g : LockstepGame)
    (hl : g.local_player_.has_uncommitted_move = true)
    (hr : g.remote_player_.has_uncommitted_move = true)
    (hcol : g.local_player_.uncommitted_position = g.remote_player_.uncommitted_position)
    (ht : g.turn_number_ ≠ INT_MAX) :
    (g.is_host_ = true →
      g.local_player_.uncommitted_position ≠ g.remote_player_.current_position →
      g.Update_commit.remote_player_.current_position = g.remote_player_.current_position ∧
      g.Update_commit.local_player_.current_position = g.local_player_.uncommitted_position) ∧
    (g.is_host_ = false →
      g.remote_player_.uncommitted_position ≠ g.local_player_.current_position →
      g.Update_commit.local_player_.current_position = g.local_player_.current_position ∧
      g.Update_commit.remote_player_.current_position =
        g.remote_player_.uncommitted_position) ∧
    g.Update_commit.turn_number_ = g.turn_number_ + 1 := by
  obtain ⟨p1, p2⟩ := Update_commit_positions g hl hr
  refine ⟨?_, ?_, ?_⟩
  · intro hh hne
    rw [p1, p2]
    simp [hcol, hh]
    intro h
    exact absurd (hcol.symm ▸ h) (hcol ▸ hne)
  · intro hh hne
    rw [p1, p2]
    simp [hcol, hh]
    intro h
    exact absurd h.symm hne
  · rw [(Update_commit_of_both g hl hr).2.2.1, incInt32_of_ne ht]

/-- C3, witness: the host moves (10,8) → (11,8) and the other player
(11,10) → (11,8); the host ends at (11,8), the other player at (11,10), turn 1. -/
theorem Update_commit_collision_host_wins_witness :
    collisionOnHost.Update_commit.remote_player_.current_position = ⟨11, 10⟩ ∧
    collisionOnHost.Update_commit.local_player_.current_position = ⟨11, 8⟩ ∧
    collisionOnHost.Update_commit.turn_number_ = 1 :=
  ⟨((Update_commit_collision_host_wins collisionOnHost rfl rfl rfl (by decide)).1 rfl
      (by decide)).1,
   ((Update_commit_collision_host_wins collisionOnHost rfl rfl rfl (by decide)).1 rfl
      (by decide)).2,
   (Update_commit_collision_host_wins collisionOnHost rfl rfl rfl (by decide)).2.2⟩

/-- C4.  In a commit whose two committed positions are equal, if the host's new
position equals the non-host's position before the commit, then after
`HandleCollision` both players are back at their positions from before the
commit, for either role of the local peer. -/
theorem Update_commit_collision_both_revert (g : LockstepGame)
    (hl : g.local_player_.has_uncommitted_move = true)
    (hr : g.remote_player_.has_uncommitted_move = true)
    (hcol : g.local_player_.uncommitted_position = g.remote_player_.uncommitted_position) :
    (g.is_host_ = true →
      g.local_player_.uncommitted_position = g.remote_player_.current_position →
      g.Update_commit.local_player_.current_position = g.local_player_.current_position ∧
      g.Update_commit.remote_player_.current_position = g.remote_player_.current_position) ∧
    (g.is_host_ = false →
      g.remote_player_.uncommitted_position = g.local_player_.current_position →
      g.Update_commit.local_player_.current_position = g.local_player_.current_position ∧
      g.Update_commit.remote_player_.current_position = g.remote_player_.current_position) := by
  obtain ⟨p1, p2⟩ := Update_commit_positions g hl hr
  refine ⟨?_, ?_⟩
  · intro hh he
    rw [p1, p2]
    simp [hcol, hh, ← he]
  · intro hh he
    rw [p1, p2]
    simp [hcol, hh, ← he]

/-- C4, witness: the host moves (10,8) → (11,8) onto the other player, who passes
at (11,8); both end where they were. -/
theorem Update_commit_collision_both_revert_witness :
    collisionWithPassOnHost.Update_commit.local_player_.current_position = ⟨10, 8⟩ ∧
    collisionWithPassOnHost.Update_commit.remote_player_.current_position = ⟨11, 8⟩ :=
  (Update_commit_collision_both_revert collisionWithPassOnHost rfl rfl rfl).1 rfl rfl

/-- C5.  Collision resolution agrees across peers.  Let the host hold the host's
move `h_old → h_new` as its local player and the non-host's move `c_old → c_new`
as its remote player, and let the non-host hold the same two moves the other way
round.  After commit and `HandleCollision` on each side, the host's local
position is the non-host's remote position and the host's remote position is the
non-host's local position. -/
theorem Update_commit_agrees_across_peers (host nonhost : LockstepGame)
    (h_old h_new c_old c_new : BoardPosition)
    (hh : host.is_host_ = true) (hn : nonhost.is_host_ = false)
    (hhl : host.local_player_ = ⟨h_old, h_new, true⟩)
    (hhr : host.remote_player_ = ⟨c_old, c_new, true⟩)
    (hnl : nonhost.local_player_ = ⟨c_old, c_new, true⟩)
    (hnr : nonhost.remote_player_ = ⟨h_old, h_new, true⟩) :
    host.Update_commit.local_player_.current_position =
      nonhost.Update_commit.remote_player_.current_position ∧
    host.Update_commit.remote_player_.current_position =
      nonhost.Update_commit.local_player_.current_position := by
  obtain ⟨p1, p2⟩ := Update_commit_positions host (by rw [hhl]) (by rw [hhr])
  obtain ⟨q1, q2⟩ := Update_commit_positions nonhost (by rw [hnl]) (by rw [hnr])
  rw [p1, p2, q1, q2, hhl, hhr, hnl, hnr, hh, hn]
  simp only [Bool.false_eq_true, if_false, if_true]
  by_cases hcol : h_new = c_new
  · subst hcol
    by_cases h2 : h_new = c_old
    · subst h2
      simp
    · have h3 : ¬ c_old = h_new := fun h => h2 h.symm
      simp [h2, h3]
  · have h3 : ¬ c_new = h_new := fun h => hcol h.symm
    simp [hcol, h3]

/-- C5, witness: the collision scenario seen from both sides. -/
theorem Update_commit_agrees_across_peers_witness :
    collisionOnHost.Update_commit.local_player_.current_position =
      collisionOnNonHost.Update_commit.remote_player_.current_position ∧
    collisionOnHost.Update_commit.remote_player_.current_position =
      collisionOnNonHost.Update_commit.local_player_.current_position :=
  Update_commit_agrees_across_peers collisionOnHost collisionOnNonHost
    ⟨10, 8⟩ ⟨11, 8⟩ ⟨11, 10⟩ ⟨11, 8⟩ rfl rfl rfl rfl rfl rfl

/-! ## The wire format -/

theorem int32FromBytes_int32ToBytes (i : Int) (h : IsInt32 i) :
    int32FromBytes (byteOfNat (i % 4294967296).toNat)
      (byteOfNat ((i % 4294967296).toNat / 256))
      (byteOfNat ((i % 4294967296).toNat / 65536))
      (byteOfNat ((i % 4294967296).toNat / 16777216)) = i := by
  unfold IsInt32 INT_MIN INT_MAX at h
  unfold int32FromBytes byteOfNat
  simp only
  split <;> omega

theorem Buffer.take_twelve (buf : Buffer) :
    buf.take 12 = [buf 0, buf 1, buf 2, buf 3, buf 4, buf 5, buf 6, buf 7,
                   buf 8, buf 9, buf 10, buf 11] := rfl

theorem SerializeLocalState_bytes (g : LockstepGame) :
    g.SerializeLocalState.2 = 12 ∧
    g.SerializeLocalState.1.take g.SerializeLocalState.2 =
      SerializedData.bytes ⟨g.turn_number_, g.local_player_.uncommitted_position⟩ := by
  constructor
  · rfl
  · unfold LockstepGame.SerializeLocalState sizeof_SerializedData SerializedData.bytes
    simp only [Buffer.take_twelve]
    simp [Buffer.write, int32ToBytes]

theorem SerializedData.bytes_length (d : SerializedData) : d.bytes.length = 12 := by
  simp [SerializedData.bytes, int32ToBytes]

theorem Buffer.read_written (buf : Buffer) (d : SerializedData) (extra : List Byte)
    (ht : IsInt32 d.turn_number) (hx : IsInt32 d.local_position.x)
    (hy : IsInt32 d.local_position.y) :
    (buf.write 0 (d.bytes ++ extra)).readInt32 0 = d.turn_number ∧
    (buf.write 0 (d.bytes ++ extra)).readInt32 4 = d.local_position.x ∧
    (buf.write 0 (d.bytes ++ extra)).readInt32 8 = d.local_position.y := by
  refine ⟨?_, ?_, ?_⟩
  · rw [← int32FromBytes_int32ToBytes d.turn_number ht]
    simp [Buffer.write, Buffer.readInt32, SerializedData.bytes, int32ToBytes]
  · rw [← int32FromBytes_int32ToBytes d.local_position.x hx]
    simp [Buffer.write, Buffer.readInt32, SerializedData.bytes, int32ToBytes]
  · rw [← int32FromBytes_int32ToBytes d.local_position.y hy]
    simp [Buffer.write, Buffer.readInt32, SerializedData.bytes, int32ToBytes]

theorem Update_receive_datagram (ndebug : Bool) (g : LockstepGame) (payload : List Byte)
    (h0 : 0 < payload.length) (hsz : payload.length ≤ kNetworkBufferSize) :
    (g.Update_receive ndebug (.datagram payload)).2 =
      LockstepGame.DeserializeRemoteState ndebug
        { g with network_buffer_ := g.network_buffer_.write 0 payload } payload.length := by
  unfold LockstepGame.Update_receive recvfrom
  simp only [hsz, if_true]
  have : (payload.length : Int) > 0 := by exact_mod_cast h0
  simp only [this, if_true, Int.toNat_ofNat]

/-- C6.  When the turn number of the received message differs from the
receiver's `turn_number_`, `DeserializeRemoteState` returns with the whole game
state as it was: both players and the turn number are unchanged.  So a tick's
receive step that takes in such a datagram changes nothing but the network
buffer. -/
theorem DeserializeRemoteState_other_turn (ndebug : Bool) (g : LockstepGame) (n : Nat)
    (hn : ndebug = true ∨ 12 ≤ n)
    (hturn : g.network_buffer_.readInt32 0 ≠ g.turn_number_) :
    g.DeserializeRemoteState ndebug n = some g ∧
    ∀ (g0 : LockstepGame) (payload : List Byte),
      payload.length = n → 0 < n → n ≤ kNetworkBufferSize →
      g = { g0 with network_buffer_ := g0.network_buffer_.write 0 payload } →
      (g0.Update_receive ndebug (.datagram payload)).2 = some g := by
  have hmain : g.DeserializeRemoteState ndebug n = some g := by
    unfold LockstepGame.DeserializeRemoteState
    have hc : (!ndebug && !decide (n ≥ 4 + 8)) = false := by
      rcases hn with h | h
      · simp [h]
      · simp; intro _; omega
    simp only [hc, Bool.false_eq_true, if_false]
    simp only [ne_eq, hturn, not_false_eq_true, if_true]
  refine ⟨hmain, ?_⟩
  intro g0 payload hlen h0 hsz hg
  rw [Update_receive_datagram ndebug g0 payload (by omega) (by omega), ← hg, hlen]
  exact hmain

/-- C6, witness: a message for turn 5 in the buffer of a host in turn 0. -/
theorem DeserializeRemoteState_other_turn_witness :
    hostWithTurnFiveMessage.DeserializeRemoteState false 12 = some hostWithTurnFiveMessage :=
  (DeserializeRemoteState_other_turn false hostWithTurnFiveMessage 12 (Or.inr (by decide))
    (by decide)).1

/-- The size assertion of `DeserializeRemoteState` and short datagrams.  A
datagram of 1 to 11 bytes fails the assertion: in a build with assertions the
call has no result, and a tick that gets to its `recvfrom` and receives such a
datagram is aborted there, before the commit check, leaving no game state. -/
theorem Update_short_datagram_aborts (g : LockstepGame) (inp : TickInput)
    (payload : List Byte) (hrecv : inp.recv_outcome = .datagram payload)
    (h0 : 0 < payload.length) (h12 : payload.length < 12)
    (hreach : (g.Update_send inp.keys inp.send_outcome).2.2 = false) :
    g.DeserializeRemoteState false payload.length = none ∧
    (g.Update false inp).game = none ∧
    g.atCommitCheck false inp = none := by
  have hd : ∀ g1 : LockstepGame, g1.DeserializeRemoteState false payload.length = none := by
    intro g1
    unfold LockstepGame.DeserializeRemoteState
    have hc : (!false && !decide (payload.length ≥ 4 + 8)) = true := by
      simp; omega
    simp only [hc, if_true]
  have hr : ((g.Update_send inp.keys inp.send_outcome).2.1.Update_receive false
      inp.recv_outcome).2 = none := by
    rw [hrecv, Update_receive_datagram false _ payload h0
      (by unfold kNetworkBufferSize; omega)]
    exact hd _
  obtain ⟨h1, h2⟩ := Update_of_aborted false g inp hreach hr
  exact ⟨hd g, by rw [h2], by rw [atCommitCheck_eq, h1]⟩

/-- C7.  A datagram shorter than the 12 bytes of a turn message is not dropped
by the code.  The host right after construction receives a datagram of five zero
bytes.  In a build with assertions the size assertion of
`DeserializeRemoteState` fails and the tick is aborted, with or without a local
move in the same frame: no game state is left.  With `NDEBUG` the bytes are
taken for a move: without a key the remote player gets the pending move (0,0)
for turn 0; with the right arrow triggered, the five bytes and what the buffer
still holds from the send are taken for a move to (0,7), which is committed, so
the turn number goes from 0 to 1 and the remote player from (12,9) to (0,7). -/
theorem Update_short_datagram_not_dropped :
    hostStart.turn_number_ = 0 ∧
    hostStart.remote_player_ = ⟨⟨12, 9⟩, ⟨0, 0⟩, false⟩ ∧
    hostStart.DeserializeRemoteState false 5 = none ∧
    (hostStart.Update false shortDatagram).game.isNone = true ∧
    (hostStart.Update false rightKeyShortDatagram).game.isNone = true ∧
    (hostStart.Update true shortDatagram).game.map
      (fun g => (g.turn_number_, g.remote_player_)) =
      some (0, ⟨⟨12, 9⟩, ⟨0, 0⟩, true⟩) ∧
    (hostStart.Update true rightKeyShortDatagram).game.map
      (fun g => (g.turn_number_, g.remote_player_.current_position)) =
      some (1, ⟨0, 7⟩) := by
  refine ⟨rfl, rfl, rfl, ?_, ?_, ?_, ?_⟩ <;> decide

/-- C8.  Encode/decode round trip.  The sender serializes its turn number and
local uncommitted position (both 32-bit values); a receiver in the same turn
whose `recvfrom` delivers those bytes returns from `DeserializeRemoteState` with
the sender's position as its remote `uncommitted_position`, with the remote
`has_uncommitted_move` set, and with the remote `current_position` unchanged. -/
theorem SerializeLocalState_roundtrip (ndebug : Bool) (sender receiver : LockstepGame)
    (ht : IsInt32 sender.turn_number_)
    (hx : IsInt32 sender.local_player_.uncommitted_position.x)
    (hy : IsInt32 sender.local_player_.uncommitted_position.y)
    (hturn : receiver.turn_number_ = sender.turn_number_) :
    ∃ g1, (receiver.Update_receive ndebug
        (.datagram (sender.SerializeLocalState.1.take sender.SerializeLocalState.2))).2 =
        some g1 ∧
      g1.remote_player_.uncommitted_position = sender.local_player_.uncommitted_position ∧
      g1.remote_player_.has_uncommitted_move = true ∧
      g1.remote_player_.current_position = receiver.remote_player_.current_position := by
  rw [(SerializeLocalState_bytes sender).2]
  have hlen := SerializedData.bytes_length
    ⟨sender.turn_number_, sender.local_player_.uncommitted_position⟩
  rw [Update_receive_datagram ndebug receiver _ (by omega)
    (by unfold kNetworkBufferSize; omega), hlen]
  obtain ⟨r0, r4, r8⟩ := Buffer.read_written receiver.network_buffer_
    ⟨sender.turn_number_, sender.local_player_.uncommitted_position⟩ [] ht hx hy
  rw [List.append_nil] at r0 r4 r8
  unfold LockstepGame.DeserializeRemoteState
  simp only [r0, r4, r8, hturn]
  simp

/-- C8, witness: a host in turn 3 sends the move (11,7) to a non-host in turn 3. -/
theorem SerializeLocalState_roundtrip_witness :
    ∃ g1, (nonHostTurnThree.Update_receive false
        (.datagram (hostTurnThree.SerializeLocalState.1.take
          hostTurnThree.SerializeLocalState.2))).2 = some g1 ∧
      g1.remote_player_.uncommitted_position = ⟨11, 7⟩ ∧
      g1.remote_player_.has_uncommitted_move = true ∧
      g1.remote_player_.current_position = ⟨10, 7⟩ :=
  SerializeLocalState_roundtrip false hostTurnThree nonHostTurnThree (by decide) (by decide)
    (by decide) rfl

/-- C10.  When a turn message for the current turn is deserialized while the
remote player already has an uncommitted move, `DeserializeRemoteState` returns
normally with the remote `uncommitted_position` replaced by the received
position, `has_uncommitted_move` still true and everything else as it was; and
the receive step of a tick never calls `PlayDefaultGame`, so there is no change
of game mode. -/
theorem DeserializeRemoteState_overwrites (ndebug : Bool) (g : LockstepGame) (n : Nat)
    (hn : ndebug = true ∨ 12 ≤ n)
    (hturn : g.network_buffer_.readInt32 0 = g.turn_number_)
    (hp : g.remote_player_.has_uncommitted_move = true) :
    g.DeserializeRemoteState ndebug n =
      some { g with remote_player_ :=
        { g.remote_player_ with
          uncommitted_position :=
            ⟨g.network_buffer_.readInt32 4, g.network_buffer_.readInt32 8⟩ } } ∧
    ∀ ro, Event.PlayDefaultGame ∉ (g.Update_receive ndebug ro).1 := by
  constructor
  · unfold LockstepGame.DeserializeRemoteState
    have hc : (!ndebug && !decide (n ≥ 4 + 8)) = false := by
      rcases hn with h | h
      · simp [h]
      · simp; intro _; omega
    simp only [hc, Bool.false_eq_true, if_false]
    simp only [ne_eq, hturn, not_true_eq_false, if_false, ← hp]
  · intro ro
    unfold LockstepGame.Update_receive
    dsimp only
    split <;> simp

/-- C10, witness: a second message for turn 0 replaces the pending remote move
(12,8) by (12,10). -/
theorem DeserializeRemoteState_overwrites_witness :
    (hostWithSecondMessage.DeserializeRemoteState false 12).map
      (fun g => (g.remote_player_, g.local_player_, g.turn_number_)) =
      some (⟨⟨12, 9⟩, ⟨12, 10⟩, true⟩, hostWithSecondMessage.local_player_, 0) := by
  rw [(DeserializeRemoteState_overwrites false hostWithSecondMessage 12 (Or.inr (by decide))
    (by decide) rfl).1]
  decide

/-! ## Sending -/

theorem Update_receive_events (ndebug : Bool) (g : LockstepGame) (ro : RecvOutcome) :
    (g.Update_receive ndebug ro).1 = [Event.recvfrom ro] := by
  unfold LockstepGame.Update_receive
  dsimp only
  split <;> rfl

theorem Update_send_no_send (g : LockstepGame) (keys : KeyInput) (so : SendOutcome)
    (h : ¬ (g.is_local_update_sent_ = false ∧
      (LocalPlayerController.ApplyInput g.local_player_ g.board_ keys).has_uncommitted_move
        = true)) :
    g.Update_send keys so =
      ([], { g with local_player_ :=
              LocalPlayerController.ApplyInput g.local_player_ g.board_ keys }, false) := by
  unfold LockstepGame.Update_send
  dsimp only
  split
  · rename_i hc
    simp only [Bool.and_eq_true, Bool.not_eq_true'] at hc
    exact absurd hc h
  · rfl

theorem Update_send_ok (g : LockstepGame) (keys : KeyInput)
    (h : g.is_local_update_sent_ = false ∧
      (LocalPlayerController.ApplyInput g.local_player_ g.board_ keys).has_uncommitted_move
        = true) :
    (g.Update_send keys .ok).1 =
      [Event.send (SerializedData.bytes ⟨g.turn_number_,
        (LocalPlayerController.ApplyInput g.local_player_ g.board_ keys).uncommitted_position⟩)
        .ok] ∧
    (g.Update_send keys .ok).2.2 = false ∧
    (g.Update_send keys .ok).2.1.is_local_update_sent_ = true := by
  have hb := (SerializeLocalState_bytes ({ g with local_player_ :=
      (LocalPlayerController.ApplyInput g.local_player_ g.board_ keys) })).2
  unfold LockstepGame.Update_send
  dsimp only at hb ⊢
  simp only [h.1] at hb
  simp only [h.1, h.2, Bool.not_false, Bool.and_self, if_true]
  rw [hb]
  simp

theorem Update_send_error (g : LockstepGame) (keys : KeyInput) (e : Int)
    (h : g.is_local_update_sent_ = false ∧
      (LocalPlayerController.ApplyInput g.local_player_ g.board_ keys).has_uncommitted_move
        = true) :
    (g.Update_send keys (.error e)).1 =
      Event.send (SerializedData.bytes ⟨g.turn_number_,
        (LocalPlayerController.ApplyInput g.local_player_ g.board_ keys).uncommitted_position⟩)
        (.error e) :: (LockstepGame_HandleSocketError e).2 ∧
    (g.Update_send keys (.error e)).2.2 = true ∧
    (g.Update_send keys (.error e)).2.1.is_local_update_sent_ = false := by
  have hb := (SerializeLocalState_bytes ({ g with local_player_ :=
      (LocalPlayerController.ApplyInput g.local_player_ g.board_ keys) })).2
  unfold LockstepGame.Update_send
  dsimp only at hb ⊢
  simp only [h.1] at hb
  simp only [h.1, h.2, Bool.not_false, Bool.and_self, if_true]
  rw [hb]
  simp

theorem Update_events (ndebug : Bool) (g : LockstepGame) (inp : TickInput) :
    (g.Update ndebug inp).events = (g.Update_send inp.keys inp.send_outcome).1 ∨
    (g.Update ndebug inp).events =
      (g.Update_send inp.keys inp.send_outcome).1 ++ [Event.recvfrom inp.recv_outcome] := by
  cases hb : (g.Update_send inp.keys inp.send_outcome).2.2
  · right
    cases hrc : ((g.Update_send inp.keys inp.send_outcome).2.1.Update_receive ndebug
        inp.recv_outcome).2 with
    | none =>
      rw [(Update_of_aborted ndebug g inp hb hrc).2, Update_receive_events]
    | some gr =>
      rw [(Update_of_commit_check ndebug g gr inp hb hrc).2, Update_receive_events]
  · left
    rw [(Update_of_returned ndebug g inp hb).2]

theorem Event.sentTurn_bytes (d : SerializedData) (h : IsInt32 d.turn_number) :
    (Event.send d.bytes .ok).sentTurn = some d.turn_number := by
  unfold Event.sentTurn
  rw [← int32FromBytes_int32ToBytes d.turn_number h]
  simp [SerializedData.bytes, int32ToBytes]

theorem HandleSocketError_sentTurns (e : Int) :
    sentTurns (LockstepGame_HandleSocketError e).2 = [] := by
  unfold LockstepGame_HandleSocketError
  split <;> rfl

theorem sentTurns_Update (ndebug : Bool) (g : LockstepGame) (inp : TickInput)
    (ht : IsInt32 g.turn_number_) :
    sentTurns (g.Update ndebug inp).events =
      if g.is_local_update_sent_ = false ∧
        (LocalPlayerController.ApplyInput g.local_player_ g.board_
          inp.keys).has_uncommitted_move = true ∧ inp.send_outcome = .ok
      then [g.turn_number_] else [] := by
  have hsend : sentTurns (g.Update_send inp.keys inp.send_outcome).1 =
      if g.is_local_update_sent_ = false ∧
        (LocalPlayerController.ApplyInput g.local_player_ g.board_
          inp.keys).has_uncommitted_move = true ∧ inp.send_outcome = .ok
      then [g.turn_number_] else [] := by
    by_cases h : g.is_local_update_sent_ = false ∧
      (LocalPlayerController.ApplyInput g.local_player_ g.board_
        inp.keys).has_uncommitted_move = true
    · cases hso : inp.send_outcome with
      | ok =>
        rw [(Update_send_ok g inp.keys h).1, if_pos ⟨h.1, h.2, rfl⟩]
        simp only [sentTurns, List.filterMap_cons, List.filterMap_nil]
        rw [Event.sentTurn_bytes _ ht]
      | error e =>
        rw [(Update_send_error g inp.keys e h).1, if_neg (by simp)]
        have := HandleSocketError_sentTurns e
        simp only [sentTurns] at this ⊢
        rw [List.filterMap_cons, this]
        rfl
    · rw [Update_send_no_send g inp.keys _ h, if_neg (fun hc => h ⟨hc.1, hc.2.1⟩)]
      rfl
  rcases Update_events ndebug g inp with he | he
  · rw [he, hsend]
  · rw [he, ← hsend]
    simp [sentTurns, Event.sentTurn]

theorem Update_send_flag (g : LockstepGame) (keys : KeyInput) (so : SendOutcome) :
    (g.Update_send keys so).2.1.is_local_update_sent_ = true ↔
      (g.is_local_update_sent_ = true ∨
        ((LocalPlayerController.ApplyInput g.local_player_ g.board_ keys).has_uncommitted_move
          = true ∧ so = .ok)) := by
  by_cases h : g.is_local_update_sent_ = false ∧
      (LocalPlayerController.ApplyInput g.local_player_ g.board_ keys).has_uncommitted_move
        = true
  · cases so with
    | ok =>
      rw [(Update_send_ok g keys h).2.2]
      simp [h.2]
    | error e =>
      rw [(Update_send_error g keys e h).2.2]
      simp [h.1]
  · rw [Update_send_no_send g keys so h]
    dsimp only
    constructor
    · intro hs; exact Or.inl hs
    · rintro (hs | ⟨hp, -⟩)
      · exact hs
      · cases hsent : g.is_local_update_sent_
        · exact absurd ⟨hsent, hp⟩ h
        · rfl

theorem Update_flag (ndebug : Bool) (g g1 : LockstepGame) (inp : TickInput)
    (h : (g.Update ndebug inp).game = some g1) :
    (g1.turn_number_ = g.turn_number_ ∧
      (g1.is_local_update_sent_ = true ↔
        (g.is_local_update_sent_ = true ∨
          ((LocalPlayerController.ApplyInput g.local_player_ g.board_
              inp.keys).has_uncommitted_move = true ∧ inp.send_outcome = .ok)))) ∨
    (g1.turn_number_ = incInt32 g.turn_number_ ∧ g1.is_local_update_sent_ = false) := by
  obtain ⟨-, -, f3, -, -⟩ := Update_send_frame g inp.keys inp.send_outcome
  have hflag := Update_send_flag g inp.keys inp.send_outcome
  rcases Update_cases ndebug g inp with ⟨gs, h1, -, -, h4⟩ | ⟨h1, -⟩ | ⟨gc, h1, -, -, h5⟩
  · rw [h1] at h
    simp only [Option.some.injEq] at h
    subst h
    subst h4
    exact Or.inl ⟨f3, hflag⟩
  · rw [h1] at h; exact absurd h (by simp)
  · rw [h1] at h
    simp only [Option.some.injEq] at h
    subst h
    obtain ⟨-, r2, r3, -⟩ := Update_receive_frame ndebug _ gc inp.recv_outcome h5
    by_cases hboth : gc.local_player_.has_uncommitted_move = true ∧
        gc.remote_player_.has_uncommitted_move = true
    · right
      obtain ⟨-, -, c3, c4⟩ := Update_commit_of_both gc hboth.1 hboth.2
      exact ⟨by rw [c3, r2, f3], c4⟩
    · left
      rw [Update_commit_of_not_both gc hboth, r2, r3]
      exact ⟨f3, hflag⟩

theorem sentTurns_append (a b : List Event) : sentTurns (a ++ b) = sentTurns a ++ sentTurns b := by
  simp [sentTurns, List.filterMap_append]

theorem run_sentTurns (ndebug : Bool) : ∀ (inputs : List TickInput) (g : LockstepGame),
    INT_MIN ≤ g.turn_number_ → g.turn_number_ + inputs.length ≤ INT_MAX →
    (sentTurns (g.run ndebug inputs).1).Pairwise (fun a b => a < b) ∧
    ∀ t ∈ sentTurns (g.run ndebug inputs).1,
      g.turn_number_ ≤ t ∧ (g.is_local_update_sent_ = true → g.turn_number_ < t) := by
  intro inputs
  induction inputs with
  | nil =>
    intro g _ _
    simp [LockstepGame.run, sentTurns]
  | cons inp rest ih =>
    intro g hlo hhi
    simp only [List.length_cons, Nat.cast_add, Nat.cast_one] at hhi
    have hmax : g.turn_number_ ≠ INT_MAX := by omega
    have hint : IsInt32 g.turn_number_ := ⟨hlo, by omega⟩
    have hst := sentTurns_Update ndebug g inp hint
    -- what this tick's events contribute
    have hfirst : ∀ t ∈ sentTurns (g.Update ndebug inp).events,
        t = g.turn_number_ ∧ g.is_local_update_sent_ = false ∧
        (LocalPlayerController.ApplyInput g.local_player_ g.board_
          inp.keys).has_uncommitted_move = true ∧ inp.send_outcome = .ok := by
      intro t ht
      rw [hst] at ht
      split at ht
      · rename_i hc
        simp only [List.mem_singleton] at ht
        exact ⟨ht, hc⟩
      · simp at ht
    have hpw : (sentTurns (g.Update ndebug inp).events).Pairwise (fun a b => a < b) := by
      rw [hst]
      split <;> simp
    have hbound : ∀ t ∈ sentTurns (g.Update ndebug inp).events,
        g.turn_number_ ≤ t ∧ (g.is_local_update_sent_ = true → g.turn_number_ < t) := by
      intro t ht
      obtain ⟨h1, h2, -⟩ := hfirst t ht
      refine ⟨by omega, ?_⟩
      intro hs
      rw [h2] at hs
      exact absurd hs (by simp)
    unfold LockstepGame.run
    cases hg : (g.Update ndebug inp).game with
    | none => exact ⟨hpw, hbound⟩
    | some g1 =>
      dsimp only
      split
      · exact ⟨hpw, hbound⟩
      · dsimp only
        rw [sentTurns_append]
        have hfl := Update_flag ndebug g g1 inp hg
        rw [incInt32_of_ne hmax] at hfl
        have hlo1 : INT_MIN ≤ g1.turn_number_ := by
          rcases hfl with ⟨h1, -⟩ | ⟨h1, -⟩ <;> omega
        have hhi1 : g1.turn_number_ + rest.length ≤ INT_MAX := by
          rcases hfl with ⟨h1, -⟩ | ⟨h1, -⟩ <;> omega
        obtain ⟨ih1, ih2⟩ := ih g1 hlo1 hhi1
        constructor
        · rw [List.pairwise_append]
          refine ⟨hpw, ih1, ?_⟩
          intro a ha b hb
          obtain ⟨a1, a2, a3, a4⟩ := hfirst a ha
          obtain ⟨b1, b2⟩ := ih2 b hb
          rcases hfl with ⟨h1, h2⟩ | ⟨h1, -⟩
          · have := b2 (h2.mpr (Or.inr ⟨a3, a4⟩))
            omega
          · omega
        · intro t ht
          rw [List.mem_append] at ht
          rcases ht with ht | ht
          · exact hbound t ht
          · obtain ⟨b1, b2⟩ := ih2 t ht
            rcases hfl with ⟨h1, h2⟩ | ⟨h1, -⟩
            · refine ⟨by omega, ?_⟩
              intro hs
              have := b2 (h2.mpr (Or.inl hs))
              omega
            · exact ⟨by omega, fun _ => by omega⟩

theorem HandleSocketError_events (e : Int) :
    (LockstepGame_HandleSocketError e).2 = [] ∨
    (LockstepGame_HandleSocketError e).2 = [Event.PlayDefaultGame] := by
  unfold LockstepGame_HandleSocketError
  split
  · exact Or.inl rfl
  · exact Or.inr rfl

theorem Update_send_events_cases (g : LockstepGame) (keys : KeyInput) (so : SendOutcome) :
    (g.Update_send keys so).1 = [] ∨
    (g.is_local_update_sent_ = false ∧
      (LocalPlayerController.ApplyInput g.local_player_ g.board_ keys).has_uncommitted_move
        = true ∧
      ((g.Update_send keys so).1 = [Event.send (SerializedData.bytes ⟨g.turn_number_,
          (LocalPlayerController.ApplyInput g.local_player_ g.board_
            keys).uncommitted_position⟩) so] ∨
       (g.Update_send keys so).1 = [Event.send (SerializedData.bytes ⟨g.turn_number_,
          (LocalPlayerController.ApplyInput g.local_player_ g.board_
            keys).uncommitted_position⟩) so, Event.PlayDefaultGame])) := by
  by_cases h : g.is_local_update_sent_ = false ∧
      (LocalPlayerController.ApplyInput g.local_player_ g.board_ keys).has_uncommitted_move
        = true
  · right
    refine ⟨h.1, h.2, ?_⟩
    cases so with
    | ok => exact Or.inl (Update_send_ok g keys h).1
    | error e =>
      rw [(Update_send_error g keys e h).1]
      rcases HandleSocketError_events e with he | he <;> rw [he]
      · exact Or.inl rfl
      · exact Or.inr rfl
  · left
    rw [Update_send_no_send g keys so h]

theorem send_event_aux (p0 payload : List Byte) (s0 so : SendOutcome) (ro : RecvOutcome)
    (evs rest : List Event)
    (h : evs = [] ∨ evs = [Event.send p0 s0] ∨ evs = [Event.send p0 s0, Event.PlayDefaultGame])
    (hr : rest = [] ∨ rest = [Event.recvfrom ro]) :
    (evs ++ rest).count (Event.send payload so) ≤ 1 ∧
    (Event.send payload so ∈ evs ++ rest → (payload = p0 ∧ so = s0) ∧ evs ≠ []) := by
  constructor
  · have hnd : (evs ++ rest).Nodup := by
      rcases h with h | h | h <;> rcases hr with hr | hr <;> subst h <;> subst hr <;> simp
    exact List.nodup_iff_count_le_one.mp hnd _
  · intro hmem
    rcases h with h | h | h <;> rcases hr with hr | hr <;> subst h <;> subst hr <;>
      simp at hmem <;> simp [hmem]

theorem Update_send_event (ndebug : Bool) (g : LockstepGame) (inp : TickInput)
    (payload : List Byte) (so : SendOutcome) :
    (g.Update ndebug inp).events.count (Event.send payload so) ≤ 1 ∧
    (Event.send payload so ∈ (g.Update ndebug inp).events →
      g.is_local_update_sent_ = false ∧
      (LocalPlayerController.ApplyInput g.local_player_ g.board_
        inp.keys).has_uncommitted_move = true ∧
      so = inp.send_outcome ∧
      payload = SerializedData.bytes ⟨g.turn_number_,
        (LocalPlayerController.ApplyInput g.local_player_ g.board_
          inp.keys).uncommitted_position⟩) := by
  have hev : ∃ rest, (g.Update ndebug inp).events =
      (g.Update_send inp.keys inp.send_outcome).1 ++ rest ∧
      (rest = [] ∨ rest = [Event.recvfrom inp.recv_outcome]) := by
    rcases Update_events ndebug g inp with he | he
    · exact ⟨[], by rw [he, List.append_nil], Or.inl rfl⟩
    · exact ⟨_, he, Or.inr rfl⟩
  obtain ⟨rest, he, hrest⟩ := hev
  have hs := Update_send_events_cases g inp.keys inp.send_outcome
  have haux := send_event_aux (SerializedData.bytes ⟨g.turn_number_,
      (LocalPlayerController.ApplyInput g.local_player_ g.board_
        inp.keys).uncommitted_position⟩) payload inp.send_outcome so inp.recv_outcome
      (g.Update_send inp.keys inp.send_outcome).1 rest
      (by
        rcases hs with hs | ⟨-, -, hs | hs⟩
        · exact Or.inl hs
        · exact Or.inr (Or.inl hs)
        · exact Or.inr (Or.inr hs)) hrest
  rw [he]
  refine ⟨haux.1, ?_⟩
  intro hmem
  obtain ⟨⟨hp, hso⟩, hne⟩ := haux.2 hmem
  rcases hs with hs | ⟨h1, h2, -⟩
  · exact absurd hs hne
  · exact ⟨h1, h2, hso, hp⟩

theorem atCommitCheck_flag (ndebug : Bool) (g gc : LockstepGame) (inp : TickInput)
    (h : g.atCommitCheck ndebug inp = some gc) :
    gc.is_local_update_sent_ =
      (g.Update_send inp.keys inp.send_outcome).2.1.is_local_update_sent_ := by
  rcases Update_cases ndebug g inp with ⟨gs, -, h2, -⟩ | ⟨-, h2, -⟩ | ⟨gc2, -, h2, -, h4⟩
  · rw [h2] at h; exact absurd h (by simp)
  · rw [h2] at h; exact absurd h (by simp)
  · rw [h2] at h
    simp only [Option.some.injEq] at h
    subst h
    exact (Update_receive_frame ndebug _ gc2 inp.recv_outcome h4).2.2.1

/-- C9.  Along the frames of a `LockstepGame` whose turn counter stays in the
range of an `int`, no turn number is carried by more than one successfully sent
datagram.  In each tick: there is at most one `send`; it happens only if
`is_local_update_sent_` is false and the local player has an uncommitted move
(once the input of the frame is applied); the datagram is the record made of the
current `turn_number_` and the local `uncommitted_position`; after a successful
`send` the flag is set when the commit check runs.  And a tick that starts with
the flag set and returns with the flag cleared has advanced `turn_number_`. -/
theorem at_most_one_send_per_turn (ndebug : Bool) (g : LockstepGame)
    (inputs : List TickInput)
    (hlo : INT_MIN ≤ g.turn_number_) (hhi : g.turn_number_ + inputs.length ≤ INT_MAX) :
    (∀ t, (sentTurns (g.run ndebug inputs).1).count t ≤ 1) ∧
    (∀ (inp : TickInput) (payload : List Byte) (so : SendOutcome),
      (g.Update ndebug inp).events.count (Event.send payload so) ≤ 1 ∧
      (Event.send payload so ∈ (g.Update ndebug inp).events →
        g.is_local_update_sent_ = false ∧
        (LocalPlayerController.ApplyInput g.local_player_ g.board_
          inp.keys).has_uncommitted_move = true ∧
        so = inp.send_outcome ∧
        payload = SerializedData.bytes ⟨g.turn_number_,
          (LocalPlayerController.ApplyInput g.local_player_ g.board_
            inp.keys).uncommitted_position⟩ ∧
        (so = .ok → ∀ gc, g.atCommitCheck ndebug inp = some gc →
          gc.is_local_update_sent_ = true))) ∧
    (∀ (inp : TickInput) (g1 : LockstepGame), (g.Update ndebug inp).game = some g1 →
      g.is_local_update_sent_ = true → g1.is_local_update_sent_ = false →
      g.turn_number_ ≠ INT_MAX → g1.turn_number_ = g.turn_number_ + 1) := by
  refine ⟨?_, ?_, ?_⟩
  · have hpw := (run_sentTurns ndebug inputs g hlo hhi).1
    have hnd : (sentTurns (g.run ndebug inputs).1).Nodup :=
      hpw.imp (fun h => ne_of_lt h)
    intro t
    exact List.nodup_iff_count_le_one.mp hnd t
  · intro inp payload so
    obtain ⟨hc, hm⟩ := Update_send_event ndebug g inp payload so
    refine ⟨hc, ?_⟩
    intro hmem
    obtain ⟨h1, h2, h3, h4⟩ := hm hmem
    refine ⟨h1, h2, h3, h4, ?_⟩
    intro hok gc hgc
    rw [atCommitCheck_flag ndebug g gc inp hgc]
    exact (Update_send_flag g inp.keys inp.send_outcome).mpr (Or.inr ⟨h2, h3 ▸ hok⟩)
  · intro inp g1 hg1 hs hs1 hmax
    rcases Update_flag ndebug g g1 inp hg1 with ⟨-, h2⟩ | ⟨h1, -⟩
    · have := h2.mpr (Or.inl hs)
      rw [hs1] at this
      exact absurd this (by simp)
    · rw [h1, incInt32_of_ne hmax]

/-- C9, witness: four frames of the host.  The `send` of the first frame would
block and is repeated in the second; the datagrams sent carry turn 0 and turn 1. -/
theorem at_most_one_send_per_turn_witness :
    sentTurns (hostStart.run false fourFrames).1 = [0, 1] ∧
    (sentTurns (hostStart.run false fourFrames).1).count 0 ≤ 1 :=
  ⟨by decide,
   (at_most_one_send_per_turn false hostStart fourFrames (by decide) (by decide)).1 0⟩

/-! ## Construction, input and the plain commit -/

/-- C11.  For both roles the constructor puts the host's player on
(midX-1, midY-1) and the other player on (midX+1, midY+1), where midX and midY
are the tile counts of the board divided by 2, that is on (10,7) and (12,9): the
local player gets the host's tile exactly when `is_host` is true.  So the local
and remote start tiles of a host are the remote and local start tiles of a
non-host; the two tiles are distinct valid tiles; the turn number is 0, no
update counts as sent and neither player has an uncommitted move. -/
theorem construct_start (socket socket2 : Nat) (is_host : Bool) (buf buf2 : Buffer) :
    (LockstepGame.construct socket is_host buf).local_player_.current_position =
      (if is_host then ⟨10, 7⟩ else ⟨12, 9⟩) ∧
    (LockstepGame.construct socket is_host buf).remote_player_.current_position =
      (if is_host then ⟨12, 9⟩ else ⟨10, 7⟩) ∧
    (⟨10, 7⟩ : BoardPosition) =
      ⟨Int.tdiv (Board.GetTileCountX {}) 2 - 1, Int.tdiv (Board.GetTileCountY {}) 2 - 1⟩ ∧
    (⟨12, 9⟩ : BoardPosition) =
      ⟨Int.tdiv (Board.GetTileCountX {}) 2 + 1, Int.tdiv (Board.GetTileCountY {}) 2 + 1⟩ ∧
    (LockstepGame.construct socket true buf).local_player_.current_position =
      (LockstepGame.construct socket2 false buf2).remote_player_.current_position ∧
    (LockstepGame.construct socket true buf).remote_player_.current_position =
      (LockstepGame.construct socket2 false buf2).local_player_.current_position ∧
    (LockstepGame.construct socket is_host buf).local_player_.current_position ≠
      (LockstepGame.construct socket is_host buf).remote_player_.current_position ∧
    (LockstepGame.construct socket is_host buf).board_.IsValidTile
      (LockstepGame.construct socket is_host buf).local_player_.current_position = true ∧
    (LockstepGame.construct socket is_host buf).board_.IsValidTile
      (LockstepGame.construct socket is_host buf).remote_player_.current_position = true ∧
    (LockstepGame.construct socket is_host buf).turn_number_ = 0 ∧
    (LockstepGame.construct socket is_host buf).is_local_update_sent_ = false ∧
    (LockstepGame.construct socket is_host buf).is_host_ = is_host ∧
    (LockstepGame.construct socket is_host buf).socket_ = socket ∧
    (LockstepGame.construct socket is_host buf).local_player_.has_uncommitted_move = false ∧
    (LockstepGame.construct socket is_host buf).remote_player_.has_uncommitted_move = false := by
  have h1 : (⟨10, 7⟩ : BoardPosition) ≠ ⟨12, 9⟩ := by decide
  have h2 : (⟨12, 9⟩ : BoardPosition) ≠ ⟨10, 7⟩ := by decide
  have v1 : Board.IsValidTile {} ⟨10, 7⟩ = true := by decide
  have v2 : Board.IsValidTile {} ⟨12, 9⟩ = true := by decide
  cases is_host
  · exact ⟨rfl, rfl, by decide, by decide, rfl, rfl, h2, v2, v1, rfl, rfl, rfl, rfl, rfl, rfl⟩
  · exact ⟨rfl, rfl, by decide, by decide, rfl, rfl, h1, v1, v2, rfl, rfl, rfl, rfl, rfl, rfl⟩

/-- C14.  `SerializeLocalState` always reports 12 bytes, and the 12 bytes it
leaves at the start of the network buffer are, lowest byte first, the four bytes
of `turn_number_` at offset 0, the four bytes of the x coordinate of the local
`uncommitted_position` at offset 4 and the four bytes of its y coordinate at
offset 8 (each value taken modulo 2^32, as a 32-bit `int` is stored). -/
theorem SerializeLocalState_layout (g : LockstepGame) :
    g.SerializeLocalState.2 = 12 ∧
    (g.SerializeLocalState.1.take g.SerializeLocalState.2).length = 12 ∧
    ∀ k, k < 4 →
      (g.SerializeLocalState.1 k).val =
        (g.turn_number_ % 4294967296).toNat / 256 ^ k % 256 ∧
      (g.SerializeLocalState.1 (4 + k)).val =
        (g.local_player_.uncommitted_position.x % 4294967296).toNat / 256 ^ k % 256 ∧
      (g.SerializeLocalState.1 (8 + k)).val =
        (g.local_player_.uncommitted_position.y % 4294967296).toNat / 256 ^ k % 256 := by
  refine ⟨rfl, ?_, ?_⟩
  · rw [(SerializeLocalState_bytes g).2, SerializedData.bytes_length]
  · intro k hk
    unfold LockstepGame.SerializeLocalState
    interval_cases k <;>
      simp [Buffer.write, int32ToBytes, byteOfNat]

/-! ## The rendezvous states -/

theorem CP_Engine_queued_forced_last (current st : GameState) (effects : List Effect) :
    CP_Engine_queued current (effects ++ [Effect.CP_Engine_SetNextGameStateForced st]) =
      some st := by
  simp [CP_Engine_queued, List.foldl_append]

theorem BoardGame.delete_cases (q : Option BoardGame) :
    BoardGame.delete q = [] ∨
    ∃ g, q = some (.lockstep g) ∧ BoardGame.delete q = [Effect.closesocket g.socket_] := by
  match q with
  | none => exact Or.inl rfl
  | some (.single g) => exact Or.inl rfl
  | some (.lockstep g) => exact Or.inr ⟨g, rfl, rfl⟩

/-- C16.  When a tick of the connecting state (in which ESC is not triggered)
falls back to hosting, because the countdown has reached zero or because
`recvfrom` reports `WSAECONNRESET`, it sets `hosting_port` to the connecting
port, the hosting state is the state queued in the engine, and the connecting
socket is closed exactly once. -/
theorem LockstepConnectingState_fallback {F : Type} (ops : FloatOps F) (w : Globals F)
    (inp : StateInput F) (hesc : inp.KEY_ESCAPE = false)
    (hfall : ops.le_zero (ops.sub w.connecting_timeout_secs inp.dt) = true ∨
      inp.recv_outcome = .error WSAECONNRESET) :
    (LockstepConnectingState_Update ops w inp).1.hosting_port = w.connecting_port ∧
    CP_Engine_queued GameState.LockstepConnectingState
      (LockstepConnectingState_Update ops w inp).2 = some GameState.LockstepHostingState ∧
    (LockstepConnectingState_Update ops w inp).2.count
      (Effect.closesocket w.connecting_socket) = 1 ∧
    (LockstepConnectingState_Update ops w inp).1.next_game = w.next_game := by
  unfold LockstepConnectingState_Update
  simp only [hesc, Bool.false_eq_true, if_false]
  by_cases ht : ops.le_zero (ops.sub w.connecting_timeout_secs inp.dt) = true
  · simp only [ht, if_true]
    refine ⟨rfl, ?_, ?_, rfl⟩
    · simp [HostLockstep, CP_Engine_queued]
    · simp [HostLockstep, List.count_cons]
  · rcases hfall with h | h
    · exact absurd h ht
    · simp only [ht, Bool.false_eq_true, if_false, h]
      have e1 : (RecvOutcome.error WSAECONNRESET).res 4096 = SOCKET_ERROR := rfl
      have e2 : (RecvOutcome.error WSAECONNRESET).wsa_error 4096 = WSAECONNRESET := rfl
      have e3 : WSAECONNRESET ≠ WSAEWOULDBLOCK := by decide
      simp only [e1, e2, if_true, ne_eq, e3, not_false_eq_true,
        LockstepConnectingState_HandleSocketError, if_false]
      refine ⟨rfl, ?_, ?_, rfl⟩
      · simp [HostLockstep, CP_Engine_queued]
      · simp [HostLockstep, List.count_cons]

/-- C16, witness: connecting on port 4000, `recvfrom` reports `WSAECONNRESET`. -/
theorem LockstepConnectingState_fallback_witness :
    (LockstepConnectingState_Update secondsOps connectingOn4000 resetFrame).1.hosting_port
      = 4000 ∧
    CP_Engine_queued GameState.LockstepConnectingState
      (LockstepConnectingState_Update secondsOps connectingOn4000 resetFrame).2 =
      some GameState.LockstepHostingState ∧
    (LockstepConnectingState_Update secondsOps connectingOn4000 resetFrame).2.count
      (Effect.closesocket 7) = 1 :=
  ⟨(LockstepConnectingState_fallback secondsOps connectingOn4000 resetFrame rfl
      (Or.inr rfl)).1,
   (LockstepConnectingState_fallback secondsOps connectingOn4000 resetFrame rfl
      (Or.inr rfl)).2.1,
   (LockstepConnectingState_fallback secondsOps connectingOn4000 resetFrame rfl
      (Or.inr rfl)).2.2.1⟩

theorem PlayGame_no_close {F : Type} (w : Globals F) (game : BoardGame) (s : Nat)
    (hq : ∀ g, w.next_game = some (.lockstep g) → g.socket_ ≠ s) :
    Effect.closesocket s ∉ (PlayGame w (some game)).2 := by
  unfold PlayGame
  rcases BoardGame.delete_cases w.next_game with h | ⟨g, hg, h⟩
  · simp [h]
  · rw [h]
    intro hmem
    simp at hmem
    exact hq g hg hmem.symm

/-- C17.  In the connecting state, a tick that gets to its `recvfrom` (no ESC,
countdown not expired) and whose `recvfrom` returns a payload (a positive number
of bytes), whatever the bytes and however many, queues the play state with a new
`LockstepGame` on the connecting socket with `is_host` false; apart from the
`recvfrom` it only deletes a game that was queued before, so it does not close
the connecting socket (unless a lock-step game on that very socket was queued). -/
theorem LockstepConnectingState_response {F : Type} (ops : FloatOps F) (w : Globals F)
    (inp : StateInput F) (hesc : inp.KEY_ESCAPE = false)
    (htime : ops.le_zero (ops.sub w.connecting_timeout_secs inp.dt) = false)
    (hres : inp.recv_outcome.res 4096 > 0) :
    (LockstepConnectingState_Update ops w inp).1.next_game =
      some (.lockstep (LockstepGame.construct w.connecting_socket false inp.fresh_buffer)) ∧
    BoardGame.lockstepRole (LockstepConnectingState_Update ops w inp).1.next_game =
      some (w.connecting_socket, false) ∧
    CP_Engine_queued GameState.LockstepConnectingState
      (LockstepConnectingState_Update ops w inp).2 = some GameState.PlayGameState ∧
    (LockstepConnectingState_Update ops w inp).2 =
      Effect.recvfrom w.connecting_socket inp.recv_outcome ::
        (BoardGame.delete w.next_game ++
          [Effect.CP_Engine_SetNextGameStateForced GameState.PlayGameState]) ∧
    ((∀ g, w.next_game = some (.lockstep g) → g.socket_ ≠ w.connecting_socket) →
      Effect.closesocket w.connecting_socket ∉
        (LockstepConnectingState_Update ops w inp).2) := by
  have r1 : inp.recv_outcome.res 4096 ≠ SOCKET_ERROR := by
    unfold SOCKET_ERROR; omega
  have hupd : LockstepConnectingState_Update ops w inp =
      ((PlayGame { w with
          connecting_timeout_secs := ops.sub w.connecting_timeout_secs inp.dt }
          (some (.lockstep
            (LockstepGame.construct w.connecting_socket false inp.fresh_buffer)))).1,
       Effect.recvfrom w.connecting_socket inp.recv_outcome ::
        (PlayGame { w with
          connecting_timeout_secs := ops.sub w.connecting_timeout_secs inp.dt }
          (some (.lockstep
            (LockstepGame.construct w.connecting_socket false inp.fresh_buffer)))).2) := by
    unfold LockstepConnectingState_Update
    simp only [hesc, Bool.false_eq_true, if_false, htime, r1, hres, if_true]
  rw [hupd]
  refine ⟨rfl, rfl, ?_, rfl, ?_⟩
  · show CP_Engine_queued GameState.LockstepConnectingState
      ((Effect.recvfrom w.connecting_socket inp.recv_outcome :: BoardGame.delete w.next_game)
        ++ [Effect.CP_Engine_SetNextGameStateForced GameState.PlayGameState]) = _
    exact CP_Engine_queued_forced_last _ _ _
  · intro hq
    simp only [List.mem_cons, reduceCtorEq, false_or]
    exact PlayGame_no_close _ _ _ hq

/-- C17, witness: one byte arrives while connecting through socket 7. -/
theorem LockstepConnectingState_response_witness :
    BoardGame.lockstepRole
      (LockstepConnectingState_Update secondsOps connectingOn4000 oneByteFrame).1.next_game =
      some (7, false) ∧
    Effect.closesocket 7 ∉
      (LockstepConnectingState_Update secondsOps connectingOn4000 oneByteFrame).2 :=
  ⟨(LockstepConnectingState_response secondsOps connectingOn4000 oneByteFrame rfl rfl
      (by decide)).2.1,
   (LockstepConnectingState_response secondsOps connectingOn4000 oneByteFrame rfl rfl
      (by decide)).2.2.2.2 (fun g h => by simp [connectingOn4000] at h)⟩

theorem LockstepHostingState_HandleSocketError_game {F : Type} (w : Globals F) (e : Int) :
    (LockstepHostingState_HandleSocketError w e).2.1.next_game = w.next_game ∨
    (LockstepHostingState_HandleSocketError w e).2.1.next_game =
      some (.single SinglePlayerGame.construct) := by
  unfold LockstepHostingState_HandleSocketError
  split
  · exact Or.inl rfl
  · exact Or.inr rfl

/-- C18, as the code has it.  In the hosting state, a tick without ESC whose
`recvfrom` returns a datagram (a positive number of bytes) from an address A,
whatever its bytes, calls `connect` on the hosting socket with A.  If `connect` and the `send` that
follows succeed, the tick has sent the 11 bytes of "LetUsBegin" with its
terminating zero and queues the play state with a new `LockstepGame` on the
hosting socket with `is_host` true, without closing that socket (unless a
lock-step game on that very socket was queued before).  If `connect` or `send`
fails, no lock-step game is queued by the tick: the queued game is as before or
it is the default single-player game. -/
theorem LockstepHostingState_probe {F : Type} (w : Globals F) (inp : StateInput F)
    (hesc : inp.KEY_ESCAPE = false) (hres : inp.recv_outcome.res 4096 > 0) :
    Effect.connect w.hosting_socket inp.remote_address inp.connect_outcome ∈
      (LockstepHostingState_Update w inp).2 ∧
    (inp.connect_outcome = .ok → inp.send_outcome = .ok →
      (LockstepHostingState_Update w inp).2 =
        [Effect.recvfrom w.hosting_socket inp.recv_outcome,
         Effect.connect w.hosting_socket inp.remote_address .ok,
         Effect.send w.hosting_socket
           [76, 101, 116, 85, 115, 66, 101, 103, 105, 110, 0] .ok] ++
        (BoardGame.delete w.next_game ++
          [Effect.CP_Engine_SetNextGameStateForced GameState.PlayGameState]) ∧
      (LockstepHostingState_Update w inp).1.next_game =
        some (.lockstep (LockstepGame.construct w.hosting_socket true inp.fresh_buffer)) ∧
      BoardGame.lockstepRole (LockstepHostingState_Update w inp).1.next_game =
        some (w.hosting_socket, true) ∧
      CP_Engine_queued GameState.LockstepHostingState (LockstepHostingState_Update w inp).2 =
        some GameState.PlayGameState ∧
      ((∀ g, w.next_game = some (.lockstep g) → g.socket_ ≠ w.hosting_socket) →
        Effect.closesocket w.hosting_socket ∉ (LockstepHostingState_Update w inp).2)) ∧
    ((∃ e, inp.connect_outcome = .error e ∨ inp.send_outcome = .error e) →
      (LockstepHostingState_Update w inp).1.next_game = w.next_game ∨
      (LockstepHostingState_Update w inp).1.next_game =
        some (.single SinglePlayerGame.construct)) := by
  have hmsg : (c_str "LetUsBegin").take ("LetUsBegin".length + 1) =
      [76, 101, 116, 85, 115, 66, 101, 103, 105, 110, 0] := by decide
  refine ⟨?_, ?_, ?_⟩
  · unfold LockstepHostingState_Update
    simp only [hesc, Bool.false_eq_true, if_false, hres, if_true]
    cases inp.connect_outcome with
    | ok => cases inp.send_outcome <;> simp
    | error e => simp
  · intro hc hs
    have hupd : LockstepHostingState_Update w inp =
        ((PlayGame w (some (.lockstep
            (LockstepGame.construct w.hosting_socket true inp.fresh_buffer)))).1,
         [Effect.recvfrom w.hosting_socket inp.recv_outcome,
          Effect.connect w.hosting_socket inp.remote_address .ok,
          Effect.send w.hosting_socket
            [76, 101, 116, 85, 115, 66, 101, 103, 105, 110, 0] .ok] ++
          (PlayGame w (some (.lockstep
            (LockstepGame.construct w.hosting_socket true inp.fresh_buffer)))).2) := by
      unfold LockstepHostingState_Update
      simp only [hesc, Bool.false_eq_true, if_false, hres, if_true, hc, hs, hmsg]
    rw [hupd]
    refine ⟨rfl, rfl, rfl, ?_, ?_⟩
    · show CP_Engine_queued GameState.LockstepHostingState
        (([Effect.recvfrom w.hosting_socket inp.recv_outcome,
          Effect.connect w.hosting_socket inp.remote_address .ok,
          Effect.send w.hosting_socket
            [76, 101, 116, 85, 115, 66, 101, 103, 105, 110, 0] .ok] ++
          BoardGame.delete w.next_game)
          ++ [Effect.CP_Engine_SetNextGameStateForced GameState.PlayGameState]) = _
      exact CP_Engine_queued_forced_last _ _ _
    · intro hq
      have := PlayGame_no_close w (.lockstep
        (LockstepGame.construct w.hosting_socket true inp.fresh_buffer)) w.hosting_socket hq
      simp only [List.cons_append, List.nil_append, List.mem_cons, reduceCtorEq, false_or]
      exact this
  · rintro ⟨e, he⟩
    unfold LockstepHostingState_Update
    simp only [hesc, Bool.false_eq_true, if_false, hres, if_true]
    cases hc : inp.connect_outcome with
    | error e1 => exact LockstepHostingState_HandleSocketError_game w e1
    | ok =>
      rw [hc] at he
      rcases he with he | he
      · exact absurd he (by simp)
      · rw [he]
        exact LockstepHostingState_HandleSocketError_game w e

/-- C18, witness: one byte arrives while hosting through socket 8; `connect`
and `send` succeed. -/
theorem LockstepHostingState_probe_witness :
    BoardGame.lockstepRole (LockstepHostingState_Update hostingOn4000 oneByteFrame).1.next_game
      = some (8, true) ∧
    Effect.closesocket 8 ∉ (LockstepHostingState_Update hostingOn4000 oneByteFrame).2 :=
  ⟨((LockstepHostingState_probe hostingOn4000 oneByteFrame rfl (by decide)).2.1
      rfl rfl).2.2.1,
   ((LockstepHostingState_probe hostingOn4000 oneByteFrame rfl (by decide)).2.1
      rfl rfl).2.2.2.2 (fun g h => by simp [hostingOn4000] at h)⟩

/-- C18, as stated, fails.  While hosting through socket 8 one byte arrives, the
socket is connected to the sender, and `send` fails with error 10051: the tick
closes the hosting socket and queues the play state with the default
single-player game, not with a `LockstepGame`. -/
theorem LockstepHostingState_probe_send_fails :
    (LockstepHostingState_Update hostingOn4000 oneByteSendFails).2 =
      [Effect.recvfrom 8 (.datagram [1]),
       Effect.connect 8 ⟨2130706433, 50000⟩ .ok,
       Effect.send 8 [76, 101, 116, 85, 115, 66, 101, 103, 105, 110, 0] (.error 10051),
       Effect.CP_Engine_SetNextGameStateForced GameState.PlayGameState,
       Effect.closesocket 8] ∧
    BoardGame.lockstepRole
      (LockstepHostingState_Update hostingOn4000 oneByteSendFails).1.next_game = none := by
  decide

/-- C19.  In the connecting and in the hosting state, a tick in which ESC is
triggered makes two calls and no other: it closes the socket of the state, once,
and it asks the engine for the configuring state, which is then the state
queued; it makes no `recvfrom`, `connect` or `send`, and it leaves the globals
as they were. -/
theorem rendezvous_cancel {F : Type} (ops : FloatOps F) (w : Globals F) (inp : StateInput F)
    (hesc : inp.KEY_ESCAPE = true) :
    (LockstepConnectingState_Update ops w inp).2 =
      [Effect.CP_Engine_SetNextGameState GameState.LockstepConfiguringState,
       Effect.closesocket w.connecting_socket] ∧
    (LockstepHostingState_Update w inp).2 =
      [Effect.closesocket w.hosting_socket,
       Effect.CP_Engine_SetNextGameState GameState.LockstepConfiguringState] ∧
    (LockstepConnectingState_Update ops w inp).2.count
      (Effect.closesocket w.connecting_socket) = 1 ∧
    (LockstepHostingState_Update w inp).2.count (Effect.closesocket w.hosting_socket) = 1 ∧
    CP_Engine_queued GameState.LockstepConnectingState
      (LockstepConnectingState_Update ops w inp).2 =
      some GameState.LockstepConfiguringState ∧
    CP_Engine_queued GameState.LockstepHostingState (LockstepHostingState_Update w inp).2 =
      some GameState.LockstepConfiguringState ∧
    (∀ s o, Effect.recvfrom s o ∉ (LockstepConnectingState_Update ops w inp).2 ∧
      Effect.recvfrom s o ∉ (LockstepHostingState_Update w inp).2) ∧
    (∀ s p o, Effect.send s p o ∉ (LockstepConnectingState_Update ops w inp).2 ∧
      Effect.send s p o ∉ (LockstepHostingState_Update w inp).2) ∧
    (∀ s a o, Effect.connect s a o ∉ (LockstepConnectingState_Update ops w inp).2 ∧
      Effect.connect s a o ∉ (LockstepHostingState_Update w inp).2) ∧
    (LockstepConnectingState_Update ops w inp).1 = w ∧
    (LockstepHostingState_Update w inp).1 = w := by
  have hc : LockstepConnectingState_Update ops w inp =
      (w, [Effect.CP_Engine_SetNextGameState GameState.LockstepConfiguringState,
           Effect.closesocket w.connecting_socket]) := by
    unfold LockstepConnectingState_Update
    simp only [hesc, if_true]
    rfl
  have hh : LockstepHostingState_Update w inp =
      (w, [Effect.closesocket w.hosting_socket,
           Effect.CP_Engine_SetNextGameState GameState.LockstepConfiguringState]) := by
    unfold LockstepHostingState_Update
    simp only [hesc, if_true]
    rfl
  rw [hc, hh]
  refine ⟨rfl, rfl, ?_, ?_, ?_, ?_, ?_, ?_, ?_, rfl, rfl⟩
  · simp [List.count_cons]
  · simp [List.count_cons]
  · simp [CP_Engine_queued]
  · simp [CP_Engine_queued]
  · intro s o; simp
  · intro s p o; simp
  · intro s a o; simp

/-- C19, witness: ESC while connecting through socket 7 and while hosting
through socket 8. -/
theorem rendezvous_cancel_witness :
    (LockstepConnectingState_Update secondsOps connectingOn4000 escapeFrame).2 =
      [Effect.CP_Engine_SetNextGameState GameState.LockstepConfiguringState,
       Effect.closesocket 7] ∧
    (LockstepHostingState_Update hostingOn4000 escapeFrame).2 =
      [Effect.closesocket 8,
       Effect.CP_Engine_SetNextGameState GameState.LockstepConfiguringState] :=
  ⟨(rendezvous_cancel secondsOps connectingOn4000 escapeFrame rfl).1,
   (rendezvous_cancel secondsOps hostingOn4000 escapeFrame rfl).2.1⟩

/-- C20, as the code has it.  In the configuring state, a tick in which ESC is
triggered and the user does not confirm (no ENTER with a valid port) calls
`PlayDefaultGame`: it queues a new single-player game as the next game and the
play state as the next state of the engine; it does not ask for the connecting
state and leaves `connecting_port` alone. -/
theorem LockstepConfiguringState_cancel {F : Type} (w : Globals F) (inp : StateInput F)
    (field : PortEntryField) (hf : w.port_entry_field = some field)
    (hesc : inp.KEY_ESCAPE = true)
    (hno : (inp.KEY_ENTER && inp.field_after_update.IsPortValid) = false) :
    ∃ r, LockstepConfiguringState_Update w inp = some r ∧
      r.1.next_game = some (.single SinglePlayerGame.construct) ∧
      r.2 = BoardGame.delete w.next_game ++
        [Effect.CP_Engine_SetNextGameStateForced GameState.PlayGameState] ∧
      CP_Engine_queued GameState.LockstepConfiguringState r.2 =
        some GameState.PlayGameState ∧
      r.1.connecting_port = w.connecting_port := by
  unfold LockstepConfiguringState_Update
  simp only [hf, hesc, if_true, hno, Bool.false_eq_true, if_false, List.append_nil]
  refine ⟨_, rfl, rfl, rfl, ?_, rfl⟩
  exact CP_Engine_queued_forced_last _ _ _

/-- C20, witness: ESC in the configuring state with port 4000 entered. -/
theorem LockstepConfiguringState_cancel_witness :
    ∃ r, LockstepConfiguringState_Update configuring4000 escapeFrame = some r ∧
      r.1.next_game = some (.single SinglePlayerGame.construct) ∧
      r.2 = BoardGame.delete configuring4000.next_game ++
        [Effect.CP_Engine_SetNextGameStateForced GameState.PlayGameState] ∧
      CP_Engine_queued GameState.LockstepConfiguringState r.2 =
        some GameState.PlayGameState ∧
      r.1.connecting_port = configuring4000.connecting_port :=
  LockstepConfiguringState_cancel configuring4000 escapeFrame ⟨true, 4000⟩ rfl rfl rfl

/-- C20, as stated, fails.  ESC alone in the configuring state queues a state
change: the engine is asked, with force, for the play state, and a single-player
game is queued as the next game. -/
theorem LockstepConfiguringState_cancel_leaves :
    (LockstepConfiguringState_Update configuring4000 escapeFrame).map (fun r => r.2) =
      some [Effect.CP_Engine_SetNextGameStateForced GameState.PlayGameState] ∧
    (LockstepConfiguringState_Update configuring4000 escapeFrame).map
      (fun r => CP_Engine_queued GameState.LockstepConfiguringState r.2) =
      some (some GameState.PlayGameState) ∧
    (LockstepConfiguringState_Update configuring4000 escapeFrame).map
      (fun r => r.1.next_game.isSome) = some true ∧
    configuring4000.next_game.isSome = false := by
  decide

/-! ## Two peers in lock-step -/

theorem msg_read (buf : Buffer) (m : List Byte) (h : m.length = 12) :
    (buf.write 0 m).readInt32 0 = msgTurn m ∧
    (⟨(buf.write 0 m).readInt32 4, (buf.write 0 m).readInt32 8⟩ : BoardPosition) = msgPos m := by
  simp [Buffer.write, Buffer.readInt32, msgTurn, msgPos, h]

theorem msg_bytes (d : SerializedData) (ht : IsInt32 d.turn_number)
    (hx : IsInt32 d.local_position.x) (hy : IsInt32 d.local_position.y) :
    d.bytes.length = 12 ∧ msgTurn d.bytes = d.turn_number ∧
    msgPos d.bytes = d.local_position := by
  refine ⟨SerializedData.bytes_length d, ?_, ?_⟩
  · unfold msgTurn
    rw [← int32FromBytes_int32ToBytes d.turn_number ht]
    simp [SerializedData.bytes, int32ToBytes]
  · have e1 := int32FromBytes_int32ToBytes d.local_position.x hx
    have e2 := int32FromBytes_int32ToBytes d.local_position.y hy
    cases d with
    | mk t p =>
      cases p with
      | mk x y =>
        simp only at e1 e2
        simp only [msgPos, SerializedData.bytes, int32ToBytes, BoardPosition.mk.injEq]
        constructor
        · simpa using e1
        · simpa using e2

theorem Update_commit_resolve (g : LockstepGame)
    (hl : g.local_player_.has_uncommitted_move = true)
    (hr : g.remote_player_.has_uncommitted_move = true) :
    (g.Update_commit.local_player_.current_position,
     g.Update_commit.remote_player_.current_position) =
      resolve g.is_host_ g.local_player_.current_position g.remote_player_.current_position
        g.local_player_.uncommitted_position g.remote_player_.uncommitted_position := by
  obtain ⟨p1, p2⟩ := Update_commit_positions g hl hr
  rw [p1, p2]
  rfl

theorem resolve_mirror (b : Bool) (ol orr nl nr : BoardPosition) :
    resolve b ol orr nl nr =
      ((resolve (!b) orr ol nr nl).2, (resolve (!b) orr ol nr nl).1) := by
  unfold resolve
  by_cases h1 : nl = nr
  · subst h1
    cases b
    · by_cases h2 : ol = nl
      · subst h2; simp
      · have h3 : ¬ nl = ol := fun h => h2 h.symm
        simp [h2, h3]
    · by_cases h2 : nl = orr
      · subst h2; simp
      · have h3 : ¬ orr = nl := fun h => h2 h.symm
        simp [h2, h3]
  · have h3 : ¬ nr = nl := fun h => h1 h.symm
    simp [h1, h3]

theorem resolve_fst (b : Bool) (ol orr nl nr : BoardPosition) :
    (resolve b ol orr nl nr).1 = ol ∨ (resolve b ol orr nl nr).1 = nl := by
  unfold resolve
  dsimp only
  split
  · split
    · split
      · exact Or.inl rfl
      · exact Or.inr rfl
    · exact Or.inl rfl
  · exact Or.inr rfl

theorem incInt32_range (i : Int) (h : IsInt32 i) : IsInt32 (incInt32 i) := by
  unfold IsInt32 INT_MIN INT_MAX at *
  unfold incInt32 INT_MIN INT_MAX
  split <;> omega

theorem decInt32_range (i : Int) (h : IsInt32 i) : IsInt32 (decInt32 i) := by
  unfold IsInt32 INT_MIN INT_MAX at *
  unfold decInt32 INT_MIN INT_MAX
  split <;> omega

theorem new_position_range (c : BoardPosition) (keys : KeyInput)
    (hx : IsInt32 c.x) (hy : IsInt32 c.y) :
    IsInt32 (LocalPlayerController.new_position c keys).x ∧
    IsInt32 (LocalPlayerController.new_position c keys).y := by
  unfold LocalPlayerController.new_position
  dsimp only
  constructor
  · split
    · exact decInt32_range _ hx
    · split
      · exact incInt32_range _ hx
      · exact hx
  · split
    · exact decInt32_range _ hy
    · split
      · exact incInt32_range _ hy
      · exact hy

theorem ApplyInput_PosOK (p : Player) (b : Board) (keys : KeyInput) (h : PosOK p) :
    PosOK (LocalPlayerController.ApplyInput p b keys) := by
  obtain ⟨hx, hy, hu⟩ := h
  unfold LocalPlayerController.ApplyInput
  split
  · exact ⟨hx, hy, hu⟩
  · split
    · exact ⟨hx, hy, fun _ => ⟨hx, hy⟩⟩
    · dsimp only
      split
      · exact ⟨hx, hy, fun _ => new_position_range _ keys hx hy⟩
      · exact ⟨hx, hy, hu⟩

theorem Update_receive_remote (ndebug : Bool) (g : LockstepGame) (ro : RecvOutcome)
    (hro : ∀ m, ro = .datagram m → m.length = 12) :
    ∃ g1, (g.Update_receive ndebug ro).2 = some g1 ∧
      g1.local_player_ = g.local_player_ ∧ g1.turn_number_ = g.turn_number_ ∧
      g1.is_host_ = g.is_host_ ∧
      (g1.remote_player_ = g.remote_player_ ∨
        ∃ m, ro = .datagram m ∧ msgTurn m = g.turn_number_ ∧
          g1.remote_player_ = ⟨g.remote_player_.current_position, msgPos m, true⟩) := by
  cases ro with
  | error e =>
    refine ⟨{ g with network_buffer_ := g.network_buffer_ }, ?_, rfl, rfl, rfl, Or.inl rfl⟩
    unfold LockstepGame.Update_receive recvfrom
    simp [SOCKET_ERROR]
  | datagram m =>
    have hlen := hro m rfl
    rw [Update_receive_datagram ndebug g m (by omega) (by unfold kNetworkBufferSize; omega)]
    obtain ⟨m1, m2⟩ := msg_read g.network_buffer_ m hlen
    unfold LockstepGame.DeserializeRemoteState
    have hc : (!ndebug && !decide (m.length ≥ 4 + 8)) = false := by
      simp [hlen]
    simp only [hc, Bool.false_eq_true, if_false, m1]
    by_cases ht : msgTurn m = g.turn_number_
    · simp only [ne_eq, ht, not_true_eq_false, if_false]
      refine ⟨_, rfl, rfl, rfl, rfl, Or.inr ⟨m, rfl, ht, ?_⟩⟩
      dsimp only
      rw [m2]
    · simp only [ne_eq, ht, not_false_eq_true, if_true]
      exact ⟨_, rfl, rfl, rfl, rfl, Or.inl rfl⟩

theorem Update_commit_is_host (g : LockstepGame) : g.Update_commit.is_host_ = g.is_host_ := by
  unfold LockstepGame.Update_commit
  split
  · dsimp only
    split
    · rw [(HandleCollision_frame _ _ _).2.2.1]
    · rfl
  · rfl

theorem Update_tick (ndebug : Bool) (P P1 : LockstepGame) (inp : TickInput)
    (hro : ∀ m, inp.recv_outcome = .datagram m → m.length = 12)
    (hg : (P.Update ndebug inp).game = some P1) :
    ∃ r : Player,
      (r = P.remote_player_ ∨
        ∃ m, inp.recv_outcome = .datagram m ∧ msgTurn m = P.turn_number_ ∧
          r = ⟨P.remote_player_.current_position, msgPos m, true⟩) ∧
      P1.is_host_ = P.is_host_ ∧
      ((P1.turn_number_ = P.turn_number_ ∧
          P1.local_player_ =
            LocalPlayerController.ApplyInput P.local_player_ P.board_ inp.keys ∧
          P1.remote_player_ = r) ∨
       ((LocalPlayerController.ApplyInput P.local_player_ P.board_
            inp.keys).has_uncommitted_move = true ∧
        r.has_uncommitted_move = true ∧
        P1.turn_number_ = incInt32 P.turn_number_ ∧
        P1.local_player_.has_uncommitted_move = false ∧
        P1.remote_player_.has_uncommitted_move = false ∧
        (P1.local_player_.current_position, P1.remote_player_.current_position) =
          resolve P.is_host_
            (LocalPlayerController.ApplyInput P.local_player_ P.board_
              inp.keys).current_position
            r.current_position
            (LocalPlayerController.ApplyInput P.local_player_ P.board_
              inp.keys).uncommitted_position
            r.uncommitted_position)) := by
  obtain ⟨f1, f2, f3, f4, -⟩ := Update_send_frame P inp.keys inp.send_outcome
  rcases Update_cases ndebug P inp with ⟨gs, h1, -, -, h4⟩ | ⟨h1, -⟩ | ⟨gc, h1, -, -, h5⟩
  · rw [h1] at hg
    simp only [Option.some.injEq] at hg
    subst hg
    subst h4
    exact ⟨P.remote_player_, Or.inl rfl, f4, Or.inl ⟨f3, f1, f2⟩⟩
  · rw [h1] at hg; exact absurd hg (by simp)
  · rw [h1] at hg
    simp only [Option.some.injEq] at hg
    subst hg
    obtain ⟨g1, hg1, r1, r2, r3, r4⟩ := Update_receive_remote ndebug
      (P.Update_send inp.keys inp.send_outcome).2.1 inp.recv_outcome hro
    rw [h5] at hg1
    simp only [Option.some.injEq] at hg1
    subst hg1
    rw [f2, f3] at r4
    rw [f1] at r1
    rw [f3] at r2
    rw [f4] at r3
    refine ⟨gc.remote_player_, ?_, ?_, ?_⟩
    · rcases r4 with r4 | ⟨m, hm, ht, hr⟩
      · exact Or.inl r4
      · exact Or.inr ⟨m, hm, ht, hr⟩
    · by_cases hboth : gc.local_player_.has_uncommitted_move = true ∧
          gc.remote_player_.has_uncommitted_move = true
      · rw [Update_commit_is_host]; exact r3
      · rw [Update_commit_of_not_both gc hboth]; exact r3
    · by_cases hboth : gc.local_player_.has_uncommitted_move = true ∧
          gc.remote_player_.has_uncommitted_move = true
      · right
        obtain ⟨c1, c2, c3, -⟩ := Update_commit_of_both gc hboth.1 hboth.2
        have hres := Update_commit_resolve gc hboth.1 hboth.2
        rw [r1, r3] at hres
        rw [r1] at hboth
        exact ⟨hboth.1, hboth.2, by rw [c3, r2], c1, c2, hres⟩
      · left
        rw [Update_commit_of_not_both gc hboth]
        exact ⟨r2, r1, rfl⟩

theorem sentPayloads_Update (ndebug : Bool) (P : LockstepGame) (inp : TickInput)
    (m : List Byte) (hm : m ∈ sentPayloads (P.Update ndebug inp).events) :
    (LocalPlayerController.ApplyInput P.local_player_ P.board_
      inp.keys).has_uncommitted_move = true ∧
    m = SerializedData.bytes ⟨P.turn_number_,
      (LocalPlayerController.ApplyInput P.local_player_ P.board_
        inp.keys).uncommitted_position⟩ := by
  unfold sentPayloads at hm
  rw [List.mem_filterMap] at hm
  obtain ⟨e, he, hf⟩ := hm
  cases e with
  | send payload outcome =>
    cases outcome with
    | ok =>
      simp only [Option.some.injEq] at hf
      subst hf
      obtain ⟨-, h2, -, h4⟩ := (Update_send_event ndebug P inp payload .ok).2 he
      exact ⟨h2, h4⟩
    | error e1 => simp at hf
  | recvfrom o => simp at hf
  | PlayDefaultGame => simp at hf

theorem Inv_symm (k : Nat) (P Q : LockstepGame) (outP outQ : List (List Byte))
    (h : Inv k P Q outP outQ) : Inv k Q P outQ outP := by
  obtain ⟨hrole, hPQ, hQP, hle1, hle2, hmir, hp0, hpk, hq0, hqk, hposP, hposQ⟩ := h
  refine ⟨?_, hQP, hPQ, hle2, hle1, ?_, hq0, hqk, hp0, hpk, hposQ, hposP⟩
  · rw [hrole]; simp
  · intro he
    obtain ⟨m1, m2⟩ := hmir he.symm
    exact ⟨m2.symm, m1.symm⟩

theorem Inv_start (sh sn : Nat) (bh bn : Buffer) :
    Inv 0 (LockstepGame.construct sh true bh) (LockstepGame.construct sn false bn) [] [] := by
  have r1 : IsInt32 10 := by decide
  have r2 : IsInt32 7 := by decide
  have r3 : IsInt32 12 := by decide
  have r4 : IsInt32 9 := by decide
  refine ⟨rfl, ⟨?_, ?_, ?_⟩, ⟨?_, ?_, ?_⟩, ?_, ?_, ?_, ?_, ?_, ?_, ?_, ?_, ?_⟩
  · intro m hm; simp at hm
  · intro h; exact absurd h (by simp [LockstepGame.construct])
  · intro h; exact absurd h (by simp [LockstepGame.construct])
  · intro m hm; simp at hm
  · intro h; exact absurd h (by simp [LockstepGame.construct])
  · intro h; exact absurd h (by simp [LockstepGame.construct])
  · simp [LockstepGame.construct]
  · simp [LockstepGame.construct]
  · intro _; exact ⟨rfl, rfl⟩
  · simp [LockstepGame.construct]
  · simp [LockstepGame.construct]
  · simp [LockstepGame.construct]
  · simp [LockstepGame.construct]
  · exact ⟨r1, r2, fun h => absurd h (by simp [LockstepGame.construct])⟩
  · exact ⟨r3, r4, fun h => absurd h (by simp [LockstepGame.construct])⟩

theorem Inv_nocommit (k : Nat) (P Q P1 : LockstepGame) (outP outQ news : List (List Byte))
    (pl r : Player) (hinv : Inv k P Q outP outQ)
    (hplc : pl.current_position = P.local_player_.current_position)
    (hplp : P.local_player_.has_uncommitted_move = true → pl = P.local_player_)
    (hposl : PosOK pl)
    (hnew : ∀ m ∈ news, pl.has_uncommitted_move = true ∧ m.length = 12 ∧
      msgTurn m = P.turn_number_ ∧ msgPos m = pl.uncommitted_position)
    (hrc : r.current_position = P.remote_player_.current_position)
    (hK : r.has_uncommitted_move = true → P.turn_number_ ≤ Q.turn_number_ ∧
      (P.turn_number_ = Q.turn_number_ →
        Q.local_player_.has_uncommitted_move = true ∧
        r.uncommitted_position = Q.local_player_.uncommitted_position))
    (hK2 : r.has_uncommitted_move = true → ∀ mQ : BoardPosition,
      (∀ m ∈ outQ, msgTurn m = P.turn_number_ → msgPos m = mQ) →
      (P.remote_player_.has_uncommitted_move = true →
        P.remote_player_.uncommitted_position = mQ) →
      r.uncommitted_position = mQ)
    (hhost : P1.is_host_ = P.is_host_) (ht : P1.turn_number_ = P.turn_number_)
    (hl : P1.local_player_ = pl) (hr : P1.remote_player_ = r) :
    Inv (k + 1) P1 Q (outP ++ news) outQ := by
  obtain ⟨hrole, ⟨hC, hD, hE⟩, ⟨hC1, hD1, hE1⟩, hle1, hle2, hmir, hp0, hpk, hq0, hqk,
    hposP, hposQ⟩ := hinv
  refine ⟨by rw [hhost]; exact hrole, ⟨?_, ?_, ?_⟩, ⟨?_, ?_, ?_⟩, by rw [ht]; exact hle1,
    by rw [ht]; exact hle2, ?_, by rw [ht]; exact hp0, ?_, hq0, ?_, by rw [hl]; exact hposl,
    hposQ⟩
  · -- the datagrams of `P1`
    intro m hm
    rw [ht, hl]
    rw [List.mem_append] at hm
    rcases hm with hm | hm
    · obtain ⟨c1, c2, c3⟩ := hC m hm
      refine ⟨c1, c2, ?_⟩
      intro hmt
      obtain ⟨c4, c5⟩ := c3 hmt
      rw [hplp c4]
      exact ⟨c4, c5⟩
    · obtain ⟨n1, n2, n3, n4⟩ := hnew m hm
      exact ⟨n2, by rw [n3], fun _ => ⟨n1, n4.symm⟩⟩
  · -- the remote move that `Q` holds
    intro hq
    rw [ht, hl]
    obtain ⟨d1, d2⟩ := hD hq
    refine ⟨d1, ?_⟩
    intro he
    obtain ⟨d3, d4⟩ := d2 he
    rw [hplp d3]
    exact ⟨d3, d4⟩
  · -- `P1` one turn ahead
    intro he
    rw [ht] at he
    obtain ⟨e1, mP, e2, e3, e4⟩ := hE he
    refine ⟨e1, mP, ?_, ?_, e4⟩
    · rw [hhost, hl, hr, hplc, hrc]; exact e2
    · intro m hm hmt
      rw [List.mem_append] at hm
      rcases hm with hm | hm
      · exact e3 m hm hmt
      · obtain ⟨-, -, n3, -⟩ := hnew m hm
        rw [n3] at hmt
        omega
  · -- the datagrams of `Q`
    exact hC1
  · -- the remote move that `P1` holds
    intro hp
    rw [hr] at hp
    rw [ht, hr]
    exact hK hp
  · -- `Q` one turn ahead
    intro he
    rw [ht] at he
    obtain ⟨e1, mQ, e2, e3, e4⟩ := hE1 he
    rw [ht, hl, hr, hplp e1, hrc]
    refine ⟨e1, mQ, e2, e3, ?_⟩
    intro hrh
    exact hK2 hrh mQ e3 e4
  · intro he
    rw [ht] at he
    rw [hl, hr, hplc, hrc]
    exact hmir he
  · rw [ht]; push_cast; omega
  · push_cast; omega

theorem Inv_commit (k : Nat) (P Q P1 : LockstepGame) (outP outQ news : List (List Byte))
    (pl r : Player) (hinv : Inv k P Q outP outQ)
    (hplc : pl.current_position = P.local_player_.current_position)
    (hplp : P.local_player_.has_uncommitted_move = true → pl = P.local_player_)
    (hposl : PosOK pl)
    (hnew : ∀ m ∈ news, pl.has_uncommitted_move = true ∧ m.length = 12 ∧
      msgTurn m = P.turn_number_ ∧ msgPos m = pl.uncommitted_position)
    (hrc : r.current_position = P.remote_player_.current_position)
    (hK : r.has_uncommitted_move = true → P.turn_number_ ≤ Q.turn_number_ ∧
      (P.turn_number_ = Q.turn_number_ →
        Q.local_player_.has_uncommitted_move = true ∧
        r.uncommitted_position = Q.local_player_.uncommitted_position))
    (hK2 : r.has_uncommitted_move = true → ∀ mQ : BoardPosition,
      (∀ m ∈ outQ, msgTurn m = P.turn_number_ → msgPos m = mQ) →
      (P.remote_player_.has_uncommitted_move = true →
        P.remote_player_.uncommitted_position = mQ) →
      r.uncommitted_position = mQ)
    (hhost : P1.is_host_ = P.is_host_)
    (hplh : pl.has_uncommitted_move = true) (hrh : r.has_uncommitted_move = true)
    (ht : P1.turn_number_ = P.turn_number_ + 1)
    (hl : P1.local_player_.has_uncommitted_move = false)
    (hr : P1.remote_player_.has_uncommitted_move = false)
    (hres : (P1.local_player_.current_position, P1.remote_player_.current_position) =
      resolve P.is_host_ pl.current_position r.current_position
        pl.uncommitted_position r.uncommitted_position) :
    Inv (k + 1) P1 Q (outP ++ news) outQ := by
  obtain ⟨hrole, ⟨hC, hD, hE⟩, ⟨hC1, hD1, hE1⟩, hle1, hle2, hmir, hp0, hpk, hq0, hqk,
    hposP, hposQ⟩ := hinv
  obtain ⟨k1, k2⟩ := hK hrh
  have hall : ∀ m ∈ outP ++ news, m.length = 12 ∧ msgTurn m ≤ P.turn_number_ ∧
      (msgTurn m = P.turn_number_ → msgPos m = pl.uncommitted_position) := by
    intro m hm
    rw [List.mem_append] at hm
    rcases hm with hm | hm
    · obtain ⟨c1, c2, c3⟩ := hC m hm
      refine ⟨c1, c2, ?_⟩
      intro hmt
      obtain ⟨c4, c5⟩ := c3 hmt
      rw [hplp c4]
      exact c5.symm
    · obtain ⟨-, n2, n3, n4⟩ := hnew m hm
      exact ⟨n2, by rw [n3], fun _ => n4⟩
  have hloc : P1.local_player_.current_position = pl.current_position ∨
      P1.local_player_.current_position = pl.uncommitted_position := by
    have h1 := congrArg Prod.fst hres
    simp only at h1
    rw [h1]
    exact resolve_fst _ _ _ _ _
  have hpos1 : PosOK P1.local_player_ := by
    obtain ⟨x1, x2, x3⟩ := hposl
    obtain ⟨y1, y2⟩ := x3 hplh
    refine ⟨?_, ?_, ?_⟩
    · rcases hloc with h | h <;> rw [h] <;> assumption
    · rcases hloc with h | h <;> rw [h] <;> assumption
    · intro h; rw [hl] at h; exact absurd h (by simp)
  have hqcase : Q.turn_number_ = P.turn_number_ ∨ Q.turn_number_ = P.turn_number_ + 1 := by
    omega
  refine ⟨by rw [hhost]; exact hrole, ⟨?_, ?_, ?_⟩, ⟨hC1, ?_, ?_⟩, ?_, ?_, ?_, ?_, ?_, hq0, ?_,
    hpos1, hposQ⟩
  · -- the datagrams of `P1`
    intro m hm
    obtain ⟨a1, a2, -⟩ := hall m hm
    rw [ht]
    exact ⟨a1, by omega, fun h => by omega⟩
  · -- the remote move that `Q` holds
    intro hq
    obtain ⟨d1, -⟩ := hD hq
    rw [ht]
    exact ⟨by omega, fun h => by omega⟩
  · -- `P1` one turn ahead
    intro he
    rw [ht] at he
    have hqp : P.turn_number_ = Q.turn_number_ := by omega
    obtain ⟨k3, k4⟩ := k2 hqp
    obtain ⟨m1, m2⟩ := hmir hqp
    refine ⟨k3, pl.uncommitted_position, ?_, ?_, ?_⟩
    · rw [hhost, hres, hplc, hrc, m1, m2, k4]
    · intro m hm hmt
      exact (hall m hm).2.2 (by rw [hmt, hqp])
    · intro hq
      obtain ⟨-, d2⟩ := hD hq
      obtain ⟨d3, d4⟩ := d2 hqp.symm
      rw [d4, hplp d3]
  · -- the remote move that `P1` holds
    intro hp
    rw [hr] at hp
    exact absurd hp (by simp)
  · -- `Q` one turn ahead
    intro he
    rw [ht] at he
    omega
  · rw [ht]; omega
  · rw [ht]; omega
  · -- equal turns: the positions mirror each other
    intro he
    rw [ht] at he
    obtain ⟨e1, mQ, e2, e3, e4⟩ := hE1 he.symm
    have hru := hK2 hrh mQ e3 e4
    have hpl := hplp e1
    have hrole1 : Q.is_host_ = !P.is_host_ := by rw [hrole]; simp
    rw [hplc, hrc, hru, hpl, resolve_mirror, ← hrole1, ← e2] at hres
    simp only [Prod.mk.injEq] at hres
    exact hres
  · rw [ht]; omega
  · rw [ht]; push_cast; omega
  · push_cast; omega

theorem Inv_step (ndebug : Bool) (k : Nat) (P Q P1 : LockstepGame)
    (outP outQ : List (List Byte)) (inp : TickInput)
    (hinv : Inv k P Q outP outQ) (hk : (k : Int) < INT_MAX)
    (hdel : deliverable outQ inp.recv_outcome)
    (hg : (P.Update ndebug inp).game = some P1) :
    Inv (k + 1) P1 Q (outP ++ sentPayloads (P.Update ndebug inp).events) outQ := by
  have hinv0 := hinv
  obtain ⟨hrole, ⟨hC, hD, hE⟩, ⟨hC1, hD1, hE1⟩, hle1, hle2, hmir, hp0, hpk, hq0, hqk,
    hposP, hposQ⟩ := hinv
  have hint : IsInt32 P.turn_number_ := by
    unfold IsInt32 INT_MIN
    unfold INT_MAX at hk ⊢
    constructor <;> omega
  have hmax : P.turn_number_ ≠ INT_MAX := by
    intro h; rw [h] at hpk; omega
  have hro : ∀ m, inp.recv_outcome = .datagram m → m.length = 12 := by
    intro m hm
    rw [hm] at hdel
    exact (hC1 m hdel).1
  have hplc := ApplyInput_current P.local_player_ P.board_ inp.keys
  have hplp : P.local_player_.has_uncommitted_move = true →
      LocalPlayerController.ApplyInput P.local_player_ P.board_ inp.keys = P.local_player_ :=
    fun h => ApplyInput_of_pending _ _ _ h
  have hposl := ApplyInput_PosOK P.local_player_ P.board_ inp.keys hposP
  have hnew : ∀ m ∈ sentPayloads (P.Update ndebug inp).events,
      (LocalPlayerController.ApplyInput P.local_player_ P.board_
        inp.keys).has_uncommitted_move = true ∧ m.length = 12 ∧
      msgTurn m = P.turn_number_ ∧
      msgPos m = (LocalPlayerController.ApplyInput P.local_player_ P.board_
        inp.keys).uncommitted_position := by
    intro m hm
    obtain ⟨s1, s2⟩ := sentPayloads_Update ndebug P inp m hm
    obtain ⟨x1, x2⟩ := hposl.2.2 s1
    obtain ⟨b1, b2, b3⟩ := msg_bytes ⟨P.turn_number_,
      (LocalPlayerController.ApplyInput P.local_player_ P.board_
        inp.keys).uncommitted_position⟩ hint x1 x2
    rw [s2]
    exact ⟨s1, b1, b2, b3⟩
  obtain ⟨r, hr, hhost, hbranch⟩ := Update_tick ndebug P P1 inp hro hg
  have hrc : r.current_position = P.remote_player_.current_position := by
    rcases hr with hr | ⟨m, -, -, hr⟩ <;> rw [hr]
  have hK : r.has_uncommitted_move = true → P.turn_number_ ≤ Q.turn_number_ ∧
      (P.turn_number_ = Q.turn_number_ →
        Q.local_player_.has_uncommitted_move = true ∧
        r.uncommitted_position = Q.local_player_.uncommitted_position) := by
    intro hrh
    rcases hr with hr | ⟨m, hm, hmt, hr⟩
    · rw [hr] at hrh ⊢
      exact hD1 hrh
    · rw [hm] at hdel
      obtain ⟨c1, c2, c3⟩ := hC1 m hdel
      rw [hmt] at c2 c3
      refine ⟨c2, ?_⟩
      intro he
      obtain ⟨c4, c5⟩ := c3 he
      rw [hr]
      exact ⟨c4, c5.symm⟩
  have hK2 : r.has_uncommitted_move = true → ∀ mQ : BoardPosition,
      (∀ m ∈ outQ, msgTurn m = P.turn_number_ → msgPos m = mQ) →
      (P.remote_player_.has_uncommitted_move = true →
        P.remote_player_.uncommitted_position = mQ) →
      r.uncommitted_position = mQ := by
    intro hrh mQ h1 h2
    rcases hr with hr | ⟨m, hm, hmt, hr⟩
    · rw [hr] at hrh ⊢
      exact h2 hrh
    · rw [hm] at hdel
      rw [hr]
      exact h1 m hdel hmt
  rcases hbranch with ⟨ht, hl, hrr⟩ | ⟨b1, b2, b3, b4, b5, b6⟩
  · exact Inv_nocommit k P Q P1 outP outQ _ _ r hinv0 hplc hplp hposl hnew hrc hK hK2 hhost
      ht hl hrr
  · rw [incInt32_of_ne hmax] at b3
    exact Inv_commit k P Q P1 outP outQ _ _ r hinv0 hplc hplp hposl hnew hrc hK hK2 hhost
      b1 b2 b3 b4 b5 b6

theorem ReachableIn_Inv (ndebug : Bool) (k : Nat) (s : Peers) (h : ReachableIn ndebug k s)
    (hk : (k : Int) ≤ INT_MAX) : Inv k s.host s.nonhost s.to_nonhost s.to_host := by
  induction h with
  | start sh sn bh bn => exact Inv_start sh sn bh bn
  | @host_tick k0 s0 inp g1 _ _ hdel hg ih =>
    have hk0 : (k0 : Int) < INT_MAX := by push_cast at hk; omega
    exact Inv_step ndebug k0 s0.host s0.nonhost g1 s0.to_nonhost s0.to_host inp
      (ih (le_of_lt hk0)) hk0 hdel hg
  | @nonhost_tick k0 s0 inp g1 _ _ hdel hg ih =>
    have hk0 : (k0 : Int) < INT_MAX := by push_cast at hk; omega
    exact Inv_symm _ _ _ _ _ (Inv_step ndebug k0 s0.nonhost s0.host g1 s0.to_host
      s0.to_nonhost inp (Inv_symm _ _ _ _ _ (ih (le_of_lt hk0))) hk0 hdel hg)

/-- C15.  In every state that the two peers, started from their constructors,
reach within 2^31 - 1 ticks (so that no turn counter leaves the range of an
`int`), over a network that may lose, delay, duplicate and reorder their
datagrams, the two turn counters differ by at most 1, and whenever they are
equal the positions mirror each other: the local position of the host is the
remote position of the non-host, and the remote position of the host is the
local position of the non-host. -/
theorem peers_in_lockstep (ndebug : Bool) (k : Nat) (s : Peers)
    (h : ReachableIn ndebug k s) (hk : k ≤ 2147483647) :
    s.host.turn_number_ ≤ s.nonhost.turn_number_ + 1 ∧
    s.nonhost.turn_number_ ≤ s.host.turn_number_ + 1 ∧
    (s.host.turn_number_ = s.nonhost.turn_number_ →
      s.host.local_player_.current_position = s.nonhost.remote_player_.current_position ∧
      s.host.remote_player_.current_position = s.nonhost.local_player_.current_position) := by
  have hk1 : (k : Int) ≤ INT_MAX := by unfold INT_MAX; exact_mod_cast hk
  obtain ⟨-, -, -, h1, h2, h3, -⟩ := ReachableIn_Inv ndebug k s h hk1
  exact ⟨h1, h2, h3⟩

/-- C15, witness: after the host has made and sent its first move, the peers are
both in turn 0 and their positions mirror each other. -/
theorem peers_in_lockstep_witness :
    peersAfterHostMove.host.turn_number_ ≤ peersAfterHostMove.nonhost.turn_number_ + 1 ∧
    peersAfterHostMove.nonhost.turn_number_ ≤ peersAfterHostMove.host.turn_number_ + 1 ∧
    (peersAfterHostMove.host.turn_number_ = peersAfterHostMove.nonhost.turn_number_ →
      peersAfterHostMove.host.local_player_.current_position =
        peersAfterHostMove.nonhost.remote_player_.current_position ∧
      peersAfterHostMove.host.remote_player_.current_position =
        peersAfterHostMove.nonhost.local_player_.current_position) :=
  peers_in_lockstep false 1 peersAfterHostMove
    (ReachableIn.host_tick rightKey _ (ReachableIn.start 1 2 zeroBuffer zeroBuffer) rfl
      trivial rfl)
    (by decide)

/-! ## Committing a move, the collision rule and pending moves -/

/-- C23.  `Player::CommitMove` on a player with a pending move sets
`current_position` to `uncommitted_position` and clears the flag, leaving
`uncommitted_position` as it was; on a player without a pending move it changes
nothing; and calling it twice gives the same player as calling it once. -/
theorem CommitMove_idempotent (p : Player) :
    (p.has_uncommitted_move = true →
      p.CommitMove.current_position = p.uncommitted_position ∧
      p.CommitMove.has_uncommitted_move = false ∧
      p.CommitMove.uncommitted_position = p.uncommitted_position) ∧
    (p.has_uncommitted_move = false → p.CommitMove = p) ∧
    p.CommitMove.CommitMove = p.CommitMove := by
  unfold Player.CommitMove
  cases h : p.has_uncommitted_move <;> simp [h]

/-- C23, witness: a player on (10, 7) with a pending move to (11, 7). -/
theorem CommitMove_idempotent_witness :
    (⟨⟨10, 7⟩, ⟨11, 7⟩, true⟩ : Player).CommitMove = ⟨⟨11, 7⟩, ⟨11, 7⟩, false⟩ ∧
    (⟨⟨10, 7⟩, ⟨11, 7⟩, true⟩ : Player).CommitMove.CommitMove =
      (⟨⟨10, 7⟩, ⟨11, 7⟩, true⟩ : Player).CommitMove :=
  ⟨by decide, (CommitMove_idempotent ⟨⟨10, 7⟩, ⟨11, 7⟩, true⟩).2.2⟩

theorem HandleCollision_positions (g : LockstepGame) (ol orr : BoardPosition) :
    ((g.HandleCollision ol orr).local_player_.current_position,
     (g.HandleCollision ol orr).remote_player_.current_position) =
      (if g.is_host_ = true then
        (if g.local_player_.current_position = orr then ol
          else g.local_player_.current_position, orr)
       else
        (ol, if ol = g.remote_player_.current_position then orr
          else g.remote_player_.current_position)) := by
  have key : ∀ a b : BoardPosition, a.beq b = decide (a = b) := by
    intro a b
    by_cases h : a = b
    · simp [h, (BoardPosition.beq_iff b b).mpr rfl]
    · have : a.beq b ≠ true := fun hb => h ((BoardPosition.beq_iff a b).mp hb)
      simp [h, this]
  unfold LockstepGame.HandleCollision
  cases hh : g.is_host_
  · simp only [Bool.false_eq_true, if_false, key]
    by_cases h : ol = g.remote_player_.current_position
    · simp [h]
    · simp [h]
  · simp only [if_true, key]
    by_cases h : g.local_player_.current_position = orr
    · simp [h]
    · simp [h]

theorem HandleCollision_twice (g : LockstepGame) (ol orr : BoardPosition) :
    (g.HandleCollision ol orr).HandleCollision ol orr = g.HandleCollision ol orr := by
  have key : ∀ a b : BoardPosition, a.beq b = decide (a = b) := by
    intro a b
    by_cases h : a = b
    · simp [h, (BoardPosition.beq_iff b b).mpr rfl]
    · have : a.beq b ≠ true := fun hb => h ((BoardPosition.beq_iff a b).mp hb)
      simp [h, this]
  unfold LockstepGame.HandleCollision
  cases hh : g.is_host_
  · simp only [Bool.false_eq_true, if_false, key]
    by_cases h : ol = g.remote_player_.current_position
    · by_cases h2 : ol = orr
      · simp [h, h2, hh]
      · simp [h, h2, hh]
    · simp [h, hh]
  · simp only [if_true, key]
    by_cases h : g.local_player_.current_position = orr
    · by_cases h2 : ol = orr
      · simp [h, h2, hh]
      · simp [h, h2, hh]
    · simp [h, hh]

/-- C22.  The positions that `HandleCollision` leaves are a function of the
role, the two old positions and the two positions it finds: two games that agree
on `is_host`, on the local and on the remote `current_position` get the same two
positions for the same old positions, whatever their turn numbers, uncommitted
positions and flags; the positions are the ones written out below; and a second
call with the same old positions returns the game of the first call unchanged. -/
theorem HandleCollision_outcome (g1 g2 : LockstepGame) (old_local old_remote : BoardPosition)
    (hh : g1.is_host_ = g2.is_host_)
    (hl : g1.local_player_.current_position = g2.local_player_.current_position)
    (hr : g1.remote_player_.current_position = g2.remote_player_.current_position) :
    (g1.HandleCollision old_local old_remote).local_player_.current_position =
      (g2.HandleCollision old_local old_remote).local_player_.current_position ∧
    (g1.HandleCollision old_local old_remote).remote_player_.current_position =
      (g2.HandleCollision old_local old_remote).remote_player_.current_position ∧
    ((g1.HandleCollision old_local old_remote).local_player_.current_position,
     (g1.HandleCollision old_local old_remote).remote_player_.current_position) =
      (if g1.is_host_ = true then
        (if g1.local_player_.current_position = old_remote then old_local
          else g1.local_player_.current_position, old_remote)
       else
        (old_local, if old_local = g1.remote_player_.current_position then old_remote
          else g1.remote_player_.current_position)) ∧
    (g1.HandleCollision old_local old_remote).HandleCollision old_local old_remote =
      g1.HandleCollision old_local old_remote := by
  have e1 := HandleCollision_positions g1 old_local old_remote
  have e2 := HandleCollision_positions g2 old_local old_remote
  rw [← hh, ← hl, ← hr, ← e1] at e2
  exact ⟨(congrArg Prod.fst e2).symm, (congrArg Prod.snd e2).symm, e1,
    HandleCollision_twice g1 old_local old_remote⟩

/-- C22, witness: two hosts with both players on (11, 8) that differ in turn
number, socket, sent flag, uncommitted positions and pending flags; the old
positions are (10, 8) and (11, 10). -/
theorem HandleCollision_outcome_witness :
    (committedOnHost.HandleCollision ⟨10, 8⟩ ⟨11, 10⟩).local_player_.current_position =
      (committedOnHostLater.HandleCollision ⟨10, 8⟩ ⟨11, 10⟩).local_player_.current_position ∧
    (committedOnHost.HandleCollision ⟨10, 8⟩ ⟨11, 10⟩).remote_player_.current_position =
      (committedOnHostLater.HandleCollision ⟨10, 8⟩ ⟨11, 10⟩).remote_player_.current_position ∧
    ((committedOnHost.HandleCollision ⟨10, 8⟩ ⟨11, 10⟩).local_player_.current_position,
     (committedOnHost.HandleCollision ⟨10, 8⟩ ⟨11, 10⟩).remote_player_.current_position) =
      (⟨11, 8⟩, ⟨11, 10⟩) :=
  ⟨(HandleCollision_outcome committedOnHost committedOnHostLater ⟨10, 8⟩ ⟨11, 10⟩
      rfl rfl rfl).1,
   (HandleCollision_outcome committedOnHost committedOnHostLater ⟨10, 8⟩ ⟨11, 10⟩
      rfl rfl rfl).2.1,
   by decide⟩

theorem Update_commit_local (g : LockstepGame) :
    g.Update_commit.local_player_ = g.local_player_ ∨
    (g.local_player_.has_uncommitted_move = true ∧
      g.remote_player_.has_uncommitted_move = true ∧
      g.Update_commit.turn_number_ = incInt32 g.turn_number_ ∧
      g.Update_commit.local_player_.has_uncommitted_move = false ∧
      g.Update_commit.local_player_.uncommitted_position =
        g.local_player_.uncommitted_position ∧
      (g.Update_commit.local_player_.current_position =
          g.local_player_.uncommitted_position ∨
        g.Update_commit.local_player_.current_position =
          g.local_player_.current_position)) := by
  by_cases h : g.local_player_.has_uncommitted_move = true ∧
      g.remote_player_.has_uncommitted_move = true
  · right
    obtain ⟨hl, hr⟩ := h
    obtain ⟨c1, _, c3, _⟩ := Update_commit_of_both g hl hr
    have hp := Update_commit_resolve g hl hr
    have h1 := resolve_fst g.is_host_ g.local_player_.current_position
      g.remote_player_.current_position g.local_player_.uncommitted_position
      g.remote_player_.uncommitted_position
    rw [← hp] at h1
    refine ⟨hl, hr, c3, c1, ?_, h1.symm⟩
    unfold LockstepGame.Update_commit LockstepGame.HandleCollision Player.CommitMove
    simp only [hl, hr, Bool.and_self, if_true]
    split
    · split
      · split <;> rfl
      · split <;> rfl
    · rfl
  · left
    rw [Update_commit_of_not_both g h]

/-- C29.  `LocalPlayerController::ApplyInput` on a player with a pending move
returns the player as it was, for every board and every combination of triggered
keys: `current_position`, `uncommitted_position` and `has_uncommitted_move` are
unchanged.  So in a game whose local move is pending, whatever keys are
triggered in a tick, a datagram sent in the tick carries the pending position,
the local player is still the same at the commit check, where `CommitMove` then
commits that position, and after the tick the local player is either unchanged
or the turn went on with the pending position committed (or, in a collision,
rolled back to the position before). -/
theorem ApplyInput_pending_unchanged (ndebug : Bool) (player : Player) (board : Board)
    (keys : KeyInput) (g : LockstepGame) (inp : TickInput)
    (hp : player.has_uncommitted_move = true)
    (hg : g.local_player_.has_uncommitted_move = true) :
    (LocalPlayerController.ApplyInput player board keys).current_position =
      player.current_position ∧
    (LocalPlayerController.ApplyInput player board keys).uncommitted_position =
      player.uncommitted_position ∧
    (LocalPlayerController.ApplyInput player board keys).has_uncommitted_move = true ∧
    (∀ payload so, Event.send payload so ∈ (g.Update ndebug inp).events →
      payload = SerializedData.bytes ⟨g.turn_number_, g.local_player_.uncommitted_position⟩) ∧
    (∀ gc, g.atCommitCheck ndebug inp = some gc →
      gc.local_player_ = g.local_player_ ∧
      gc.local_player_.CommitMove.current_position = g.local_player_.uncommitted_position) ∧
    (∀ g1, (g.Update ndebug inp).game = some g1 →
      g1.local_player_ = g.local_player_ ∨
      (g1.turn_number_ = incInt32 g.turn_number_ ∧
        g1.local_player_.has_uncommitted_move = false ∧
        g1.local_player_.uncommitted_position = g.local_player_.uncommitted_position ∧
        (g1.local_player_.current_position = g.local_player_.uncommitted_position ∨
          g1.local_player_.current_position = g.local_player_.current_position))) := by
  have ha := ApplyInput_of_pending g.local_player_ g.board_ inp.keys hg
  refine ⟨?_, ?_, ?_, ?_, ?_, ?_⟩
  · rw [ApplyInput_of_pending player board keys hp]
  · rw [ApplyInput_of_pending player board keys hp]
  · rw [ApplyInput_of_pending player board keys hp]; exact hp
  · intro payload so hm
    have := ((Update_send_event ndebug g inp payload so).2 hm).2.2.2
    rw [ha] at this
    exact this
  · intro gc hc
    have hl := (atCommitCheck_frame ndebug g gc inp hc).2.2.2.1
    rw [ha] at hl
    refine ⟨hl, ?_⟩
    rw [hl]
    unfold Player.CommitMove
    simp [hg]
  · intro g1 h1
    rcases Update_cases ndebug g inp with ⟨gs, hgs, _, _, rfl⟩ | ⟨hn, _⟩ | ⟨gc, hgc, hc, _, _⟩
    · rw [hgs] at h1
      injection h1 with h1
      subst h1
      left
      rw [(Update_send_frame g inp.keys inp.send_outcome).1, ha]
    · rw [hn] at h1
      exact absurd h1 (by simp)
    · rw [hgc] at h1
      injection h1 with h1
      subst h1
      obtain ⟨ft, _, _, fl, _⟩ := atCommitCheck_frame ndebug g gc inp hc
      rw [ha] at fl
      rcases Update_commit_local gc with h | ⟨_, _, t, f, u, c⟩
      · left; rw [h, fl]
      · right
        rw [fl, ft] at *
        exact ⟨t, f, u, c⟩

/-- C29, witness: a player on (10, 7) with the pending move (11, 7), and the host
with that pending move, in a frame in which the left arrow is triggered. -/
theorem ApplyInput_pending_unchanged_witness :
    (LocalPlayerController.ApplyInput ⟨⟨10, 7⟩, ⟨11, 7⟩, true⟩ {}
      { KEY_LEFT := true }).uncommitted_position = ⟨11, 7⟩ ∧
    (∀ payload so,
      Event.send payload so ∈
        (bothPendingUnsent.Update false { keys := { KEY_LEFT := true } }).events →
      payload = SerializedData.bytes ⟨0, ⟨11, 7⟩⟩) :=
  ⟨(ApplyInput_pending_unchanged false ⟨⟨10, 7⟩, ⟨11, 7⟩, true⟩ {} { KEY_LEFT := true }
      bothPendingUnsent { keys := { KEY_LEFT := true } } rfl rfl).2.1,
   (ApplyInput_pending_unchanged false ⟨⟨10, 7⟩, ⟨11, 7⟩, true⟩ {} { KEY_LEFT := true }
      bothPendingUnsent { keys := { KEY_LEFT := true } } rfl rfl).2.2.2.1⟩

/-! ## Socket errors during gameplay -/

theorem Update_receive_error (ndebug : Bool) (g : LockstepGame) (e : Int) :
    g.Update_receive ndebug (.error e) = ([Event.recvfrom (.error e)], some g) := by
  unfold LockstepGame.Update_receive recvfrom
  simp [SOCKET_ERROR]

/-- C30.  A tick that calls `send` (the local move is pending after the input
and has not been sent) and whose `send` fails with any error code, would-block
included, returns right after the error handler: its only calls are that `send`
and what the handler does, there is no `recvfrom`, the commit check is not
reached, `is_local_update_sent` stays false, `turn_number`, the remote player
and the local `current_position` are as before, the local move stays pending,
and the `send` of the next tick carries the same twelve bytes whatever the keys. -/
theorem Update_send_failure_returns (ndebug : Bool) (g : LockstepGame) (inp : TickInput)
    (e : Int) (hsent : g.is_local_update_sent_ = false)
    (hmove : (LocalPlayerController.ApplyInput g.local_player_ g.board_
      inp.keys).has_uncommitted_move = true)
    (hfail : inp.send_outcome = .error e) :
    ∃ g1, (g.Update ndebug inp).game = some g1 ∧
      (g.Update ndebug inp).events =
        Event.send (SerializedData.bytes ⟨g.turn_number_,
          (LocalPlayerController.ApplyInput g.local_player_ g.board_
            inp.keys).uncommitted_position⟩) (.error e) ::
          (LockstepGame_HandleSocketError e).2 ∧
      (∀ ro, Event.recvfrom ro ∉ (g.Update ndebug inp).events) ∧
      g.atCommitCheck ndebug inp = none ∧
      g1.is_local_update_sent_ = false ∧
      g1.turn_number_ = g.turn_number_ ∧
      g1.local_player_ =
        LocalPlayerController.ApplyInput g.local_player_ g.board_ inp.keys ∧
      g1.local_player_.has_uncommitted_move = true ∧
      g1.local_player_.current_position = g.local_player_.current_position ∧
      g1.remote_player_ = g.remote_player_ ∧
      (∀ keys so, ∃ rest, (g1.Update_send keys so).1 =
        Event.send (SerializedData.bytes ⟨g.turn_number_,
          (LocalPlayerController.ApplyInput g.local_player_ g.board_
            inp.keys).uncommitted_position⟩) so :: rest) := by
  obtain ⟨hev, hret, hflag⟩ := Update_send_error g inp.keys e ⟨hsent, hmove⟩
  rw [← hfail] at hev hret hflag
  obtain ⟨fl, fr, ft, _, _⟩ := Update_send_frame g inp.keys inp.send_outcome
  obtain ⟨hb, hu⟩ := Update_of_returned ndebug g inp hret
  refine ⟨(g.Update_send inp.keys inp.send_outcome).2.1, ?_, ?_, ?_, ?_, hflag, ft, fl,
    ?_, ?_, fr, ?_⟩
  · rw [hu]
  · rw [hu]; simp only; rw [hev, hfail]
  · intro ro
    rw [hu]; simp only; rw [hev]
    rcases HandleSocketError_events e with h | h <;> simp [h]
  · rw [atCommitCheck_eq, hb]
  · rw [fl]; exact hmove
  · rw [fl]; exact ApplyInput_current _ _ _
  · intro keys so
    have hp : LocalPlayerController.ApplyInput
        (g.Update_send inp.keys inp.send_outcome).2.1.local_player_
        (g.Update_send inp.keys inp.send_outcome).2.1.board_ keys =
        LocalPlayerController.ApplyInput g.local_player_ g.board_ inp.keys := by
      rw [fl]
      exact ApplyInput_of_pending _ _ _ hmove
    have hc : (g.Update_send inp.keys inp.send_outcome).2.1.is_local_update_sent_ = false ∧
        (LocalPlayerController.ApplyInput
          (g.Update_send inp.keys inp.send_outcome).2.1.local_player_
          (g.Update_send inp.keys inp.send_outcome).2.1.board_ keys).has_uncommitted_move
          = true := ⟨hflag, by rw [hp]; exact hmove⟩
    cases so with
    | ok =>
      refine ⟨[], ?_⟩
      rw [(Update_send_ok _ keys hc).1, hp, ft]
    | error e1 =>
      refine ⟨(LockstepGame_HandleSocketError e1).2, ?_⟩
      rw [(Update_send_error _ keys e1 hc).1, hp, ft]

/-- C30, witness: on the host right after construction the right arrow is
triggered and `send` fails with the error 10054. -/
theorem Update_send_failure_returns_witness :
    ∃ g1, (hostStart.Update false rightKeySendFails).game = some g1 ∧
      hostStart.atCommitCheck false rightKeySendFails = none ∧
      g1.is_local_update_sent_ = false ∧
      g1.turn_number_ = 0 :=
  (Update_send_failure_returns false hostStart rightKeySendFails 10054 rfl (by decide)
    rfl).imp (fun _ h => ⟨h.1, h.2.2.2.1, h.2.2.2.2.1, h.2.2.2.2.2.1⟩)

/-! ## Invariants of the game -/

theorem run_induction (ndebug : Bool) (P : LockstepGame → Prop)
    (hstep : ∀ g inp g1, P g → (g.Update ndebug inp).game = some g1 → P g1) :
    ∀ (inputs : List TickInput) (g gf : LockstepGame),
      P g → (g.run ndebug inputs).2 = some gf → P gf := by
  intro inputs
  induction inputs with
  | nil =>
    intro g gf hg h
    simp only [LockstepGame.run, Option.some.injEq] at h
    exact h ▸ hg
  | cons inp rest ih =>
    intro g gf hg h
    unfold LockstepGame.run at h
    cases hu : (g.Update ndebug inp).game with
    | none => simp [hu] at h
    | some g1 =>
      simp only [hu] at h
      split at h
      · simp only [Option.some.injEq] at h
        exact h ▸ hstep g inp g1 hg hu
      · exact ih g1 gf (hstep g inp g1 hg hu) h

theorem construct_apart (socket : Nat) (is_host : Bool) (buf : Buffer) :
    (LockstepGame.construct socket is_host buf).local_player_.current_position ≠
      (LockstepGame.construct socket is_host buf).remote_player_.current_position ∧
    (LockstepGame.construct socket is_host buf).board_.IsValidTile
      (LockstepGame.construct socket is_host buf).local_player_.current_position = true ∧
    (LockstepGame.construct socket is_host buf).local_player_.has_uncommitted_move = false := by
  have h1 : (⟨10, 7⟩ : BoardPosition) ≠ ⟨12, 9⟩ := by decide
  have h2 : (⟨12, 9⟩ : BoardPosition) ≠ ⟨10, 7⟩ := by decide
  have v1 : Board.IsValidTile {} ⟨10, 7⟩ = true := by decide
  have v2 : Board.IsValidTile {} ⟨12, 9⟩ = true := by decide
  cases is_host
  · exact ⟨h2, v2, rfl⟩
  · exact ⟨h1, v1, rfl⟩

theorem resolve_apart (b : Bool) (ol orr nl nr : BoardPosition) (h : ol ≠ orr) :
    (resolve b ol orr nl nr).1 ≠ (resolve b ol orr nl nr).2 := by
  unfold resolve
  by_cases h1 : nl = nr
  · subst h1
    cases b
    · by_cases h2 : ol = nl
      · subst h2; simpa using h
      · simp [h2]
    · by_cases h2 : nl = orr
      · subst h2; simpa using h
      · simp [h2]
  · simp [h1]

theorem Update_commit_apart (g : LockstepGame)
    (h : g.local_player_.current_position ≠ g.remote_player_.current_position) :
    g.Update_commit.local_player_.current_position ≠
      g.Update_commit.remote_player_.current_position := by
  by_cases hb : g.local_player_.has_uncommitted_move = true ∧
      g.remote_player_.has_uncommitted_move = true
  · have hp := Update_commit_resolve g hb.1 hb.2
    have := resolve_apart g.is_host_ _ _ g.local_player_.uncommitted_position
      g.remote_player_.uncommitted_position h
    rw [← hp] at this
    exact this
  · rw [Update_commit_of_not_both g hb]
    exact h

theorem Update_apart (ndebug : Bool) (g g1 : LockstepGame) (inp : TickInput)
    (h : g.local_player_.current_position ≠ g.remote_player_.current_position)
    (h1 : (g.Update ndebug inp).game = some g1) :
    g1.local_player_.current_position ≠ g1.remote_player_.current_position := by
  rcases Update_cases ndebug g inp with ⟨gs, hgs, _, _, rfl⟩ | ⟨hn, _⟩ | ⟨gc, hgc, hc, _, _⟩
  · rw [hgs] at h1
    injection h1 with h1
    subst h1
    rw [(Update_send_frame g inp.keys inp.send_outcome).1,
      (Update_send_frame g inp.keys inp.send_outcome).2.1, ApplyInput_current]
    exact h
  · rw [hn] at h1
    exact absurd h1 (by simp)
  · rw [hgc] at h1
    injection h1 with h1
    subst h1
    obtain ⟨_, _, _, fl, fr, _⟩ := atCommitCheck_frame ndebug g gc inp hc
    apply Update_commit_apart
    rw [fl, fr, ApplyInput_current]
    exact h

theorem Update_returns (ndebug : Bool) (g : LockstepGame) (inp : TickInput)
    (h : ndebug = true ∨ inp.recv_outcome.isShort = false) :
    ∃ g1, (g.Update ndebug inp).game = some g1 := by
  rcases Update_cases ndebug g inp with ⟨gs, hgs, _⟩ | ⟨_, _, h1, h2⟩ | ⟨gc, hgc, _⟩
  · exact ⟨gs, hgs⟩
  · rcases h with h | h
    · rw [h] at h1; exact absurd h1 (by simp)
    · rw [h] at h2; exact absurd h2 (by simp)
  · exact ⟨_, hgc⟩

/-- C26.  Players never share a tile.  If the local and the remote
`current_position` of a game differ, then for every frame input (keys, outcome
of `send`, outcome of `recvfrom`, any datagram) they differ in the game that
`Update` leaves, and `Update` does leave a game unless a datagram of 1 to 11
bytes trips the size assertion.  The constructor puts the players on distinct
tiles, so the two positions differ in every state reached from it by any
sequence of frames. -/
theorem Update_players_apart (ndebug : Bool) (g : LockstepGame) (inp : TickInput)
    (h : g.local_player_.current_position ≠ g.remote_player_.current_position) :
    (∀ g1, (g.Update ndebug inp).game = some g1 →
      g1.local_player_.current_position ≠ g1.remote_player_.current_position) ∧
    ((ndebug = true ∨ inp.recv_outcome.isShort = false) →
      ∃ g1, (g.Update ndebug inp).game = some g1 ∧
        g1.local_player_.current_position ≠ g1.remote_player_.current_position) ∧
    (∀ (socket : Nat) (is_host : Bool) (fresh_buffer : Buffer) (inputs : List TickInput)
      (gf : LockstepGame),
      ((LockstepGame.construct socket is_host fresh_buffer).run ndebug inputs).2 = some gf →
      gf.local_player_.current_position ≠ gf.remote_player_.current_position) ∧
    (∀ (inputs : List TickInput) (gf : LockstepGame),
      (g.run ndebug inputs).2 = some gf →
      gf.local_player_.current_position ≠ gf.remote_player_.current_position) := by
  refine ⟨fun g1 h1 => Update_apart ndebug g g1 inp h h1, ?_, ?_, ?_⟩
  · intro hr
    obtain ⟨g1, h1⟩ := Update_returns ndebug g inp hr
    exact ⟨g1, h1, Update_apart ndebug g g1 inp h h1⟩
  · intro socket is_host fresh_buffer inputs gf hrun
    refine run_induction ndebug
      (fun s => s.local_player_.current_position ≠ s.remote_player_.current_position)
      (fun s i s1 hs h1 => Update_apart ndebug s s1 i hs h1) inputs _ gf
      (construct_apart socket is_host fresh_buffer).1 hrun
  · intro inputs gf hrun
    exact run_induction ndebug
      (fun s => s.local_player_.current_position ≠ s.remote_player_.current_position)
      (fun s i s1 hs h1 => Update_apart ndebug s s1 i hs h1) inputs g gf h hrun

/-- C26, witness: the collision scenario on the host, in which both players move
to (11, 8); after the tick the host stands on (11, 8) and the other player is
back on (11, 10). -/
theorem Update_players_apart_witness :
    ∃ g1, (collisionOnHost.Update false {}).game = some g1 ∧
      g1.local_player_.current_position ≠ g1.remote_player_.current_position :=
  (Update_players_apart false collisionOnHost {} (by decide)).2.1 (Or.inr rfl)

theorem Update_commit_board (g : LockstepGame) : g.Update_commit.board_ = g.board_ := by
  unfold LockstepGame.Update_commit LockstepGame.HandleCollision
  split
  · dsimp only
    split
    · split
      · split <;> rfl
      · split <;> rfl
    · rfl
  · rfl

theorem ApplyInput_valid (p : Player) (b : Board) (keys : KeyInput)
    (hc : b.IsValidTile p.current_position = true)
    (hu : p.has_uncommitted_move = true → b.IsValidTile p.uncommitted_position = true) :
    b.IsValidTile (LocalPlayerController.ApplyInput p b keys).current_position = true ∧
    ((LocalPlayerController.ApplyInput p b keys).has_uncommitted_move = true →
      b.IsValidTile (LocalPlayerController.ApplyInput p b keys).uncommitted_position
        = true) := by
  unfold LocalPlayerController.ApplyInput
  split
  · exact ⟨hc, hu⟩
  · split
    · exact ⟨hc, fun _ => hc⟩
    · dsimp only
      split
      · rename_i hv
        simp only [Bool.and_eq_true] at hv
        exact ⟨hc, fun _ => hv.2⟩
      · exact ⟨hc, hu⟩

theorem Update_local_valid (ndebug : Bool) (g g1 : LockstepGame) (inp : TickInput)
    (hc : g.board_.IsValidTile g.local_player_.current_position = true)
    (hu : g.local_player_.has_uncommitted_move = true →
      g.board_.IsValidTile g.local_player_.uncommitted_position = true)
    (h1 : (g.Update ndebug inp).game = some g1) :
    g1.board_.IsValidTile g1.local_player_.current_position = true ∧
    (g1.local_player_.has_uncommitted_move = true →
      g1.board_.IsValidTile g1.local_player_.uncommitted_position = true) := by
  have hv := ApplyInput_valid g.local_player_ g.board_ inp.keys hc hu
  rcases Update_cases ndebug g inp with ⟨gs, hgs, _, _, rfl⟩ | ⟨hn, _⟩ | ⟨gc, hgc, hcc, _, _⟩
  · rw [hgs] at h1
    injection h1 with h1
    subst h1
    rw [(Update_send_frame g inp.keys inp.send_outcome).1,
      (Update_send_frame g inp.keys inp.send_outcome).2.2.2.2]
    exact hv
  · rw [hn] at h1
    exact absurd h1 (by simp)
  · rw [hgc] at h1
    injection h1 with h1
    subst h1
    obtain ⟨_, _, fb, fl, _, _⟩ := atCommitCheck_frame ndebug g gc inp hcc
    rw [← fl, ← fb] at hv
    rw [Update_commit_board]
    rcases Update_commit_local gc with h | ⟨hp, _, _, f, _, c⟩
    · rw [h]; exact hv
    · refine ⟨?_, fun hh => ?_⟩
      · rcases c with c | c
        · rw [c]; exact hv.2 hp
        · rw [c]; exact hv.1
      · rw [f] at hh
        exact absurd hh (by simp)

/-- C27.  The local player never leaves the board.  In every state that
`LockstepGame.run` reaches from the constructor, for either role, any sequence
of frames with any keys, any outcome of `send` and anything received (datagrams
with arbitrary remote positions included), the local `current_position` is a
valid tile of the board, and so is the local `uncommitted_position` whenever
`has_uncommitted_move` is true.  Each tick keeps this: if it holds of a game, it
holds of the game that `Update` leaves. -/
theorem local_player_stays_on_board (ndebug : Bool) (socket : Nat) (is_host : Bool)
    (fresh_buffer : Buffer) (inputs : List TickInput) (gf : LockstepGame)
    (hrun : ((LockstepGame.construct socket is_host fresh_buffer).run ndebug inputs).2
      = some gf) :
    gf.board_.IsValidTile gf.local_player_.current_position = true ∧
    (gf.local_player_.has_uncommitted_move = true →
      gf.board_.IsValidTile gf.local_player_.uncommitted_position = true) ∧
    (∀ (inp : TickInput) (g1 : LockstepGame), (gf.Update ndebug inp).game = some g1 →
      g1.board_.IsValidTile g1.local_player_.current_position = true ∧
      (g1.local_player_.has_uncommitted_move = true →
        g1.board_.IsValidTile g1.local_player_.uncommitted_position = true)) := by
  have key := run_induction ndebug
    (fun s => s.board_.IsValidTile s.local_player_.current_position = true ∧
      (s.local_player_.has_uncommitted_move = true →
        s.board_.IsValidTile s.local_player_.uncommitted_position = true))
    (fun s i s1 hs h1 => Update_local_valid ndebug s s1 i hs.1 hs.2 h1) inputs _ gf
    ⟨(construct_apart socket is_host fresh_buffer).2.1, fun h => by
      rw [(construct_apart socket is_host fresh_buffer).2.2] at h
      exact absurd h (by simp)⟩ hrun
  exact ⟨key.1, key.2, fun inp g1 h1 => Update_local_valid ndebug gf g1 inp key.1 key.2 h1⟩

/-- C27, witness: three frames of the host. -/
theorem local_player_stays_on_board_witness :
    ∃ gf, (hostStart.run false threeFrames).2 = some gf ∧
      gf.board_.IsValidTile gf.local_player_.current_position = true :=
  ⟨((hostStart.run false threeFrames).2).getD hostStart, rfl,
   (local_player_stays_on_board false 1 true zeroBuffer threeFrames _ rfl).1⟩

/-- C28.  The assertion of `Board::GetCenterOfTile` fails when reached from
`LockstepGame::Draw`.  On the host right after construction, one frame in which
the right arrow is triggered and a datagram of twelve bytes arrives that names
turn 0 and the position (100, 100): `Update` commits both moves, the remote
`current_position` is (100, 100), which is not a valid tile of the 23 × 17
board, and `Draw`, called next in the same frame, fails the assertion. -/
theorem Draw_assertion_fails :
    (hostStart.run false [rightKeyFarMoveArrives]).2.map
      (fun g => (g.turn_number_, g.local_player_.current_position,
        g.remote_player_.current_position,
        g.board_.IsValidTile g.remote_player_.current_position, g.Draw false)) =
      some (1, ⟨11, 7⟩, ⟨100, 100⟩, false, none) ∧
    Event.PlayDefaultGame ∉ (hostStart.run false [rightKeyFarMoveArrives]).1 ∧
    hostStart.Draw false = some () := by
  decide

/-! ## The sockets of the rendezvous states and the queued game -/

theorem delete_count {F : Type} (w : Globals F) (s : Nat) (hq : NotQueuedOn w s) :
    (BoardGame.delete w.next_game).count (Effect.closesocket s) = 0 := by
  rcases BoardGame.delete_cases w.next_game with h | ⟨g, hg, h⟩
  · rw [h]; rfl
  · rw [h]
    have := hq g hg
    simp [List.count_cons, this]

theorem role_not_queued {F : Type} (w : Globals F) (s : Nat) (b : Bool)
    (hq : NotQueuedOn w s) : BoardGame.lockstepRole w.next_game ≠ some (s, b) := by
  intro h
  match hg : w.next_game with
  | none => rw [hg] at h; simp [BoardGame.lockstepRole] at h
  | some (.single g) => rw [hg] at h; simp [BoardGame.lockstepRole] at h
  | some (.lockstep g) =>
    rw [hg] at h
    simp only [BoardGame.lockstepRole, Option.some.injEq, Prod.mk.injEq] at h
    exact hq g hg h.1

theorem LockstepConnectingState_tick {F : Type} (ops : FloatOps F) (w : Globals F)
    (inp : StateInput F) (hq : NotQueuedOn w w.connecting_socket) :
    (LockstepConnectingState_Update ops w inp).1.connecting_socket = w.connecting_socket ∧
    ((CP_Engine_queued GameState.LockstepConnectingState
          (LockstepConnectingState_Update ops w inp).2 = none ∧
        (LockstepConnectingState_Update ops w inp).1.next_game = w.next_game ∧
        (LockstepConnectingState_Update ops w inp).2.count
          (Effect.closesocket w.connecting_socket) = 0) ∨
      ((CP_Engine_queued GameState.LockstepConnectingState
          (LockstepConnectingState_Update ops w inp).2).isSome = true ∧
        (LockstepConnectingState_Update ops w inp).2.count
          (Effect.closesocket w.connecting_socket) ≤ 1 ∧
        (BoardGame.lockstepRole (LockstepConnectingState_Update ops w inp).1.next_game =
            some (w.connecting_socket, false) →
          (LockstepConnectingState_Update ops w inp).2.count
            (Effect.closesocket w.connecting_socket) = 0))) := by
  have hd := delete_count w w.connecting_socket hq
  have hr := role_not_queued w w.connecting_socket false hq
  unfold LockstepConnectingState_Update
  by_cases hesc : inp.KEY_ESCAPE = true
  · simp only [hesc, if_true]
    refine ⟨rfl, Or.inr ⟨?_, ?_, ?_⟩⟩
    · simp [ConfigureLockstep, CP_Engine_queued]
    · simp [ConfigureLockstep, List.count_cons]
    · intro h; exact absurd h hr
  · simp only [hesc, Bool.false_eq_true, if_false]
    by_cases ht : ops.le_zero (ops.sub w.connecting_timeout_secs inp.dt) = true
    · simp only [ht, if_true]
      refine ⟨rfl, Or.inr ⟨?_, ?_, ?_⟩⟩
      · simp [HostLockstep, CP_Engine_queued]
      · simp [HostLockstep, List.count_cons]
      · intro h; exact absurd h hr
    · simp only [ht, Bool.false_eq_true, if_false]
      by_cases hres : inp.recv_outcome.res 4096 = SOCKET_ERROR
      · simp only [hres, if_true]
        by_cases hwb : inp.recv_outcome.wsa_error 4096 = WSAEWOULDBLOCK
        · simp only [hwb, ne_eq, not_true_eq_false, if_false]
          refine ⟨trivial, Or.inl ⟨?_, trivial, ?_⟩⟩
          · simp [CP_Engine_queued]
          · simp [List.count_cons]
        · simp only [ne_eq, hwb, not_false_eq_true, if_true,
            LockstepConnectingState_HandleSocketError, if_false]
          by_cases hcr : inp.recv_outcome.wsa_error 4096 = WSAECONNRESET
          · simp only [hcr, if_true]
            refine ⟨rfl, Or.inr ⟨?_, ?_, ?_⟩⟩
            · simp [HostLockstep, CP_Engine_queued]
            · simp [HostLockstep, List.count_cons]
            · intro h; exact absurd h hr
          · simp only [hcr, if_false]
            refine ⟨rfl, Or.inr ⟨?_, ?_, ?_⟩⟩
            · simp [PlayDefaultGame, PlayGame, CP_Engine_queued, List.foldl_append]
            · simp [PlayDefaultGame, PlayGame, List.count_cons, List.count_append, hd]
            · intro h
              simp [PlayDefaultGame, PlayGame, BoardGame.lockstepRole] at h
      · simp only [hres, if_false]
        by_cases hpos : inp.recv_outcome.res 4096 > 0
        · simp only [hpos, if_true]
          refine ⟨rfl, Or.inr ⟨?_, ?_, ?_⟩⟩
          · simp [PlayGame, CP_Engine_queued, List.foldl_append]
          · simp [PlayGame, List.count_cons, List.count_append, hd]
          · intro _
            simp [PlayGame, List.count_cons, List.count_append, hd]
        · simp only [hpos, if_false]
          refine ⟨trivial, Or.inl ⟨?_, trivial, ?_⟩⟩
          · simp [CP_Engine_queued]
          · simp [List.count_cons]

theorem LockstepConnectingState_frames_close {F : Type} (ops : FloatOps F) :
    ∀ (inputs : List (StateInput F)) (w : Globals F),
      NotQueuedOn w w.connecting_socket →
      (LockstepConnectingState_frames ops w inputs).2.count
        (Effect.closesocket w.connecting_socket) ≤ 1 ∧
      (BoardGame.lockstepRole (LockstepConnectingState_frames ops w inputs).1.next_game =
          some (w.connecting_socket, false) →
        (LockstepConnectingState_frames ops w inputs).2.count
          (Effect.closesocket w.connecting_socket) = 0) := by
  intro inputs
  induction inputs with
  | nil =>
    intro w _
    simp [LockstepConnectingState_frames]
  | cons inp rest ih =>
    intro w hq
    obtain ⟨hs, ht⟩ := LockstepConnectingState_tick ops w inp hq
    unfold LockstepConnectingState_frames
    rcases ht with ⟨hn, hg, hc⟩ | ⟨hsome, hc, hrole⟩
    · have hq1 : NotQueuedOn (LockstepConnectingState_Update ops w inp).1
          (LockstepConnectingState_Update ops w inp).1.connecting_socket := by
        intro g h
        rw [hs]
        rw [hg] at h
        exact hq g h
      have := ih _ hq1
      rw [hs] at this
      simp only [hn, Option.isSome_none, Bool.false_eq_true, if_false, List.count_append, hc,
        Nat.zero_add]
      exact this
    · simp only [hsome, if_true, LockstepConnectingState_Exit, List.append_nil]
      exact ⟨hc, hrole⟩

theorem LockstepHostingState_tick {F : Type} (w : Globals F) (inp : StateInput F)
    (hq : NotQueuedOn w w.hosting_socket) :
    (LockstepHostingState_Update w inp).1.hosting_socket = w.hosting_socket ∧
    ((CP_Engine_queued GameState.LockstepHostingState
          (LockstepHostingState_Update w inp).2 = none ∧
        (LockstepHostingState_Update w inp).1.next_game = w.next_game ∧
        (LockstepHostingState_Update w inp).2.count
          (Effect.closesocket w.hosting_socket) = 0) ∨
      ((CP_Engine_queued GameState.LockstepHostingState
          (LockstepHostingState_Update w inp).2).isSome = true ∧
        (LockstepHostingState_Update w inp).2.count
          (Effect.closesocket w.hosting_socket) ≤ 1 ∧
        (BoardGame.lockstepRole (LockstepHostingState_Update w inp).1.next_game =
            some (w.hosting_socket, true) →
          (LockstepHostingState_Update w inp).2.count
            (Effect.closesocket w.hosting_socket) = 0))) := by
  have hd := delete_count w w.hosting_socket hq
  have hr := role_not_queued w w.hosting_socket true hq
  have herr : ∀ (e : Int) (pre : List Effect),
      pre.count (Effect.closesocket w.hosting_socket) = 0 →
      CP_Engine_queued GameState.LockstepHostingState pre = none →
      (LockstepHostingState_HandleSocketError w e).2.1.hosting_socket = w.hosting_socket ∧
      ((CP_Engine_queued GameState.LockstepHostingState
            (pre ++ (LockstepHostingState_HandleSocketError w e).2.2) = none ∧
          (LockstepHostingState_HandleSocketError w e).2.1.next_game = w.next_game ∧
          (pre ++ (LockstepHostingState_HandleSocketError w e).2.2).count
            (Effect.closesocket w.hosting_socket) = 0) ∨
        ((CP_Engine_queued GameState.LockstepHostingState
            (pre ++ (LockstepHostingState_HandleSocketError w e).2.2)).isSome = true ∧
          (pre ++ (LockstepHostingState_HandleSocketError w e).2.2).count
            (Effect.closesocket w.hosting_socket) ≤ 1 ∧
          (BoardGame.lockstepRole (LockstepHostingState_HandleSocketError w e).2.1.next_game =
              some (w.hosting_socket, true) →
            (pre ++ (LockstepHostingState_HandleSocketError w e).2.2).count
              (Effect.closesocket w.hosting_socket) = 0))) := by
    intro e pre hpre hqn
    unfold LockstepHostingState_HandleSocketError
    by_cases hwb : e = WSAEWOULDBLOCK
    · simp only [hwb, if_true, List.append_nil]
      exact ⟨trivial, Or.inl ⟨hqn, trivial, hpre⟩⟩
    · simp only [hwb, if_false]
      refine ⟨rfl, Or.inr ⟨?_, ?_, ?_⟩⟩
      · simp [PlayDefaultGame, PlayGame, CP_Engine_queued, List.foldl_append]
      · simp [PlayDefaultGame, PlayGame, List.count_cons, List.count_append, hd, hpre]
      · intro h
        simp [PlayDefaultGame, PlayGame, BoardGame.lockstepRole] at h
  unfold LockstepHostingState_Update
  by_cases hesc : inp.KEY_ESCAPE = true
  · simp only [hesc, if_true]
    refine ⟨rfl, Or.inr ⟨?_, ?_, ?_⟩⟩
    · simp [ConfigureLockstep, CP_Engine_queued]
    · simp [ConfigureLockstep, List.count_cons]
    · intro h; exact absurd h hr
  · simp only [hesc, Bool.false_eq_true, if_false]
    by_cases hpos : inp.recv_outcome.res 4096 > 0
    · simp only [hpos, if_true]
      cases hc : inp.connect_outcome with
      | error e =>
        exact herr e _ (by simp [List.count_cons]) (by simp [CP_Engine_queued])
      | ok =>
        cases hsd : inp.send_outcome with
        | error e =>
          exact herr e _ (by simp [List.count_cons]) (by simp [CP_Engine_queued])
        | ok =>
          simp only
          refine ⟨rfl, Or.inr ⟨?_, ?_, ?_⟩⟩
          · simp [PlayGame, CP_Engine_queued, List.foldl_append]
          · simp [PlayGame, List.count_cons, List.count_append, hd]
          · intro _
            simp [PlayGame, List.count_cons, List.count_append, hd]
    · simp only [hpos, if_false]
      refine ⟨trivial, Or.inl ⟨?_, trivial, ?_⟩⟩
      · simp [CP_Engine_queued]
      · simp [List.count_cons]

theorem LockstepHostingState_frames_close {F : Type} :
    ∀ (inputs : List (StateInput F)) (w : Globals F),
      NotQueuedOn w w.hosting_socket →
      (LockstepHostingState_frames w inputs).2.count
        (Effect.closesocket w.hosting_socket) ≤ 1 ∧
      (BoardGame.lockstepRole (LockstepHostingState_frames w inputs).1.next_game =
          some (w.hosting_socket, true) →
        (LockstepHostingState_frames w inputs).2.count
          (Effect.closesocket w.hosting_socket) = 0) := by
  intro inputs
  induction inputs with
  | nil =>
    intro w _
    simp [LockstepHostingState_frames]
  | cons inp rest ih =>
    intro w hq
    obtain ⟨hs, ht⟩ := LockstepHostingState_tick w inp hq
    unfold LockstepHostingState_frames
    rcases ht with ⟨hn, hg, hc⟩ | ⟨hsome, hc, hrole⟩
    · have hq1 : NotQueuedOn (LockstepHostingState_Update w inp).1
          (LockstepHostingState_Update w inp).1.hosting_socket := by
        intro g h
        rw [hs]
        rw [hg] at h
        exact hq g h
      have := ih _ hq1
      rw [hs] at this
      simp only [hn, Option.isSome_none, Bool.false_eq_true, if_false, List.count_append, hc,
        Nat.zero_add]
      exact this
    · simp only [hsome, if_true, LockstepHostingState_Exit, List.append_nil]
      exact ⟨hc, hrole⟩

theorem LockstepConnectingState_reset_close {F : Type} (ops : FloatOps F) (w : Globals F)
    (inp : StateInput F) (hesc : inp.KEY_ESCAPE = false)
    (hreset : inp.recv_outcome = .error WSAECONNRESET) :
    (LockstepConnectingState_Update ops w inp).2.count
      (Effect.closesocket w.connecting_socket) = 1 ∧
    CP_Engine_queued GameState.LockstepConnectingState
      (LockstepConnectingState_Update ops w inp).2 = some GameState.LockstepHostingState := by
  unfold LockstepConnectingState_Update
  simp only [hesc, Bool.false_eq_true, if_false]
  by_cases ht : ops.le_zero (ops.sub w.connecting_timeout_secs inp.dt) = true
  · simp only [ht, if_true]
    constructor
    · simp [HostLockstep, List.count_cons]
    · simp [HostLockstep, CP_Engine_queued]
  · simp only [ht, Bool.false_eq_true, if_false, hreset]
    have e1 : (RecvOutcome.error WSAECONNRESET).res 4096 = SOCKET_ERROR := rfl
    have e2 : (RecvOutcome.error WSAECONNRESET).wsa_error 4096 = WSAECONNRESET := rfl
    have e3 : WSAECONNRESET ≠ WSAEWOULDBLOCK := by decide
    simp only [e1, e2, if_true, ne_eq, e3, not_false_eq_true,
      LockstepConnectingState_HandleSocketError, if_false]
    constructor
    · simp [HostLockstep, List.count_cons]
    · simp [HostLockstep, CP_Engine_queued]

theorem LockstepConnectingState_handoff {F : Type} (ops : FloatOps F) (w : Globals F)
    (inp : StateInput F) (hesc : inp.KEY_ESCAPE = false)
    (htime : ops.le_zero (ops.sub w.connecting_timeout_secs inp.dt) = false)
    (hres : inp.recv_outcome.res 4096 > 0) :
    BoardGame.lockstepRole (LockstepConnectingState_Update ops w inp).1.next_game =
      some (w.connecting_socket, false) := by
  have r1 : inp.recv_outcome.res 4096 ≠ SOCKET_ERROR := by
    unfold SOCKET_ERROR; omega
  unfold LockstepConnectingState_Update
  simp only [hesc, Bool.false_eq_true, if_false, htime, r1, hres, if_true]
  rfl

theorem LockstepHostingState_handoff {F : Type} (w : Globals F) (inp : StateInput F)
    (hesc : inp.KEY_ESCAPE = false) (hres : inp.recv_outcome.res 4096 > 0)
    (hc : inp.connect_outcome = .ok) (hs : inp.send_outcome = .ok) :
    BoardGame.lockstepRole (LockstepHostingState_Update w inp).1.next_game =
      some (w.hosting_socket, true) := by
  unfold LockstepHostingState_Update
  simp only [hesc, Bool.false_eq_true, if_false, hres, if_true, hc, hs]
  rfl

/-- C24.  Take the connecting and the hosting state at any globals in which no
lock-step game on the socket of the state is already queued (such a game would
close the socket in its own destructor, which is not rendezvous code).  Along
every sequence of frames of the state, from its first `Update` to its `Exit`,
the socket of the state is closed at most once, and not at all when the state
ends by handing the socket to a `LockstepGame` (a response received while
connecting, a probe acknowledged while hosting): the `Update` that hands the
socket over does not close it and `Exit` does nothing.  A tick of the connecting
state without ESC whose `recvfrom` reports `WSAECONNRESET` closes the connecting
socket exactly once, and so does the path that ends with it. -/
theorem rendezvous_socket_closed_once {F : Type} (ops : FloatOps F) (w : Globals F)
    (hqc : NotQueuedOn w w.connecting_socket) (hqh : NotQueuedOn w w.hosting_socket) :
    (∀ inputs, (LockstepConnectingState_frames ops w inputs).2.count
      (Effect.closesocket w.connecting_socket) ≤ 1) ∧
    (∀ inputs, (LockstepHostingState_frames w inputs).2.count
      (Effect.closesocket w.hosting_socket) ≤ 1) ∧
    (∀ inputs,
      BoardGame.lockstepRole (LockstepConnectingState_frames ops w inputs).1.next_game =
        some (w.connecting_socket, false) →
      (LockstepConnectingState_frames ops w inputs).2.count
        (Effect.closesocket w.connecting_socket) = 0) ∧
    (∀ inputs,
      BoardGame.lockstepRole (LockstepHostingState_frames w inputs).1.next_game =
        some (w.hosting_socket, true) →
      (LockstepHostingState_frames w inputs).2.count
        (Effect.closesocket w.hosting_socket) = 0) ∧
    (∀ inp, inp.KEY_ESCAPE = false →
      ops.le_zero (ops.sub w.connecting_timeout_secs inp.dt) = false →
      inp.recv_outcome.res 4096 > 0 →
      BoardGame.lockstepRole (LockstepConnectingState_Update ops w inp).1.next_game =
        some (w.connecting_socket, false) ∧
      (LockstepConnectingState_Update ops w inp).2.count
        (Effect.closesocket w.connecting_socket) = 0 ∧
      (LockstepConnectingState_frames ops w [inp]).2.count
        (Effect.closesocket w.connecting_socket) = 0) ∧
    (∀ inp, inp.KEY_ESCAPE = false → inp.recv_outcome.res 4096 > 0 →
      inp.connect_outcome = .ok → inp.send_outcome = .ok →
      BoardGame.lockstepRole (LockstepHostingState_Update w inp).1.next_game =
        some (w.hosting_socket, true) ∧
      (LockstepHostingState_Update w inp).2.count
        (Effect.closesocket w.hosting_socket) = 0 ∧
      (LockstepHostingState_frames w [inp]).2.count
        (Effect.closesocket w.hosting_socket) = 0) ∧
    (∀ w1 : Globals F, LockstepConnectingState_Exit w1 = (w1, []) ∧
      LockstepHostingState_Exit w1 = (w1, [])) ∧
    (∀ inp, inp.KEY_ESCAPE = false → inp.recv_outcome = .error WSAECONNRESET →
      (LockstepConnectingState_Update ops w inp).2.count
        (Effect.closesocket w.connecting_socket) = 1 ∧
      (LockstepConnectingState_frames ops w [inp]).2.count
        (Effect.closesocket w.connecting_socket) = 1) := by
  refine ⟨fun inputs => (LockstepConnectingState_frames_close ops inputs w hqc).1,
    fun inputs => (LockstepHostingState_frames_close inputs w hqh).1,
    fun inputs => (LockstepConnectingState_frames_close ops inputs w hqc).2,
    fun inputs => (LockstepHostingState_frames_close inputs w hqh).2, ?_, ?_,
    fun w1 => ⟨rfl, rfl⟩, ?_⟩
  · intro inp hesc htime hres
    have hrole := LockstepConnectingState_handoff ops w inp hesc htime hres
    have hframes : BoardGame.lockstepRole
        (LockstepConnectingState_frames ops w [inp]).1.next_game =
        some (w.connecting_socket, false) := by
      unfold LockstepConnectingState_frames
      split
      · exact hrole
      · simp only [LockstepConnectingState_frames]; exact hrole
    refine ⟨hrole, ?_, (LockstepConnectingState_frames_close ops [inp] w hqc).2 hframes⟩
    rcases (LockstepConnectingState_tick ops w inp hqc).2 with ⟨_, _, h0⟩ | ⟨_, _, h0⟩
    · exact h0
    · exact h0 hrole
  · intro inp hesc hres hc hs
    have hrole := LockstepHostingState_handoff w inp hesc hres hc hs
    have hframes : BoardGame.lockstepRole
        (LockstepHostingState_frames w [inp]).1.next_game =
        some (w.hosting_socket, true) := by
      unfold LockstepHostingState_frames
      split
      · exact hrole
      · simp only [LockstepHostingState_frames]; exact hrole
    refine ⟨hrole, ?_, (LockstepHostingState_frames_close [inp] w hqh).2 hframes⟩
    rcases (LockstepHostingState_tick w inp hqh).2 with ⟨_, _, h0⟩ | ⟨_, _, h0⟩
    · exact h0
    · exact h0 hrole
  · intro inp hesc hreset
    obtain ⟨h1, h2⟩ := LockstepConnectingState_reset_close ops w inp hesc hreset
    refine ⟨h1, ?_⟩
    unfold LockstepConnectingState_frames
    simp only [h2, Option.isSome_some, if_true, LockstepConnectingState_Exit, List.append_nil]
    exact h1

/-- C24, witness: connecting through socket 7, a quiet frame and then a frame in
which `recvfrom` reports `WSAECONNRESET`; a third frame is not run. -/
theorem rendezvous_socket_closed_once_witness :
    (LockstepConnectingState_frames secondsOps connectingOn4000
      [quietFrame, resetFrame, quietFrame]).2 =
      [Effect.recvfrom 7 (.error WSAEWOULDBLOCK), Effect.recvfrom 7 (.error WSAECONNRESET),
       Effect.CP_Engine_SetNextGameStateForced GameState.LockstepHostingState,
       Effect.closesocket 7] ∧
    (LockstepConnectingState_frames secondsOps connectingOn4000
      [quietFrame, resetFrame, quietFrame]).2.count (Effect.closesocket 7) ≤ 1 ∧
    (LockstepHostingState_frames hostingOn4000 [quietFrame, oneByteFrame, quietFrame]).2.count
      (Effect.closesocket 8) = 0 :=
  ⟨by decide,
   (rendezvous_socket_closed_once secondsOps connectingOn4000
      (fun g h => by simp [connectingOn4000] at h)
      (fun g h => by simp [connectingOn4000] at h)).1 [quietFrame, resetFrame, quietFrame],
   (rendezvous_socket_closed_once secondsOps hostingOn4000
      (fun g h => by simp [hostingOn4000] at h)
      (fun g h => by simp [hostingOn4000] at h)).2.2.2.1 [quietFrame, oneByteFrame, quietFrame]
      (by decide)⟩

/-! ## The commit without collision, from the start of the tick -/

theorem Update_send_returned (g : LockstepGame) (keys : KeyInput) (so : SendOutcome) :
    (g.Update_send keys so).2.2 = true ↔
      (g.is_local_update_sent_ = false ∧
        (LocalPlayerController.ApplyInput g.local_player_ g.board_ keys).has_uncommitted_move
          = true ∧ ∃ e, so = .error e) := by
  by_cases h : g.is_local_update_sent_ = false ∧
      (LocalPlayerController.ApplyInput g.local_player_ g.board_ keys).has_uncommitted_move
        = true
  · cases so with
    | ok =>
      rw [(Update_send_ok g keys h).2.1]
      simp
    | error e =>
      rw [(Update_send_error g keys e h).2.1]
      simp [h.1, h.2]
  · rw [Update_send_no_send g keys so h]
    constructor
    · intro hm; simp at hm
    · rintro ⟨h1, h2, _⟩; exact absurd ⟨h1, h2⟩ h

/-- C13, as the code has it.  In a tick whose commit check finds an uncommitted
move of both players with two different uncommitted positions, `Update` returns
with each player's `current_position` equal to the `uncommitted_position` it had
right before the commit and with `turn_number_` (below `INT_MAX` before)
increased by 1.  A tick gets to its commit check unless it calls `send` and
`send` fails (the local move is pending after the input and unsent), or a
datagram of 1 to 11 bytes trips the size assertion.  When `send` fails, `Update`
returns with nothing committed: the turn number, the local `current_position`
and the remote player are as before.  In particular a tick that starts with
both moves pending on different positions, whose `send` does not fail and whose
`recvfrom` finds no datagram, commits both moves. -/
theorem Update_commit_no_collision (ndebug : Bool) (g : LockstepGame) (inp : TickInput)
    (ht : g.turn_number_ ≠ INT_MAX) :
    (∀ gc, g.atCommitCheck ndebug inp = some gc →
      gc.local_player_.has_uncommitted_move = true →
      gc.remote_player_.has_uncommitted_move = true →
      gc.local_player_.uncommitted_position ≠ gc.remote_player_.uncommitted_position →
      ∃ g1, (g.Update ndebug inp).game = some g1 ∧
        g1.local_player_.current_position = gc.local_player_.uncommitted_position ∧
        g1.remote_player_.current_position = gc.remote_player_.uncommitted_position ∧
        g1.turn_number_ = g.turn_number_ + 1) ∧
    (g.atCommitCheck ndebug inp = none ↔
      ((g.is_local_update_sent_ = false ∧
          (LocalPlayerController.ApplyInput g.local_player_ g.board_
            inp.keys).has_uncommitted_move = true ∧
          ∃ e, inp.send_outcome = .error e) ∨
        (ndebug = false ∧ inp.recv_outcome.isShort = true))) ∧
    (g.is_local_update_sent_ = false →
      (LocalPlayerController.ApplyInput g.local_player_ g.board_
        inp.keys).has_uncommitted_move = true →
      (∃ e, inp.send_outcome = .error e) →
      ∃ g1, (g.Update ndebug inp).game = some g1 ∧
        g1.turn_number_ = g.turn_number_ ∧
        g1.local_player_ =
          LocalPlayerController.ApplyInput g.local_player_ g.board_ inp.keys ∧
        g1.local_player_.current_position = g.local_player_.current_position ∧
        g1.remote_player_ = g.remote_player_) ∧
    (g.local_player_.has_uncommitted_move = true →
      g.remote_player_.has_uncommitted_move = true →
      g.local_player_.uncommitted_position ≠ g.remote_player_.uncommitted_position →
      (g.is_local_update_sent_ = true ∨ inp.send_outcome = .ok) →
      (∃ e, inp.recv_outcome = .error e) →
      ∃ g1, (g.Update ndebug inp).game = some g1 ∧
        g1.local_player_.current_position = g.local_player_.uncommitted_position ∧
        g1.remote_player_.current_position = g.remote_player_.uncommitted_position ∧
        g1.turn_number_ = g.turn_number_ + 1) := by
  have part1 : ∀ gc, g.atCommitCheck ndebug inp = some gc →
      gc.local_player_.has_uncommitted_move = true →
      gc.remote_player_.has_uncommitted_move = true →
      gc.local_player_.uncommitted_position ≠ gc.remote_player_.uncommitted_position →
      ∃ g1, (g.Update ndebug inp).game = some g1 ∧
        g1.local_player_.current_position = gc.local_player_.uncommitted_position ∧
        g1.remote_player_.current_position = gc.remote_player_.uncommitted_position ∧
        g1.turn_number_ = g.turn_number_ + 1 := by
    intro gc hc hl hr hne
    rcases Update_cases ndebug g inp with ⟨gs, -, h2, -⟩ | ⟨-, h2, -⟩ | ⟨gc2, h1, h2, -, -⟩
    · rw [h2] at hc; exact absurd hc (by simp)
    · rw [h2] at hc; exact absurd hc (by simp)
    · rw [h2] at hc
      simp only [Option.some.injEq] at hc
      subst hc
      obtain ⟨p1, p2⟩ := Update_commit_positions gc2 hl hr
      obtain ⟨a1, -⟩ := atCommitCheck_frame ndebug g gc2 inp h2
      refine ⟨_, h1, ?_, ?_, ?_⟩
      · rw [p1, if_neg hne]
      · rw [p2, if_neg hne]
      · rw [(Update_commit_of_both gc2 hl hr).2.2.1, a1, incInt32_of_ne ht]
  refine ⟨part1, ?_, ?_, ?_⟩
  · constructor
    · intro hn
      rcases Update_cases ndebug g inp with ⟨gs, -, -, hf, -⟩ | ⟨-, -, h3, h4⟩ | ⟨gc, -, h2, -⟩
      · exact Or.inl ((Update_send_returned g inp.keys inp.send_outcome).mp hf)
      · exact Or.inr ⟨h3, h4⟩
      · rw [h2] at hn; exact absurd hn (by simp)
    · intro h
      rcases Update_cases ndebug g inp with ⟨gs, -, h2, -⟩ | ⟨-, h2, -⟩ | ⟨gc, -, -, hf, hrc⟩
      · exact h2
      · exact h2
      · rcases h with h | ⟨hd, hs⟩
        · rw [(Update_send_returned g inp.keys inp.send_outcome).mpr h] at hf
          exact absurd hf (by simp)
        · subst hd
          cases hro : inp.recv_outcome with
          | error e => rw [hro] at hs; simp [RecvOutcome.isShort] at hs
          | datagram payload =>
            rw [hro] at hs
            simp only [RecvOutcome.isShort, Bool.and_eq_true, decide_eq_true_eq] at hs
            have := (Update_short_datagram_aborts g inp payload hro hs.1 hs.2 hf).2.1
            rcases Update_cases false g inp with ⟨gs, h1, -⟩ | ⟨-, h2, -⟩ | ⟨gc1, h1, -⟩
            · rw [this] at h1; exact absurd h1 (by simp)
            · exact h2
            · rw [this] at h1; exact absurd h1 (by simp)
  · intro hsent hmove hfail
    have hf := (Update_send_returned g inp.keys inp.send_outcome).mpr ⟨hsent, hmove, hfail⟩
    obtain ⟨fl, fr, ft, -, -⟩ := Update_send_frame g inp.keys inp.send_outcome
    refine ⟨_, by rw [(Update_of_returned ndebug g inp hf).2], ft, fl, ?_, fr⟩
    rw [fl]; exact ApplyInput_current _ _ _
  · intro hl hr hne hs ⟨e, he⟩
    have ha := ApplyInput_of_pending g.local_player_ g.board_ inp.keys hl
    have hf : (g.Update_send inp.keys inp.send_outcome).2.2 = false := by
      cases hb : (g.Update_send inp.keys inp.send_outcome).2.2 with
      | false => rfl
      | true =>
        obtain ⟨h1, -, e1, h3⟩ := (Update_send_returned g inp.keys inp.send_outcome).mp hb
        rcases hs with hs | hs
        · rw [hs] at h1; exact absurd h1 (by simp)
        · rw [hs] at h3; exact absurd h3 (by simp)
    have hrc := Update_receive_error ndebug (g.Update_send inp.keys inp.send_outcome).2.1 e
    rw [← he] at hrc
    obtain ⟨hb, -⟩ := Update_of_commit_check ndebug g _ inp hf (congrArg Prod.snd hrc)
    have hc : g.atCommitCheck ndebug inp =
        some (g.Update_send inp.keys inp.send_outcome).2.1 := by
      rw [atCommitCheck_eq, hb]
    obtain ⟨fl, fr, -⟩ := Update_send_frame g inp.keys inp.send_outcome
    rw [ha] at fl
    have := part1 _ hc (by rw [fl]; exact hl) (by rw [fr]; exact hr)
      (by rw [fl, fr]; exact hne)
    rw [fl, fr] at this
    exact this

/-- C13, witness: turn 0, the host moves (9,8) → (10,8) and the other player
(11,10) → (10,10); the tick ends in turn 1 with the players on (10,8) and
(10,10). -/
theorem Update_commit_no_collision_witness :
    ∃ g1, (noCollisionOnHost.Update false {}).game = some g1 ∧
      g1.local_player_.current_position = ⟨10, 8⟩ ∧
      g1.remote_player_.current_position = ⟨10, 10⟩ ∧
      g1.turn_number_ = 0 + 1 :=
  (Update_commit_no_collision false noCollisionOnHost {} (by decide)).2.2.2 rfl rfl
    (by decide) (Or.inl rfl) ⟨_, rfl⟩

/-- C13, as stated, fails.  A host in turn 0 on (10,7) with the pending move
(11,7), not yet sent, and the remote player on (12,9) with the pending move
(12,8): both players have an uncommitted move and the two positions differ.  In
a tick in which `send` would block, `Update` returns before its commit check:
the turn number is still 0, the players are still on (10,7) and (12,9), and
both moves are still pending. -/
theorem Update_no_collision_no_commit :
    bothPendingUnsent.local_player_ = ⟨⟨10, 7⟩, ⟨11, 7⟩, true⟩ ∧
    bothPendingUnsent.remote_player_ = ⟨⟨12, 9⟩, ⟨12, 8⟩, true⟩ ∧
    bothPendingUnsent.turn_number_ = 0 ∧
    (bothPendingUnsent.Update false sendWouldBlock).game.map
      (fun g => (g.turn_number_, g.local_player_, g.remote_player_)) =
      some (0, ⟨⟨10, 7⟩, ⟨11, 7⟩, true⟩, ⟨⟨12, 9⟩, ⟨12, 8⟩, true⟩) ∧
    bothPendingUnsent.atCommitCheck false sendWouldBlock = none := by
  exact ⟨rfl, rfl, rfl, by decide, rfl⟩

/-! ## The queued game and the teardown of the outgoing game -/

/-- C25.  Mode switching is deferred.  For every game `g`, `PlayGame(g)` leaves
`current_game` as it is and only sets `next_game` to `g`; a game that was queued
before is deleted, so a queued lock-step game has its socket closed, by that
call and before the engine is asked, with force, for the play state;
`PlayGame(nullptr)` changes nothing and calls nothing.  `PlayGameState_Exit`
destroys the current game, which closes the socket of a lock-step game, and
sets `current_game` to null, leaving `next_game`; `PlayGameState_Init` sets
`current_game` to `next_game` and `next_game` to null and destroys nothing.  So
after `PlayGame(g)` the exit/init cycle of the play state first tears down the
outgoing game (the one call of `closesocket` for a lock-step game) and then
makes `g` the current game, with nothing queued.  None of the other functions of
the game states writes `current_game`. -/
theorem PlayGame_deferred {F : Type} (ops : FloatOps F) (w : Globals F) (g : BoardGame) :
    (PlayGame w (some g)).1.current_game = w.current_game ∧
    (PlayGame w (some g)).1.next_game = some g ∧
    (PlayGame w (some g)).1 = { w with next_game := some g } ∧
    (PlayGame w (some g)).2 = BoardGame.delete w.next_game ++
      [Effect.CP_Engine_SetNextGameStateForced GameState.PlayGameState] ∧
    (∀ current, CP_Engine_queued current (PlayGame w (some g)).2 =
      some GameState.PlayGameState) ∧
    PlayGame w none = (w, []) ∧
    (PlayGameState_Init w).current_game = w.next_game ∧
    (PlayGameState_Init w).next_game = none ∧
    (PlayGameState_Exit w).1.current_game = none ∧
    (PlayGameState_Exit w).1.next_game = w.next_game ∧
    (PlayGameState_Exit w).2 = BoardGame.delete w.current_game ∧
    (PlayGameState_Init (PlayGameState_Exit (PlayGame w (some g)).1).1).current_game =
      some g ∧
    (PlayGameState_Init (PlayGameState_Exit (PlayGame w (some g)).1).1).next_game = none ∧
    (PlayGameState_Exit (PlayGame w (some g)).1).2 = BoardGame.delete w.current_game ∧
    (PlayDefaultGame w).1.current_game = w.current_game ∧
    (ConfigureLockstep w).1.current_game = w.current_game ∧
    (∀ port, (ConnectLockstep w port).1.current_game = w.current_game ∧
      (HostLockstep w port).1.current_game = w.current_game) ∧
    (∀ inp, (LockstepConnectingState_Update ops w inp).1.current_game = w.current_game) ∧
    (∀ inp, (LockstepHostingState_Update w inp).1.current_game = w.current_game) ∧
    (∀ inp r, LockstepConfiguringState_Update w inp = some r →
      r.1.current_game = w.current_game) ∧
    (∀ g0, w.current_game = some (.lockstep g0) →
      (PlayGameState_Exit w).2 = [Effect.closesocket g0.socket_] ∧
      (PlayGameState_Exit (PlayGame w (some g)).1).2 = [Effect.closesocket g0.socket_] ∧
      (PlayGameState_Exit (PlayGame w (some g)).1).1.current_game = none ∧
      (PlayGameState_Init (PlayGameState_Exit (PlayGame w (some g)).1).1).current_game =
        some g) ∧
    ((w.current_game = none ∨ ∃ g0, w.current_game = some (.single g0)) →
      (PlayGameState_Exit w).2 = [] ∧
      (PlayGameState_Exit (PlayGame w (some g)).1).2 = []) ∧
    (∀ g0, w.next_game = some (.lockstep g0) →
      (PlayGame w (some g)).2 =
        [Effect.closesocket g0.socket_,
         Effect.CP_Engine_SetNextGameStateForced GameState.PlayGameState]) ∧
    ((w.next_game = none ∨ ∃ g0, w.next_game = some (.single g0)) →
      (PlayGame w (some g)).2 =
        [Effect.CP_Engine_SetNextGameStateForced GameState.PlayGameState]) := by
  refine ⟨rfl, rfl, rfl, rfl, fun current => CP_Engine_queued_forced_last _ _ _, rfl, rfl,
    rfl, rfl, rfl, rfl, rfl, rfl, rfl, rfl, rfl, fun port => ⟨rfl, rfl⟩, ?_, ?_, ?_, ?_, ?_, ?_, ?_⟩
  · intro inp
    unfold LockstepConnectingState_Update LockstepConnectingState_HandleSocketError
    dsimp only
    split_ifs <;> rfl
  · intro inp
    unfold LockstepHostingState_Update LockstepHostingState_HandleSocketError
    dsimp only
    cases inp.connect_outcome <;> cases inp.send_outcome <;> dsimp only <;> split_ifs <;> rfl
  · intro inp r h
    unfold LockstepConfiguringState_Update at h
    split at h
    · exact absurd h (by simp)
    · simp only [Option.some.injEq] at h
      subst h
      dsimp only
      split <;> split <;> rfl
  · intro g0 h0
    simp [PlayGameState_Exit, PlayGameState_Init, PlayGame, BoardGame.delete, h0]
  · rintro (h0 | ⟨g0, h0⟩) <;>
      simp [PlayGameState_Exit, PlayGame, BoardGame.delete, h0]
  · intro g0 h0
    simp [PlayGame, BoardGame.delete, h0]
  · rintro (h0 | ⟨g0, h0⟩) <;> simp [PlayGame, BoardGame.delete, h0]

/-- C25, witness: while a lock-step game on socket 9 is played, a single-player
game is queued with `PlayGame`: the call only asks the engine for the play state,
the exit that follows closes socket 9, and the init after it leaves nothing
queued.  And while a lock-step game on socket 9 is queued, `PlayGame` closes
socket 9 before it asks the engine for the play state. -/
theorem PlayGame_deferred_witness :
    (PlayGame playingLockstepOn9 (some (.single SinglePlayerGame.construct))).2 =
      [Effect.CP_Engine_SetNextGameStateForced GameState.PlayGameState] ∧
    (PlayGameState_Exit
      (PlayGame playingLockstepOn9 (some (.single SinglePlayerGame.construct))).1).2 =
      [Effect.closesocket 9] ∧
    (PlayGameState_Init (PlayGameState_Exit
      (PlayGame playingLockstepOn9 (some (.single SinglePlayerGame.construct))).1).1).next_game
      = none ∧
    (PlayGame lockstepOn9Queued (some (.single SinglePlayerGame.construct))).2 =
      [Effect.closesocket 9,
       Effect.CP_Engine_SetNextGameStateForced GameState.PlayGameState] :=
  ⟨(PlayGame_deferred secondsOps playingLockstepOn9 (.single SinglePlayerGame.construct)
      ).2.2.2.2.2.2.2.2.2.2.2.2.2.2.2.2.2.2.2.2.2.2.2 (Or.inl rfl),
   ((PlayGame_deferred secondsOps playingLockstepOn9 (.single SinglePlayerGame.construct)
      ).2.2.2.2.2.2.2.2.2.2.2.2.2.2.2.2.2.2.2.2.1 _ rfl).2.1,
   (PlayGame_deferred secondsOps playingLockstepOn9 (.single SinglePlayerGame.construct)
      ).2.2.2.2.2.2.2.2.2.2.2.2.1,
   (PlayGame_deferred secondsOps lockstepOn9Queued (.single SinglePlayerGame.construct)
      ).2.2.2.2.2.2.2.2.2.2.2.2.2.2.2.2.2.2.2.2.2.2.1 _ rfl⟩

end Lockstep
